import Mathlib

/-!
Verification development for the Kinetic animation DSL repository.

The repository (TypeScript) defines a JSON animation document format with
a zod validator (`src/dsl/validator.ts`), an expression resolver
(`src/dsl/parser.ts`), a timeline interpreter (`src/runtime/interpreter.ts`)
and compiler backends (`src/compiler/css/index.ts`).

This file shallowly embeds the functions those claims are about:
  * JavaScript numbers are modelled as exact rationals (`ℚ`), extended with
    `Infinity`, `-Infinity` and `NaN` where the resolver's arithmetic
    evaluator can produce them.  Binary floating point rounding is outside
    the model.
  * JSON values are an inductive type `Json`; objects are association
    lists whose key order is irrelevant to the validator (it only looks
    keys up, and builds its outputs with unique keys).
  * The interpreter's cooperative async execution is modelled as a
    deterministic virtual-time semantics: every timed wait advances a
    rational clock, handle invocations are recorded as timestamped
    actions, and `Promise.all` completes at the maximum child end time.
-/

namespace Kinetic

/-! ## Stagger calculation (`calculateStaggerDelay`, src/runtime/interpreter.ts) -/

/-- The `from` field of a `StaggerDefinition`: one of the four origin
keywords or an explicit numeric origin. -/
inductive StaggerFrom where
  | first
  | last
  | center
  | edges
  | idx (k : ℚ)
deriving Repr, DecidableEq

/-- `StaggerDefinition` (only the fields `calculateStaggerDelay` reads):
a per-element delay increment `each` and an optional origin. -/
structure StaggerDefinition where
  each : ℚ
  origin : Option StaggerFrom
deriving Repr, DecidableEq

/-- Embedding of `calculateStaggerDelay(index, total, stagger)`:
`const from = stagger.from ?? 'first'` followed by the if/else chain
computing `effectiveIndex`, returned multiplied by `stagger.each`. -/
def calculateStaggerDelay (index total : ℚ) (stagger : StaggerDefinition) : ℚ :=
  let f := stagger.origin.getD .first
  let effectiveIndex : ℚ :=
    match f with
    | .first => index
    | .last => total - 1 - index
    | .center => |index - (total - 1) / 2|
    | .edges => (total - 1) / 2 - |index - (total - 1) / 2|
    | .idx k => |index - k|
  effectiveIndex * stagger.each

/-! ## CSS backend spring approximation (`springToCubicBezier`,
`springToDuration`, src/compiler/css/index.ts) -/

/-- The direct-physics fields of `SpringConfig` that the CSS backend
reads (`stiffness`, `damping`, `mass`), each optional. -/
structure SpringConfigR where
  stiffness : Option ℝ
  damping : Option ℝ
  mass : Option ℝ

/-- The CSS backend accepts either a preset name (a string) or a spring
config object; `typeof spring === 'string'` discriminates. -/
inductive SpringInput where
  | str (s : String)
  | cfg (c : SpringConfigR)

/-- The `SPRING_BEZIERS` preset table of the CSS backend. -/
def SPRING_BEZIERS : List (String × String) :=
  [("gentle", "cubic-bezier(0.25, 0.1, 0.25, 1)"),
   ("wobbly", "cubic-bezier(0.68, -0.55, 0.27, 1.55)"),
   ("stiff", "cubic-bezier(0.4, 0, 0.2, 1)"),
   ("slow", "cubic-bezier(0.4, 0, 0.2, 1)"),
   ("molasses", "cubic-bezier(0.4, 0, 0.6, 1)"),
   ("bouncy", "cubic-bezier(0.68, -0.6, 0.32, 1.6)")]

/-- The `SPRING_DURATIONS` preset table of the CSS backend. -/
def SPRING_DURATIONS : List (String × ℝ) :=
  [("gentle", 0.6), ("wobbly", 0.8), ("stiff", 0.3),
   ("slow", 1.0), ("molasses", 1.5), ("bouncy", 0.6)]

/-- Embedding of `springToCubicBezier`: preset strings go through the
`SPRING_BEZIERS` table (default `cubic-bezier(0.4, 0, 0.2, 1)`); a config
takes defaults `stiffness = 100`, `damping = 10`, `mass = 1`, computes
`ratio = damping / (2 * Math.sqrt(stiffness * mass))` and picks a curve
by the `ratio < 0.5` and `ratio < 1` thresholds. -/
noncomputable def springToCubicBezier (spring : SpringInput) : String :=
  match spring with
  | .str s => ((SPRING_BEZIERS.lookup s).getD "cubic-bezier(0.4, 0, 0.2, 1)")
  | .cfg c =>
    let stiffness := c.stiffness.getD 100
    let damping := c.damping.getD 10
    let mass := c.mass.getD 1
    let ratio := damping / (2 * Real.sqrt (stiffness * mass))
    if ratio < 0.5 then "cubic-bezier(0.68, -0.6, 0.32, 1.6)"
    else if ratio < 1 then "cubic-bezier(0.34, 1.56, 0.64, 1)"
    else "cubic-bezier(0.4, 0, 0.2, 1)"

/-- Embedding of `springToDuration`: preset strings go through the
`SPRING_DURATIONS` table (default `0.5`); a config takes defaults
`stiffness = 100`, `mass = 1` and returns
`Math.min(2, Math.max(0.2, (4 * Math.PI) / Math.sqrt(stiffness / mass)))`. -/
noncomputable def springToDuration (spring : SpringInput) : ℝ :=
  match spring with
  | .str s => ((SPRING_DURATIONS.lookup s).getD 0.5)
  | .cfg c =>
    let stiffness := c.stiffness.getD 100
    let mass := c.mass.getD 1
    min 2 (max 0.2 ((4 * Real.pi) / Real.sqrt (stiffness / mass)))

end Kinetic

namespace Kinetic

/-! ## Expression resolver (src/dsl/parser.ts, src/dsl/validator.ts)

JavaScript numbers are modelled as exact rationals extended with the three
non-finite values the arithmetic evaluator can produce.  Expression texts
are modelled as `List Char`. -/

/-- A JavaScript number: a finite (exact rational) value, one of the two
infinities, or `NaN`.  Binary-floating-point rounding is outside the model:
finite arithmetic is exact. -/
inductive JSNum where
  | fin (q : ℚ)
  | inf
  | ninf
  | nan
deriving Repr, DecidableEq

/-- JS `+` on numbers. -/
def jsAdd : JSNum → JSNum → JSNum
  | .nan, _ => .nan
  | _, .nan => .nan
  | .inf, .ninf => .nan
  | .ninf, .inf => .nan
  | .inf, _ => .inf
  | _, .inf => .inf
  | .ninf, _ => .ninf
  | _, .ninf => .ninf
  | .fin a, .fin b => .fin (a + b)

/-- JS unary `-` on numbers (the sign of zero is outside the model). -/
def jsNeg : JSNum → JSNum
  | .nan => .nan
  | .inf => .ninf
  | .ninf => .inf
  | .fin a => .fin (-a)

/-- JS binary `-` on numbers. -/
def jsSub (a b : JSNum) : JSNum := jsAdd a (jsNeg b)

/-- JS `*` on numbers. -/
def jsMul : JSNum → JSNum → JSNum
  | .nan, _ => .nan
  | _, .nan => .nan
  | .inf, .inf => .inf
  | .inf, .ninf => .ninf
  | .ninf, .inf => .ninf
  | .ninf, .ninf => .inf
  | .inf, .fin b => if b = 0 then .nan else if 0 < b then .inf else .ninf
  | .fin a, .inf => if a = 0 then .nan else if 0 < a then .inf else .ninf
  | .ninf, .fin b => if b = 0 then .nan else if 0 < b then .ninf else .inf
  | .fin a, .ninf => if a = 0 then .nan else if 0 < a then .ninf else .inf
  | .fin a, .fin b => .fin (a * b)

/-- JS `/` on numbers (the sign of zero is outside the model, so division
by a zero produced as `-0` is approximated by the `+0` behaviour). -/
def jsDiv : JSNum → JSNum → JSNum
  | .nan, _ => .nan
  | _, .nan => .nan
  | .inf, .inf => .nan
  | .inf, .ninf => .nan
  | .ninf, .inf => .nan
  | .ninf, .ninf => .nan
  | .inf, .fin b => if 0 ≤ b then .inf else .ninf
  | .ninf, .fin b => if 0 ≤ b then .ninf else .inf
  | .fin _, .inf => .fin 0
  | .fin _, .ninf => .fin 0
  | .fin a, .fin b =>
    if b = 0 then
      if a = 0 then .nan else if 0 < a then .inf else .ninf
    else .fin (a / b)

/-- JS `**` on numbers.  Fractional powers of positive bases are
irrational in general and lie outside the exact-rational model; they are
approximated by `NaN` (JS would return a finite double there). -/
def jsPow : JSNum → JSNum → JSNum
  | _, .fin 0 => .fin 1
  | .nan, _ => .nan
  | _, .nan => .nan
  | a, .inf =>
    match a with
    | .inf => .inf
    | .ninf => .inf
    | .nan => .nan
    | .fin q => if |q| = 1 then .nan else if 1 < |q| then .inf else .fin 0
  | a, .ninf =>
    match a with
    | .inf => .fin 0
    | .ninf => .fin 0
    | .nan => .nan
    | .fin q => if |q| = 1 then .nan else if 1 < |q| then .fin 0 else .inf
  | .inf, .fin e => if 0 < e then .inf else .fin 0
  | .ninf, .fin e =>
    if 0 < e then (if e.den = 1 ∧ e.num % 2 ≠ 0 then .ninf else .inf)
    else .fin 0
  | .fin a, .fin e =>
    if e.den = 1 then
      if 0 < e.num then .fin (a ^ e.num.natAbs)
      else if a = 0 then .inf
      else .fin ((a ^ e.num.natAbs)⁻¹)
    else
      if a < 0 then .nan
      else if a = 0 then .fin 0
      else .nan

/-! ### Character classes -/

/-- `\w` of the `extractVariables` regex: ASCII letters, digits, `_`. -/
def isWordChar (c : Char) : Bool :=
  c.isAlpha || c.isDigit || c = '_'

/-- The character class kept by the sanitizer regex
`/[^0-9+\-*\/.() ]/g` of `evaluateComplexExpression`: digits, the four
operators, dot, parentheses, and the space character. -/
def allowedChar (c : Char) : Bool :=
  c.isDigit || c = '+' || c = '-' || c = '*' || c = '/' ||
    c = '.' || c = '(' || c = ')' || c = ' '

/-- JS `\s` (ASCII portion; Unicode space separators are outside the
model). -/
def jsWsChar (c : Char) : Bool :=
  c = ' ' || c = '\t' || c = '\n' || c = '\r' ||
    c = '\x0b' || c = '\x0c'

/-! ### `extractVariables` (src/dsl/validator.ts)

`expression.match(/\$(\w+)/g)` returns the successive non-overlapping
matches; each match is a `$` followed by a maximal nonempty run of word
characters. -/

/-- Embedding of `extractVariables`: the list of `\w+` names following a
`$`, in match order. -/
def extractVariables : List Char → List (List Char)
  | [] => []
  | c :: cs =>
    if c = '$' then
      let name := cs.takeWhile isWordChar
      if name.isEmpty then extractVariables cs
      else name :: extractVariables (cs.drop name.length)
    else extractVariables cs
termination_by cs => cs.length
decreasing_by
  all_goals
    try simp only [List.length_drop]
    simp only [List.length_cons]
    omega

/-! ### Decimal printing (JS `String(value)`)

`String(n)` for a JS number prints the shortest decimal representation of
the double.  The model prints exact rationals: integers in decimal,
terminating decimal fractions with trailing zeros trimmed; a rational with
a non-terminating decimal expansion cannot be an exact double, so it lies
outside the model and is printed as `num/den`. -/

/-- Decimal digits of a natural number, most significant first. -/
def natDigits (n : Nat) : List Char :=
  if h : n < 10 then [Nat.digitChar n]
  else natDigits (n / 10) ++ [Nat.digitChar (n % 10)]
decreasing_by
  exact Nat.div_lt_self (by omega) (by omega)

/-- Numeric value of a digit character. -/
def digitVal (c : Char) : Nat := c.toNat - 48

/-- Numeric value of a list of digit characters. -/
def digitsVal (cs : List Char) : Nat :=
  cs.foldl (fun a c => a * 10 + digitVal c) 0

/-- Decimal printing of an integer. -/
def intChars (i : ℤ) : List Char :=
  if i < 0 then '-' :: natDigits i.natAbs else natDigits i.natAbs

/-- Model of JS `String(q)` for a finite number (see the section
comment). -/
def ratDecimalChars (q : ℚ) : List Char :=
  let sign : List Char := if q < 0 then ['-'] else []
  let n := q.num.natAbs
  let d := q.den
  if d = 1 then sign ++ natDigits n
  else
    match (List.range 40).find? (fun k => d ∣ 10 ^ k) with
    | some k =>
      let scaled := n * 10 ^ k / d
      let ip := scaled / 10 ^ k
      let fp := scaled % 10 ^ k
      let fdigits := List.replicate (k - (natDigits fp).length) '0' ++ natDigits fp
      let trimmed := (fdigits.reverse.dropWhile (fun c => c = '0')).reverse
      sign ++ natDigits ip ++ (if trimmed.isEmpty then [] else '.' :: trimmed)
    | none => sign ++ natDigits n ++ '/' :: natDigits d

/-! ### Variable table and `getVariable` (src/dsl/parser.ts) -/

/-- A variable value as admitted by the root schema: a number, a string,
or a numeric array. -/
inductive VariableValue where
  | num (q : ℚ)
  | str (s : String)
  | arr (xs : List ℚ)
deriving Repr, DecidableEq

/-- The parser's `variables` record (keys modelled as character
lists). -/
def VarTable := List (List Char × VariableValue)

/-- Model of JS `String(value)` for a variable value (arrays print
comma-joined, `Array.prototype.toString`). -/
def jsToString : VariableValue → List Char
  | .num q => ratDecimalChars q
  | .str s => s.data
  | .arr xs => List.intercalate [','] (xs.map ratDecimalChars)

/-- Association-list lookup. -/
def lookupVar : VarTable → List Char → Option VariableValue
  | [], _ => none
  | (k, v) :: rest, p => if k = p then some v else lookupVar rest p

/-- Split a character list at a separator character (JS
`name.split('.')`). -/
def splitOnChar (sep : Char) : List Char → List (List Char)
  | [] => [[]]
  | c :: cs =>
    if c = sep then [] :: splitOnChar sep cs
    else
      match splitOnChar sep cs with
      | [] => [[c]]
      | g :: gs => (c :: g) :: gs

/-- The `current` cursor of `getVariable`'s descent: the root variables
object, a variable value, or JS `undefined`. -/
inductive Cur where
  | root
  | v (x : VariableValue)
  | undefV

/-- `typeof current === 'object'` (and not `null`): true for the root
record and for arrays; numbers and strings are primitives, `undefined` is
not an object. -/
def isObjectLike : Cur → Bool
  | .root => true
  | .v (.arr _) => true
  | _ => false

/-- Is `p` a canonical array-index string (nonempty, all digits, no
leading zero)?  JS `arr[p]` hits an element exactly for canonical numeric
strings. -/
def canonicalIndex (p : List Char) : Option Nat :=
  if p ≠ [] ∧ p.all Char.isDigit ∧ (p.head? = some '0' → p = ['0']) then
    some (digitsVal p)
  else none

/-- JS property access on a numeric array: a canonical in-range index
yields the element, `length` yields the length, anything else is
`undefined`. -/
def arrGet (xs : List ℚ) (p : List Char) : Cur :=
  if p = "length".data then .v (.num xs.length)
  else
    match canonicalIndex p with
    | some i => match xs[i]? with
      | some q => .v (.num q)
      | none => .undefV
    | none => .undefV

/-- One step `current = current[part]` of `getVariable`'s descent
(only called when `isObjectLike` holds). -/
def curGet (vars : VarTable) : Cur → List Char → Cur
  | .root, p =>
    match lookupVar vars p with
    | some x => .v x
    | none => .undefV
  | .v (.arr xs), p => arrGet xs p
  | _, _ => .undefV

/-- The loop of `getVariable`: for each part, require the cursor to be an
object, then index into it; at the end a value is returned and `undefined`
(or the never-reached root object) is `none`. -/
def getVariableGo (vars : VarTable) : List (List Char) → Cur → Option VariableValue
  | [], c =>
    match c with
    | .v x => some x
    | _ => none
  | p :: ps, c =>
    if isObjectLike c then getVariableGo vars ps (curGet vars c p)
    else none

/-- Embedding of `DSLParser.getVariable`: split the name on dots and
descend through the variables record. -/
def getVariable (name : List Char) (vars : VarTable) : Option VariableValue :=
  getVariableGo vars (splitOnChar '.' name) .root

/-! ### Global literal replacement (JS `resolved.replace(/\$name/g, str)`)

The pattern `\$` + name contains no regex metacharacters (names are
`\w+`), so the replacement is a plain left-to-right non-overlapping
global substring replacement; the replacement text is not rescanned. -/

/-- Non-overlapping left-to-right replacement of every occurrence of
`pat` in `s` by `rep`. -/
def replaceAll (s pat rep : List Char) : List Char :=
  match s with
  | [] => []
  | c :: cs =>
    if h : pat ≠ [] ∧ pat.isPrefixOf (c :: cs) then
      rep ++ replaceAll ((c :: cs).drop pat.length) pat rep
    else c :: replaceAll cs pat rep
termination_by s.length
decreasing_by
  · simp only [List.length_drop, List.length_cons]
    have : pat.length ≠ 0 := by
      simpa [List.length_eq_zero] using h.1
    omega
  · simp only [List.length_cons]
    omega

end Kinetic

namespace Kinetic

/-! ### The restricted arithmetic evaluator

`evaluateComplexExpression` hands the sanitized text to
`Function('"use strict"; return (…)')`.  The model is a JS lexer and
expression parser restricted to the characters that survive the
sanitizer: numeric literals (with the strict-mode leading-zero error),
`+ - * / ( )`, the two-character tokens `++ -- **` (maximal munch), and
the expression grammar Additive / Multiplicative / Exponentiation / Unary
/ Primary, in which `++`/`--` never parse (their operand is never a valid
assignment target here) and a unary expression cannot be the left operand
of `**`. -/

/-- Tokens of the restricted evaluator. -/
inductive Tok where
  | num (q : ℚ)
  | plus
  | minus
  | star
  | slash
  | lparen
  | rparen
  | dplus
  | dminus
  | dstar
deriving Repr, DecidableEq

/-- Lex one numeric literal (called when the head is a digit or a dot):
`digits [. digits]` or `. digits`, rejecting a multi-digit literal with a
leading zero (a strict-mode SyntaxError) and a lone dot. -/
def lexNumber (cs : List Char) : Option (ℚ × List Char) :=
  let ip := cs.takeWhile Char.isDigit
  let rest1 := cs.dropWhile Char.isDigit
  if 2 ≤ ip.length ∧ ip.head? = some '0' then none
  else if rest1.head? = some '.' then
    let r2 := rest1.tail
    let fp := r2.takeWhile Char.isDigit
    let rest2 := r2.dropWhile Char.isDigit
    if ip.isEmpty ∧ fp.isEmpty then none
    else some ((digitsVal ip : ℚ) + (digitsVal fp : ℚ) / (10 ^ fp.length : ℚ), rest2)
  else if ip.isEmpty then none
  else some ((digitsVal ip : ℚ), rest1)

/-- Lexer for the restricted evaluator.  Whitespace is skipped; `++`,
`--`, `**` lex as single tokens (maximal munch); any other surviving
character is a SyntaxError (`none`). -/
def tokenize : List Char → Option (List Tok)
  | [] => some []
  | c :: cs =>
    if jsWsChar c then tokenize cs
    else if c.isDigit || c = '.' then
      match h : lexNumber (c :: cs) with
      | none => none
      | some (q, rest) => (tokenize rest).map (fun ts => Tok.num q :: ts)
    else if c = '+' then
      if cs.head? = some '+' then (tokenize cs.tail).map (fun ts => Tok.dplus :: ts)
      else (tokenize cs).map (fun ts => Tok.plus :: ts)
    else if c = '-' then
      if cs.head? = some '-' then (tokenize cs.tail).map (fun ts => Tok.dminus :: ts)
      else (tokenize cs).map (fun ts => Tok.minus :: ts)
    else if c = '*' then
      if cs.head? = some '*' then (tokenize cs.tail).map (fun ts => Tok.dstar :: ts)
      else (tokenize cs).map (fun ts => Tok.star :: ts)
    else if c = '/' then (tokenize cs).map (fun ts => Tok.slash :: ts)
    else if c = '(' then (tokenize cs).map (fun ts => Tok.lparen :: ts)
    else if c = ')' then (tokenize cs).map (fun ts => Tok.rparen :: ts)
    else none
termination_by cs => cs.length
decreasing_by
  all_goals simp only [List.length_cons, List.length_tail]
  all_goals first
    | (have hl : rest.length ≤ cs.length := by
        simp only [lexNumber] at h
        have hsplit : (List.takeWhile Char.isDigit (c :: cs)).length +
            (List.dropWhile Char.isDigit (c :: cs)).length = cs.length + 1 := by
          have h0 := congrArg List.length
            (List.takeWhile_append_dropWhile (p := Char.isDigit) (l := c :: cs))
          rw [List.length_append] at h0
          simpa only [List.length_cons] using h0
        split at h
        · simp at h
        · split at h
          next hdot =>
            split at h
            · simp at h
            · simp only [Option.some.injEq, Prod.mk.injEq] at h
              have hne : List.dropWhile Char.isDigit (c :: cs) ≠ [] := by
                intro hempty
                rw [hempty] at hdot
                simp at hdot
              have htail : (List.dropWhile Char.isDigit (c :: cs)).tail.length =
                  (List.dropWhile Char.isDigit (c :: cs)).length - 1 := by
                simp [List.length_tail]
              have hdw : ((List.dropWhile Char.isDigit (c :: cs)).tail.dropWhile
                  Char.isDigit).length ≤
                  (List.dropWhile Char.isDigit (c :: cs)).tail.length :=
                (List.dropWhile_sublist _).length_le
              have hlen : (List.dropWhile Char.isDigit (c :: cs)).length ≥ 1 := by
                cases hw : List.dropWhile Char.isDigit (c :: cs) with
                | nil => exact absurd hw hne
                | cons a l => simp
              rw [← h.2]
              omega
          next hdot =>
            split at h
            next hip => simp at h
            next hip =>
              simp only [Option.some.injEq, Prod.mk.injEq] at h
              have hlen : (List.takeWhile Char.isDigit (c :: cs)).length ≥ 1 := by
                cases hw : List.takeWhile Char.isDigit (c :: cs) with
                | nil => rw [hw] at hip; simp at hip
                | cons a l => simp
              rw [← h.2]
              omega
       omega)
    | omega

mutual

/-- `AdditiveExpression`: a multiplicative expression followed by
`+`/`-` continuations. -/
def parseAdd : Nat → List Tok → Option (JSNum × List Tok)
  | 0, _ => none
  | f + 1, ts =>
    match parseMul f ts with
    | none => none
    | some (v, r) => parseAddTail f v r

/-- The `(('+' | '-') MultiplicativeExpression)*` loop. -/
def parseAddTail : Nat → JSNum → List Tok → Option (JSNum × List Tok)
  | 0, _, _ => none
  | f + 1, v, ts =>
    match ts with
    | Tok.plus :: r =>
      match parseMul f r with
      | none => none
      | some (w, r2) => parseAddTail f (jsAdd v w) r2
    | Tok.minus :: r =>
      match parseMul f r with
      | none => none
      | some (w, r2) => parseAddTail f (jsSub v w) r2
    | _ => some (v, ts)

/-- `MultiplicativeExpression`: an exponentiation expression followed by
`*`/`/` continuations. -/
def parseMul : Nat → List Tok → Option (JSNum × List Tok)
  | 0, _ => none
  | f + 1, ts =>
    match parseExp f ts with
    | none => none
    | some (v, r) => parseMulTail f v r

/-- The `(('*' | '/') ExponentiationExpression)*` loop. -/
def parseMulTail : Nat → JSNum → List Tok → Option (JSNum × List Tok)
  | 0, _, _ => none
  | f + 1, v, ts =>
    match ts with
    | Tok.star :: r =>
      match parseExp f r with
      | none => none
      | some (w, r2) => parseMulTail f (jsMul v w) r2
    | Tok.slash :: r =>
      match parseExp f r with
      | none => none
      | some (w, r2) => parseMulTail f (jsDiv v w) r2
    | _ => some (v, ts)

/-- `ExponentiationExpression`: either a unary expression (which cannot
be the left operand of `**` — that is a JS early SyntaxError, surfacing
here as an unconsumed `**` token), or a primary optionally followed by a
right-associative `**`. -/
def parseExp : Nat → List Tok → Option (JSNum × List Tok)
  | 0, _ => none
  | f + 1, ts =>
    match ts with
    | Tok.plus :: _ => parseUnary f ts
    | Tok.minus :: _ => parseUnary f ts
    | _ =>
      match parsePrimary f ts with
      | none => none
      | some (v, Tok.dstar :: r2) =>
        match parseExp f r2 with
        | none => none
        | some (w, r3) => some (jsPow v w, r3)
      | some (v, r) => some (v, r)

/-- `UnaryExpression`: unary `+`/`-` chains over a primary. -/
def parseUnary : Nat → List Tok → Option (JSNum × List Tok)
  | 0, _ => none
  | f + 1, ts =>
    match ts with
    | Tok.plus :: r =>
      match parseUnary f r with
      | none => none
      | some (v, r2) => some (v, r2)
    | Tok.minus :: r =>
      match parseUnary f r with
      | none => none
      | some (v, r2) => some (jsNeg v, r2)
    | _ => parsePrimary f ts

/-- `PrimaryExpression`: a numeric literal or a parenthesized
expression.  (`++`/`--` tokens are never consumed: an update expression
over a literal or parenthesized operand is a JS early SyntaxError.) -/
def parsePrimary : Nat → List Tok → Option (JSNum × List Tok)
  | 0, _ => none
  | f + 1, ts =>
    match ts with
    | Tok.num q :: r => some (.fin q, r)
    | Tok.lparen :: r =>
      match parseAdd f r with
      | some (v, Tok.rparen :: r2) => some (v, r2)
      | _ => none
    | _ => none

end

/-- Model of `Function('"use strict"; return (<text>)')()` on sanitized
arithmetic text.  The interpolated text is surrounded by the wrapper's
parentheses, so the program parses `(<text>)` as one expression — which
is why a text such as `1)+(2` evaluates (to `(1)+(2)`) even though it is
not an expression on its own.  The model therefore lexes and parses the
wrapped character list `( <text> )`, requires the parse to consume every
token (anything left over is the wrapper's SyntaxError), and returns the
value; `none` is a thrown SyntaxError.  The fuel bound is generous:
every parser call either consumes a token or moves one grammar level
down (at most five levels per token). -/
def jsEval (cs : List Char) : Option JSNum :=
  match tokenize ('(' :: (cs ++ [')'])) with
  | none => none
  | some ts =>
    match parseAdd (8 * (ts.length + 1)) ts with
    | some (v, []) => some v
    | _ => none

/-! ### Error records and the resolver entry points (src/dsl/parser.ts) -/

/-- The parser's `ParseError` record. -/
structure ParseError where
  type : String
  message : String
  path : Option String
deriving Repr, DecidableEq

/-- The substitution loop of `evaluateComplexExpression`: for each
extracted name in order, an undefined variable aborts with that name;
otherwise every occurrence of `$name` is replaced by `String(value)`. -/
def substituteVariables (vars : VarTable) :
    List (List Char) → List Char → Except (List Char) (List Char)
  | [], resolved => .ok resolved
  | v :: vs, resolved =>
    match getVariable v vars with
    | none => .error v
    | some value =>
      substituteVariables vars vs (replaceAll resolved ('$' :: v) (jsToString value))

/-- The sanitize-and-evaluate tail of `evaluateComplexExpression`:
`sanitized` keeps only the allowed characters; it is compared against
`resolved` with all whitespace removed (any mismatch is the
invalid-characters error); the surviving text is evaluated, a thrown
evaluation error or a `NaN` result is an error, and any other number
(including the infinities) is returned. -/
def restrictedEval (resolved expr : List Char) (path : String) :
    JSNum × List ParseError :=
  if (resolved.filter allowedChar) ≠ (resolved.filter (fun c => ! jsWsChar c)) then
    (.fin 0,
      [⟨"expression",
        "Expression contains invalid characters: " ++ expr.asString ++ " at " ++ path,
        some path⟩])
  else
    match jsEval (resolved.filter allowedChar) with
    | none =>
      (.fin 0,
        [⟨"expression",
          "Expression evaluation failed: " ++ expr.asString ++ " at " ++ path,
          some path⟩])
    | some v =>
      if v = .nan then
        (.fin 0,
          [⟨"expression",
            "Expression did not evaluate to a number: " ++ expr.asString ++ " at " ++ path,
            some path⟩])
      else (v, [])

/-- Embedding of `DSLParser.evaluateComplexExpression`: substitute every
extracted `$name`, then sanitize and evaluate. -/
def evaluateComplexExpression (expr : List Char) (path : String)
    (vars : VarTable) : JSNum × List ParseError :=
  match substituteVariables vars (extractVariables expr) expr with
  | .error v =>
    (.fin 0,
      [⟨"variable", "Unknown variable: " ++ v.asString ++ " at " ++ path,
        some path⟩])
  | .ok resolved => restrictedEval resolved expr path

/-- Embedding of `DSLParser.evaluateExpression`: a `$name` reference
(not `${`) resolves through `getVariable` and must be a number; a
`${…}` form evaluates the braced text; anything else is an
invalid-format error. -/
def evaluateExpression (cs : List Char) (path : String) (vars : VarTable) :
    JSNum × List ParseError :=
  if cs.head? = some '$' ∧ cs.take 2 ≠ ['$', '{'] then
    match getVariable (cs.drop 1) vars with
    | some (.num q) => (.fin q, [])
    | _ =>
      (.fin 0,
        [⟨"expression",
          "Variable \"" ++ (cs.drop 1).asString ++ "\" is not a number at " ++ path,
          some path⟩])
  else if cs.take 2 = ['$', '{'] ∧ cs.getLast? = some '}' then
    evaluateComplexExpression ((cs.drop 2).dropLast) path vars
  else
    (.fin 0,
      [⟨"expression", "Invalid expression format: " ++ cs.asString ++ " at " ++ path,
        some path⟩])

/-! ## Timeline interpreter (src/runtime/interpreter.ts)

The interpreter's cooperative async execution is modelled by a
deterministic virtual-time semantics: execution of a block maps a start
time to an end time and a list of timestamped handle invocations.
`delay(ms)` advances the clock by `max 0 ms` (`setTimeout` clamps
negative delays to zero); awaiting `control.start(...)` advances it by a
host-determined animation duration (the `primDur` field of the
environment, clamped at zero); `Promise.all` completes at the maximum
child end time, and a `for … await` loop threads the clock through its
children.  The interpreter state is assumed `playing` throughout a run
(the `state === 'stopped'` early exits are not taken); `stop` itself is
modelled separately as a pure state transformer, which is faithful
because its body performs no awaited timed work (`resetToInitial` only
issues synchronous `control.set` calls). -/

/-- `NumberOrExpression`: a literal number or an (unresolved) expression
string. -/
inductive NumOrExpr where
  | num (q : ℚ)
  | expr (s : String)
deriving Repr, DecidableEq

/-- `width`/`height`: a number-or-expression or the literal `'auto'`. -/
inductive WidthVal where
  | nv (v : NumOrExpr)
  | auto
deriving Repr, DecidableEq

/-- `borderRadius`: a number-or-expression or an arbitrary string. -/
inductive BorderRadiusVal where
  | nv (v : NumOrExpr)
  | strv (s : String)
deriving Repr, DecidableEq

/-- `ShadowDefinition`. -/
structure ShadowDefinition where
  x : NumOrExpr
  y : NumOrExpr
  blur : NumOrExpr
  spread : Option NumOrExpr
  color : String
  inset : Option Bool
deriving Repr, DecidableEq

/-- `boxShadow`: one shadow or an array of shadows. -/
inductive BoxShadowVal where
  | single (s : ShadowDefinition)
  | multiple (l : List ShadowDefinition)
deriving Repr, DecidableEq

/-- The fields of `ElementState` that `convertStateToFramerMotion`
reads.  (The remaining schema fields — `pathMotion`, `perspective`,
`perspectiveOrigin`, `backfaceVisibility`, `transformStyle`, `clipPath`
aside — are never read by the conversion and are omitted from the
interpreter model.) -/
structure ElementStateI where
  x : Option NumOrExpr := none
  y : Option NumOrExpr := none
  z : Option NumOrExpr := none
  scaleX : Option NumOrExpr := none
  scaleY : Option NumOrExpr := none
  scale : Option NumOrExpr := none
  rotateX : Option NumOrExpr := none
  rotateY : Option NumOrExpr := none
  rotateZ : Option NumOrExpr := none
  rotate : Option NumOrExpr := none
  skewX : Option NumOrExpr := none
  skewY : Option NumOrExpr := none
  originX : Option NumOrExpr := none
  originY : Option NumOrExpr := none
  opacity : Option NumOrExpr := none
  backgroundColor : Option String := none
  borderColor : Option String := none
  color : Option String := none
  fill : Option String := none
  stroke : Option String := none
  width : Option WidthVal := none
  height : Option WidthVal := none
  borderRadius : Option BorderRadiusVal := none
  borderWidth : Option NumOrExpr := none
  strokeWidth : Option NumOrExpr := none
  strokeDasharray : Option String := none
  strokeDashoffset : Option NumOrExpr := none
  pathLength : Option NumOrExpr := none
  blur : Option NumOrExpr := none
  brightness : Option NumOrExpr := none
  contrast : Option NumOrExpr := none
  saturate : Option NumOrExpr := none
  hueRotate : Option NumOrExpr := none
  grayscale : Option NumOrExpr := none
  sepia : Option NumOrExpr := none
  invert : Option NumOrExpr := none
  boxShadow : Option BoxShadowVal := none
  clipPath : Option String := none
deriving Repr, DecidableEq

/-- One component of the composed CSS `filter` string (the string
`blur(${v}px) brightness(${v}) …` is modelled structurally). -/
inductive FilterPart where
  | blur (v : NumOrExpr)
  | brightness (v : NumOrExpr)
  | contrast (v : NumOrExpr)
  | saturate (v : NumOrExpr)
  | hueRotate (v : NumOrExpr)
  | grayscale (v : NumOrExpr)
  | sepia (v : NumOrExpr)
  | invert (v : NumOrExpr)
deriving Repr, DecidableEq

/-- A value in the Framer Motion animate object built by
`convertStateToFramerMotion` (composed strings modelled structurally). -/
inductive FMVal where
  | nv (v : NumOrExpr)
  | s (str : String)
  | wv (w : WidthVal)
  | rv (r : BorderRadiusVal)
  | filter (parts : List FilterPart)
  | shadow (shadows : List ShadowDefinition)
deriving Repr, DecidableEq

/-- One optional `NumberOrExpression` entry of the animate object. -/
def optEntry (name : String) (o : Option NumOrExpr) : List (String × FMVal) :=
  match o with
  | some v => [(name, .nv v)]
  | none => []

/-- One optional string entry of the animate object. -/
def optEntryS (name : String) (o : Option String) : List (String × FMVal) :=
  match o with
  | some v => [(name, .s v)]
  | none => []

/-- The filter components collected by `convertStateToFramerMotion`, in
source order. -/
def collectFilters (state : ElementStateI) : List FilterPart :=
  (match state.blur with | some v => [.blur v] | none => []) ++
  (match state.brightness with | some v => [.brightness v] | none => []) ++
  (match state.contrast with | some v => [.contrast v] | none => []) ++
  (match state.saturate with | some v => [.saturate v] | none => []) ++
  (match state.hueRotate with | some v => [.hueRotate v] | none => []) ++
  (match state.grayscale with | some v => [.grayscale v] | none => []) ++
  (match state.sepia with | some v => [.sepia v] | none => []) ++
  (match state.invert with | some v => [.invert v] | none => [])

/-- Embedding of `convertStateToFramerMotion`: the animate object as an
ordered key/value list, following the source's write order (direct
transform props, `z`, origin with `?? 0.5` defaults, colors, dimensions,
border, SVG, the joined filter string, box shadow, clip path). -/
def convertStateToFramerMotion (state : ElementStateI) : List (String × FMVal) :=
  optEntry "x" state.x ++ optEntry "y" state.y ++
  optEntry "opacity" state.opacity ++ optEntry "scale" state.scale ++
  optEntry "scaleX" state.scaleX ++ optEntry "scaleY" state.scaleY ++
  optEntry "rotate" state.rotate ++ optEntry "rotateX" state.rotateX ++
  optEntry "rotateY" state.rotateY ++ optEntry "rotateZ" state.rotateZ ++
  optEntry "skewX" state.skewX ++ optEntry "skewY" state.skewY ++
  optEntry "z" state.z ++
  (if state.originX.isSome || state.originY.isSome then
    [("originX", .nv (state.originX.getD (.num (1 / 2)))),
     ("originY", .nv (state.originY.getD (.num (1 / 2))))]
   else []) ++
  optEntryS "backgroundColor" state.backgroundColor ++
  optEntryS "borderColor" state.borderColor ++
  optEntryS "color" state.color ++
  optEntryS "fill" state.fill ++
  optEntryS "stroke" state.stroke ++
  (match state.width with | some w => [("width", .wv w)] | none => []) ++
  (match state.height with | some h => [("height", .wv h)] | none => []) ++
  (match state.borderRadius with | some r => [("borderRadius", .rv r)] | none => []) ++
  optEntry "borderWidth" state.borderWidth ++
  optEntry "pathLength" state.pathLength ++
  optEntry "strokeWidth" state.strokeWidth ++
  optEntryS "strokeDasharray" state.strokeDasharray ++
  optEntry "strokeDashoffset" state.strokeDashoffset ++
  (if collectFilters state ≠ [] then [("filter", .filter (collectFilters state))]
   else []) ++
  (match state.boxShadow with
   | some (.single sh) => [("boxShadow", .shadow [sh])]
   | some (.multiple l) => [("boxShadow", .shadow l)]
   | none => []) ++
  optEntryS "clipPath" state.clipPath

/-- `SpringPreset` names. -/
inductive SpringPreset where
  | gentle | wobbly | stiff | slow | molasses | bouncy
deriving Repr, DecidableEq

/-- The `SPRING_PRESETS` table of src/dsl/parser.ts. -/
def SPRING_PRESETS (p : SpringPreset) : ℚ × ℚ × ℚ :=
  match p with
  | .gentle => (120, 14, 1)
  | .wobbly => (180, 12, 1)
  | .stiff => (210, 20, 1)
  | .slow => (280, 60, 1)
  | .molasses => (280, 120, 1)
  | .bouncy => (400, 10, 1)

/-- `SpringConfig` as the interpreter receives it. -/
structure SpringConfigI where
  stiffness : Option ℚ := none
  damping : Option ℚ := none
  mass : Option ℚ := none
  velocity : Option ℚ := none
  restDelta : Option ℚ := none
  restSpeed : Option ℚ := none
  preset : Option SpringPreset := none
  duration : Option ℚ := none
  bounce : Option ℚ := none
deriving Repr, DecidableEq

/-- A Framer Motion `Transition` as built by `convertSpringConfig` and
the transition/keyframes handlers. -/
inductive TransitionR where
  | springPhysics (stiffness damping mass : ℚ)
      (velocity restDelta restSpeed : Option ℚ)
  | springDuration (durationSec : ℚ) (bounce : ℚ)
deriving Repr, DecidableEq

/-- Embedding of `convertSpringConfig`: a preset expands to its triple
(with explicit fields taking precedence); otherwise an explicit
`duration` (ms, divided by 1000) with `bounce ?? 0.25`; otherwise
physics with defaults `100 / 10 / 1`. -/
def convertSpringConfig (config : SpringConfigI) : TransitionR :=
  match config.preset with
  | some p =>
    .springPhysics (config.stiffness.getD (SPRING_PRESETS p).1)
      (config.damping.getD (SPRING_PRESETS p).2.1)
      (config.mass.getD (SPRING_PRESETS p).2.2)
      config.velocity config.restDelta config.restSpeed
  | none =>
    match config.duration with
    | some d => .springDuration (d / 1000) (config.bounce.getD (1 / 4))
    | none =>
      .springPhysics (config.stiffness.getD 100) (config.damping.getD 10)
        (config.mass.getD 1) config.velocity config.restDelta config.restSpeed

/-- An easing entry of the interpreter's `EASING_PRESETS` table: a
cubic-bezier quadruple, or a special marker string (elastic/bounce). -/
inductive EasingEntry where
  | arr (a b c d : ℚ)
  | special (s : String)
deriving Repr, DecidableEq

/-- The `EASING_PRESETS` table of src/runtime/interpreter.ts. -/
def EASING_PRESETS : List (String × EasingEntry) :=
  [("linear", .arr 0 0 1 1),
   ("ease", .arr (1/4) (1/10) (1/4) 1),
   ("easeIn", .arr (42/100) 0 1 1),
   ("easeOut", .arr 0 0 (58/100) 1),
   ("easeInOut", .arr (42/100) 0 (58/100) 1),
   ("easeInQuad", .arr (55/100) (85/1000) (68/100) (53/100)),
   ("easeOutQuad", .arr (25/100) (46/100) (45/100) (94/100)),
   ("easeInOutQuad", .arr (455/1000) (3/100) (515/1000) (955/1000)),
   ("easeInCubic", .arr (55/100) (55/1000) (675/1000) (19/100)),
   ("easeOutCubic", .arr (215/1000) (61/100) (355/1000) 1),
   ("easeInOutCubic", .arr (645/1000) (45/1000) (355/1000) 1),
   ("easeInQuart", .arr (895/1000) (3/100) (685/1000) (22/100)),
   ("easeOutQuart", .arr (165/1000) (84/100) (44/100) 1),
   ("easeInOutQuart", .arr (77/100) 0 (175/1000) 1),
   ("easeInQuint", .arr (755/1000) (5/100) (855/1000) (6/100)),
   ("easeOutQuint", .arr (23/100) 1 (32/100) 1),
   ("easeInOutQuint", .arr (86/100) 0 (7/100) 1),
   ("easeInExpo", .arr (95/100) (5/100) (795/1000) (35/1000)),
   ("easeOutExpo", .arr (19/100) 1 (22/100) 1),
   ("easeInOutExpo", .arr 1 0 0 1),
   ("easeInCirc", .arr (6/10) (4/100) (98/100) (335/1000)),
   ("easeOutCirc", .arr (75/1000) (82/100) (165/1000) 1),
   ("easeInOutCirc", .arr (785/1000) (135/1000) (15/100) (86/100)),
   ("easeInBack", .arr (6/10) (-28/100) (735/1000) (45/1000)),
   ("easeOutBack", .arr (175/1000) (885/1000) (32/100) (1275/1000)),
   ("easeInOutBack", .arr (68/100) (-55/100) (265/1000) (155/100)),
   ("easeInElastic", .special "easeInElastic"),
   ("easeOutElastic", .special "easeOutElastic"),
   ("easeInOutElastic", .special "easeInOutElastic"),
   ("easeInBounce", .special "easeInBounce"),
   ("easeOutBounce", .special "easeOutBounce"),
   ("easeInOutBounce", .special "easeInOutBounce")]

/-- Steps easing position values. -/
inductive StepsPos where
  | start | stop_ | both | none_
deriving Repr, DecidableEq

/-- `EasingDefinition` as the interpreter receives it. -/
inductive EasingDefinitionI where
  | preset (name : String)
  | cubicBezier (a b c d : ℚ)
  | steps (count : Nat) (position : Option StepsPos)
  | springE (config : SpringConfigI)
deriving Repr, DecidableEq

/-- Embedding of `convertEasing`: presets resolve through the table
(array entries are returned, elastic/bounce markers yield `undefined`),
cubic-bezier values pass through, steps are approximated by linear, and
spring easing yields `undefined`. -/
def convertEasing (easing : Option EasingDefinitionI) :
    Option (ℚ × ℚ × ℚ × ℚ) :=
  match easing with
  | none => none
  | some (.preset name) =>
    match EASING_PRESETS.lookup name with
    | some (.arr a b c d) => some (a, b, c, d)
    | _ => none
  | some (.cubicBezier a b c d) => some (a, b, c, d)
  | some (.steps _ _) => some (0, 0, 1, 1)
  | some (.springE _) => none

/-- `target`: one element id or an array of ids. -/
inductive TargetField where
  | one (id : String)
  | many (ids : List String)
deriving Repr, DecidableEq

/-- `Array.isArray(block.target) ? block.target : [block.target]`. -/
def fanTargets : TargetField → List String
  | .one id => [id]
  | .many ids => ids

/-- One keyframe of a `keyframes` block (the source field `at` is a
Lean keyword and is embedded as `at_`). -/
structure KeyframeDefI where
  at_ : ℚ
  state : ElementStateI
  easing : Option EasingDefinitionI
deriving Repr, DecidableEq

/-- `group` concurrency mode. -/
inductive GroupMode where
  | parallel | sequence
deriving Repr, DecidableEq

/-- `AnimationBlock` restricted to the fields the interpreter reads.
`matchCut` and `drag` blocks reach the dispatcher's default
(`console.warn`) branch. -/
inductive AnimationBlockI where
  | spring (target : TargetField) (src : Option ElementStateI)
      (toS : ElementStateI) (spring : SpringConfigI)
      (delay offset : Option ℚ) (stagger : Option StaggerDefinition)
  | transition (target : TargetField) (src : Option ElementStateI)
      (toS : ElementStateI) (duration : Option ℚ)
      (easing : Option EasingDefinitionI)
      (delay offset : Option ℚ) (stagger : Option StaggerDefinition)
  | keyframes (target : TargetField) (keyframes : List KeyframeDefI)
      (duration : Option ℚ) (easing : Option EasingDefinitionI)
      (delay offset : Option ℚ) (stagger : Option StaggerDefinition)
  | group (mode : GroupMode) (animations : List AnimationBlockI)
      (delay : Option ℚ) (stagger : Option StaggerDefinition)
      (offset : Option ℚ)
  | morph (target : String) (src : Option String) (toS : String)
      (duration : Option ℚ) (easing : Option EasingDefinitionI)
      (delay offset : Option ℚ)
  | matchCut (src toS : String) (duration : Option ℚ) (offset : Option ℚ)
  | dragB (target : String)
  | particles (duration : Option ℚ) (offset : Option ℚ)
  | text (target : String) (duration : Option ℚ)
      (delay offset : Option ℚ)

/-- The payload of an awaited `control.start` call. -/
inductive StartPayload where
  | springP (props : List (String × FMVal)) (transition : TransitionR)
  | tweenP (props : List (String × FMVal)) (durationSec : ℚ)
      (ease : ℚ × ℚ × ℚ × ℚ)
  | keyframesP (props : List (String × List FMVal)) (durationSec : ℚ)
      (times : List ℚ) (ease : Option (ℚ × ℚ × ℚ × ℚ))
  | morphP (d : String) (durationSec : ℚ) (ease : ℚ × ℚ × ℚ × ℚ)
deriving Repr, DecidableEq

/-- A timestamped observable event of a run: a `control.start`
invocation, a missing-handle warning, or the unknown-block-type
warning. -/
inductive TAction where
  | start (t : ℚ) (id : String) (payload : StartPayload)
  | warnMissing (t : ℚ) (id : String)
  | warnUnknown (t : ℚ)
deriving Repr, DecidableEq

/-- The environment of a run: the ids with registered handles (the
`ControlsMap` keys) and the host-determined wall-clock duration of each
awaited `control.start` call. -/
structure ExecEnv where
  controls : List String
  primDur : String → StartPayload → ℚ

/-- `await this.delay(ms)` guarded by a truthiness test, as in
`if (block.offset) await this.delay(block.offset)`: `undefined` and `0`
skip the wait, and `setTimeout` clamps negative delays to zero. -/
def waitTruthy (t : ℚ) (o : Option ℚ) : ℚ :=
  match o with
  | some v => if v ≠ 0 then t + max 0 v else t
  | none => t

/-- One enumerated target of the fan-out: a target with a handle waits
its stagger delay and starts `payload`; a target without a handle logs a
warning and resolves immediately. -/
def fanOutOne (env : ExecEnv) (t : ℚ) (stagger : Option StaggerDefinition)
    (payload : StartPayload) (n : ℕ) (e : ℕ × String) : ℚ × List TAction :=
  if e.2 ∈ env.controls then
    let sd := match stagger with
      | some st => calculateStaggerDelay e.1 n st
      | none => 0
    let ts := t + max 0 sd
    (ts + max 0 (env.primDur e.2 payload), [TAction.start ts e.2 payload])
  else (t, [TAction.warnMissing t e.2])

/-- Fan-out shared by `executeSpring`/`executeTransition`/
`executeKeyframes`: `targets.map` over the enumerated target list, with
`Promise.all` ending at the max end time. -/
def fanOut (env : ExecEnv) (t : ℚ) (targets : List String)
    (stagger : Option StaggerDefinition)
    (payload : StartPayload) : ℚ × List TAction :=
  let results := targets.enum.map (fanOutOne env t stagger payload targets.length)
  (results.foldl (fun acc r => max acc r.1) t,
    (results.map Prod.snd).flatten)

/-- The 0–100 → 0–1 times array of a keyframes block. -/
def keyframeTimes (kfs : List KeyframeDefI) : List ℚ :=
  kfs.map (fun kf => kf.at_ / 100)

/-- Append `v` to the array of `prop`, creating the entry at the end on
first use (JS object insertion order). -/
def upsertProp (acc : List (String × List FMVal)) (prop : String)
    (v : FMVal) : List (String × List FMVal) :=
  match acc with
  | [] => [(prop, [v])]
  | (p, vs) :: rest =>
    if p = prop then (p, vs ++ [v]) :: rest
    else (p, vs) :: upsertProp rest prop v

/-- The per-property keyframe value arrays of `executeKeyframes`. -/
def buildKeyframeProps (kfs : List KeyframeDefI) :
    List (String × List FMVal) :=
  kfs.foldl
    (fun acc kf =>
      (convertStateToFramerMotion kf.state).foldl
        (fun acc pv => upsertProp acc pv.1 pv.2) acc)
    []

mutual

/-- Virtual-time semantics of `executeAnimationBlock` under a `playing`
interpreter: wait out truthy `offset` then truthy `delay`, then
dispatch on the block kind. -/
def execBlock (env : ExecEnv) (t : ℚ) : AnimationBlockI → ℚ × List TAction
  | .spring target _ toS spring delay offset stagger =>
    let t1 := waitTruthy (waitTruthy t offset) delay
    fanOut env t1 (fanTargets target) stagger
      (.springP (convertStateToFramerMotion toS) (convertSpringConfig spring))
  | .transition target _ toS duration easing delay offset stagger =>
    let t1 := waitTruthy (waitTruthy t offset) delay
    fanOut env t1 (fanTargets target) stagger
      (.tweenP (convertStateToFramerMotion toS) ((duration.getD 300) / 1000)
        ((convertEasing easing).getD (1/4, 1/10, 1/4, 1)))
  | .keyframes target kfs duration easing delay offset stagger =>
    let t1 := waitTruthy (waitTruthy t offset) delay
    fanOut env t1 (fanTargets target) stagger
      (.keyframesP (buildKeyframeProps kfs) ((duration.getD 1000) / 1000)
        (keyframeTimes kfs) (convertEasing easing))
  | .group mode animations delay stagger offset =>
    let t1 := waitTruthy (waitTruthy t offset) delay
    match mode with
    | .parallel =>
      let results := execBlocksPar env t1 animations
      (results.foldl (fun acc r => max acc r.1) t1,
        (results.map Prod.snd).flatten)
    | .sequence => execBlocksSeq env t1 stagger animations
  | .morph target _ toS duration easing delay offset =>
    let t1 := waitTruthy (waitTruthy t offset) delay
    if target ∈ env.controls then
      let payload := StartPayload.morphP toS ((duration.getD 500) / 1000)
        ((convertEasing easing).getD (1/4, 1/10, 1/4, 1))
      (t1 + max 0 (env.primDur target payload), [.start t1 target payload])
    else (t1, [.warnMissing t1 target])
  | .matchCut _ _ _ offset =>
    let t1 := waitTruthy t offset
    (t1, [.warnUnknown t1])
  | .dragB _ => (t, [.warnUnknown t])
  | .particles duration offset =>
    let t1 := waitTruthy t offset
    (waitTruthy t1 duration, [])
  | .text _ duration delay offset =>
    let t1 := waitTruthy (waitTruthy t offset) delay
    (waitTruthy t1 duration, [])

/-- `Promise.all(children.map(executeAnimationBlock))`: every child runs
from the same start time. -/
def execBlocksPar (env : ExecEnv) (t : ℚ) :
    List AnimationBlockI → List (ℚ × List TAction)
  | [] => []
  | b :: bs => execBlock env t b :: execBlocksPar env t bs

/-- The sequential-group loop: each child awaited to completion, then an
inter-child `delay(stagger.each)` when a stagger is configured (after
every child, the last included). -/
def execBlocksSeq (env : ExecEnv) (t : ℚ)
    (stagger : Option StaggerDefinition) :
    List AnimationBlockI → ℚ × List TAction
  | [] => (t, [])
  | b :: bs =>
    let r := execBlock env t b
    let t2 := match stagger with
      | some st => r.1 + max 0 st.each
      | none => r.1
    let rest := execBlocksSeq env t2 stagger bs
    (rest.1, r.2 ++ rest.2)

end

/-- Triggers, reduced to what `executeSequence` reads: a `mount`
trigger's optional delay. -/
inductive TriggerI where
  | mount (delay : Option ℚ)
  | nonMount
deriving Repr, DecidableEq

/-- `repeat.count`: a finite count or `'infinite'`. -/
inductive RepeatCount where
  | count (n : Nat)
  | infinite
deriving Repr, DecidableEq

/-- `RepeatDefinition` (fields read by `executeSequence`). -/
structure RepeatDefinitionI where
  count : RepeatCount
  delay : Option ℚ
deriving Repr, DecidableEq

/-- `SequenceDefinition` restricted to what `executeSequence` reads. -/
structure SequenceDefinitionI where
  id : Option String
  trigger : TriggerI
  animations : List AnimationBlockI
  repeatDef : Option RepeatDefinitionI

/-- One pass over the sequence's animation list (the `runAnimations`
closure, under a `playing` interpreter). -/
def execAnimations (env : ExecEnv) (t : ℚ) :
    List AnimationBlockI → ℚ × List TAction
  | [] => (t, [])
  | b :: bs =>
    let r := execBlock env t b
    let rest := execAnimations env r.1 bs
    (rest.1, r.2 ++ rest.2)

/-- The finite repeat loop: `count` iterations, each followed by a
truthy `repeat.delay` wait. -/
def execRepeat (env : ExecEnv) (seq : SequenceDefinitionI)
    (rdelay : Option ℚ) : Nat → ℚ → ℚ × List TAction
  | 0, t => (t, [])
  | n + 1, t =>
    let r := execAnimations env t seq.animations
    let t2 := waitTruthy r.1 rdelay
    let rest := execRepeat env seq rdelay n t2
    (rest.1, r.2 ++ rest.2)

/-- Virtual-time semantics of one `executeSequence` run (not re-entered
concurrently, interpreter `playing` throughout).  A sequence with
`repeat.count = 'infinite'` never completes while playing, which the
model renders as `none`. -/
def executeSequence (env : ExecEnv) (t : ℚ) (seq : SequenceDefinitionI) :
    Option (ℚ × List TAction) :=
  let t1 := match seq.trigger with
    | .mount d => waitTruthy t d
    | .nonMount => t
  match seq.repeatDef with
  | none => some (execAnimations env t1 seq.animations)
  | some r =>
    match r.count with
    | .count n => some (execRepeat env seq r.delay n t1)
    | .infinite => none

/-! ### `stop()` as a pure state transformer -/

/-- The interpreter's state enum. -/
inductive InterpreterState where
  | idle | playing | paused | stopped
deriving Repr, DecidableEq

/-- The mutable state of an `AnimationInterpreter` that `stop()`
touches: the document's element map (id → `initial` state), the
registered controls, the state enum, the active-sequence set and the
pending-timeout set. -/
structure InterpState where
  elements : List (String × ElementStateI)
  controls : List String
  state : InterpreterState
  activeSequences : List String
  timeouts : List Nat
deriving Repr, DecidableEq

/-- Embedding of `resetToInitial`: for every element of the document
map, a registered control receives `set(convertStateToFramerMotion
(element.initial))`; ids without a registered control are skipped —
as are registered controls whose id is not in the element map. -/
def resetToInitial (s : InterpState) :
    List (String × List (String × FMVal)) :=
  s.elements.filterMap (fun e =>
    if e.1 ∈ s.controls then some (e.1, convertStateToFramerMotion e.2)
    else none)

/-- Embedding of `stop()`: set state to `stopped`, abort and clear the
pending timeouts and active sequences, issue the `resetToInitial` `set`
calls, then set state to `idle`.  The function is total: nothing in the
body can throw. -/
def stopInterp (s : InterpState) :
    InterpState × List (String × List (String × FMVal)) :=
  ({ s with state := .idle, activeSequences := [], timeouts := [] },
    resetToInitial s)

/-! ### JSON model and zod combinators (validator embedding)

`validateDSL` receives the result of `JSON.parse`, i.e. a JSON tree:
`null`, booleans, (finite) numbers, strings, arrays and objects with
string keys in insertion order.  `JSON.parse ∘ JSON.stringify` is the
identity on such trees, so the claim's serialize-then-revalidate round
trip is revalidation of the validated data itself.  A zod schema is
embedded as a function `Json → Option Json`: `none` models
`{ valid: false, data: null, errors: [...] }` and `some d` models
`{ valid: true, data: d, errors: [] }` (on success `validateDSL`
returns a literal empty error array). -/

inductive Json where
  | null
  | bool (b : Bool)
  | num (q : ℚ)
  | str (s : String)
  | arr (elems : List Json)
  | obj (fields : List (String × Json))

/-- The type of an embedded zod schema. -/
abbrev JSchema := Json → Option Json

/-- `z.number()` (NaN and non-finite values are outside the JSON tree
domain). -/
def zNumber : JSchema
  | .num q => some (.num q)
  | _ => none

/-- `z.number()` with chained checks (`.int()`, `.positive()`,
`.min(...)`, ...) folded into one predicate. -/
def zNumberIf (check : ℚ → Bool) : JSchema
  | .num q => if check q then some (.num q) else none
  | _ => none

/-- `z.string()`. -/
def zString : JSchema
  | .str s => some (.str s)
  | _ => none

/-- `z.string().regex(...)` with the regex test as a predicate. -/
def zStringIf (check : String → Bool) : JSchema
  | .str s => if check s then some (.str s) else none
  | _ => none

/-- `z.boolean()`. -/
def zBoolean : JSchema
  | .bool b => some (.bool b)
  | _ => none

/-- `z.literal(s)` for a string literal. -/
def zLitStr (lit : String) : JSchema
  | .str s => if s = lit then some (.str s) else none
  | _ => none

/-- `z.enum([...])`. -/
def zEnum (values : List String) : JSchema
  | .str s => if s ∈ values then some (.str s) else none
  | _ => none

/-- `z.unknown()`. -/
def zUnknown : JSchema := fun j => some j

/-- `z.union([...])`: first succeeding member wins.
`z.discriminatedUnion('type', [...])` is also embedded this way: its
branches carry pairwise distinct `type` literals, so on any input at
most the branch whose literal matches can succeed and the two
combinators accept the same inputs with the same output. -/
def zUnion : List JSchema → JSchema
  | [], _ => none
  | p :: ps, j =>
    match p j with
    | some d => some d
    | none => zUnion ps j

/-- Elementwise parsing of an array's members. -/
def mapMJ (p : JSchema) : List Json → Option (List Json)
  | [] => some []
  | x :: xs =>
    match p x with
    | some r =>
      match mapMJ p xs with
      | some rs => some (r :: rs)
      | none => none
    | none => none

/-- `z.array(p)`. -/
def zArray (p : JSchema) : JSchema
  | .arr xs => (mapMJ p xs).map .arr
  | _ => none

/-- `z.array(p).min(n)`. -/
def zArrayMin (n : ℕ) (p : JSchema) : JSchema
  | .arr xs => if n ≤ xs.length then (mapMJ p xs).map .arr else none
  | _ => none

/-- Positional parsing of a tuple's members. -/
def zipParse : List JSchema → List Json → Option (List Json)
  | [], [] => some []
  | p :: ps, x :: xs =>
    match p x with
    | some r =>
      match zipParse ps xs with
      | some rs => some (r :: rs)
      | none => none
    | none => none
  | _, _ => none

/-- `z.tuple([...])`: exact length, positional member schemas. -/
def zTuple (ps : List JSchema) : JSchema
  | .arr xs => (zipParse ps xs).map .arr
  | _ => none

/-- Valuewise parsing of an object's entries, keys kept. -/
def mapValsJ (p : JSchema) : List (String × Json) → Option (List (String × Json))
  | [] => some []
  | f :: fs =>
    match p f.2 with
    | some r =>
      match mapValsJ p fs with
      | some rs => some ((f.1, r) :: rs)
      | none => none
    | none => none

/-- `z.record(z.string(), p)`: every value parsed by `p`, keys kept. -/
def zRecord (p : JSchema) : JSchema
  | .obj fields => (mapValsJ p fields).map .obj
  | _ => none

/-- How a field of a `z.object` shape treats an absent key:
`required` fails, `optional` omits the key from the output, and
`defaulted dflt` (`.optional().default(dflt)`) parses `dflt` through
the field schema and outputs the result. -/
inductive FieldOpt where
  | required
  | optional
  | defaulted (dflt : Json)

/-- One field of a `z.object` shape. -/
structure FieldSpec where
  name : String
  schema : JSchema
  opt : FieldOpt := .required

/-- JS object key lookup (first entry wins). -/
def lookupJ (fields : List (String × Json)) (k : String) : Option Json :=
  (fields.find? (fun f => f.1 == k)).map (fun f => f.2)

/-- Key-presence test. -/
def hasKeyJ (fields : List (String × Json)) (k : String) : Bool :=
  (lookupJ fields k).isSome

/-- The shape pass of `z.object`: each spec parses its key's value (or
applies its absent-key policy) and contributes its output entry in
shape order. -/
def zObjCore (fields : List (String × Json)) :
    List FieldSpec → Option (List (String × Json))
  | [] => some []
  | spec :: rest =>
    match lookupJ fields spec.name with
    | some v =>
      match spec.schema v with
      | some r => (zObjCore fields rest).map (fun tail => (spec.name, r) :: tail)
      | none => none
    | none =>
      match spec.opt with
      | .required => none
      | .optional => zObjCore fields rest
      | .defaulted dflt =>
        match spec.schema dflt with
        | some r => (zObjCore fields rest).map (fun tail => (spec.name, r) :: tail)
        | none => none

/-- `z.object({...})`: non-objects fail; shape keys are parsed by
`zObjCore`; unknown keys are stripped by default and copied through
under `.passthrough()`. -/
def zObj (specs : List FieldSpec) (passthrough : Bool) : JSchema
  | .obj fields =>
    (zObjCore fields specs).map (fun core =>
      .obj (core ++ (if passthrough then
        fields.filter (fun f => ¬ specs.any (fun s => s.name == f.1))
        else [])))
  | _ => none

/-- Weak stability of an embedded schema: every successful parse
output is itself accepted (the revalidation may reparse it to a
different output, which suffices for validity of the round trip). -/
def WeakStable (p : JSchema) : Prop :=
  ∀ j d, p j = some d → (p d).isSome

/-- The per-spec requirement making a shape pass succeed on the field
list `dfields`: a present key's value parses, and an absent key is
admissible for the spec's absent-key policy. -/
def specOkOn (dfields : List (String × Json)) (s : FieldSpec) : Prop :=
  (∀ v, lookupJ dfields s.name = some v → (s.schema v).isSome)
  ∧ (lookupJ dfields s.name = none →
      s.opt ≠ .required
      ∧ ∀ dflt, s.opt = .defaulted dflt → (s.schema dflt).isSome)

/-- `.refine(check)`: parse, then test the parsed output. -/
def zRefine (p : JSchema) (check : Json → Bool) : JSchema := fun j =>
  match p j with
  | some d => if check d then some d else none
  | none => none

/-! ### The schemas of the validator module -/

/-- The test of `/^\$[\w.]+$|^\$\{.+\}$/` (`.` does not match a
newline). -/
def isExprStr (s : String) : Bool :=
  match s.data with
  | '$' :: rest =>
    (decide (rest ≠ []) && rest.all (fun c => isWordChar c || c == '.'))
    || (match rest with
        | '{' :: more =>
          decide (2 ≤ more.length) && more.getLast? == some '}'
            && more.dropLast.all (fun c => c ≠ '\n')
        | _ => false)
  | _ => false

/-- `z.number().int()`. -/
def zInt : JSchema := zNumberIf (fun q => q.den == 1)

/-- `z.number().int().positive()`. -/
def zPosInt : JSchema := zNumberIf (fun q => q.den == 1 && decide (0 < q))

/-- `z.number().int().nonnegative()`. -/
def zNonnegInt : JSchema := zNumberIf (fun q => q.den == 1 && decide (0 ≤ q))

/-- `z.number().min(0).max(1)`. -/
def zUnitNum : JSchema := zNumberIf (fun q => decide (0 ≤ q) && decide (q ≤ 1))

def NumberOrExpressionSchema : JSchema := zUnion [zNumber, zStringIf isExprStr]

def ColorValueSchema : JSchema := zString

def EasingPresetSchema : JSchema := zEnum
  ["linear", "ease", "easeIn", "easeOut", "easeInOut",
   "easeInQuad", "easeOutQuad", "easeInOutQuad",
   "easeInCubic", "easeOutCubic", "easeInOutCubic",
   "easeInQuart", "easeOutQuart", "easeInOutQuart",
   "easeInQuint", "easeOutQuint", "easeInOutQuint",
   "easeInExpo", "easeOutExpo", "easeInOutExpo",
   "easeInCirc", "easeOutCirc", "easeInOutCirc",
   "easeInBack", "easeOutBack", "easeInOutBack",
   "easeInElastic", "easeOutElastic", "easeInOutElastic",
   "easeInBounce", "easeOutBounce", "easeInOutBounce"]

def CubicBezierEasingSchema : JSchema := zObj
  [⟨"type", zLitStr "cubicBezier", .required⟩,
   ⟨"values", zTuple [zNumber, zNumber, zNumber, zNumber], .required⟩] false

def StepsEasingSchema : JSchema := zObj
  [⟨"type", zLitStr "steps", .required⟩,
   ⟨"count", zPosInt, .required⟩,
   ⟨"position", zEnum ["start", "end", "both", "none"], .optional⟩] false

def SpringPresetSchema : JSchema := zEnum
  ["gentle", "wobbly", "stiff", "slow", "molasses", "bouncy"]

/-- The `.refine` of `SpringConfigSchema`: the parsed object must carry
a `preset`, `stiffness` or `duration` key. -/
def springHasCore (j : Json) : Bool :=
  match j with
  | .obj fs => hasKeyJ fs "preset" || hasKeyJ fs "stiffness" || hasKeyJ fs "duration"
  | _ => false

def SpringConfigSchema : JSchema := zRefine (zObj
  [⟨"stiffness", zNumber, .optional⟩,
   ⟨"damping", zNumber, .optional⟩,
   ⟨"mass", zNumber, .optional⟩,
   ⟨"velocity", zNumber, .optional⟩,
   ⟨"restDelta", zNumber, .optional⟩,
   ⟨"restSpeed", zNumber, .optional⟩,
   ⟨"preset", SpringPresetSchema, .optional⟩,
   ⟨"duration", zNumber, .optional⟩,
   ⟨"bounce", zUnitNum, .optional⟩] false) springHasCore

def SpringEasingSchema : JSchema := zObj
  [⟨"type", zLitStr "spring", .required⟩,
   ⟨"config", SpringConfigSchema, .required⟩] false

def EasingDefinitionSchema : JSchema := zUnion
  [EasingPresetSchema, CubicBezierEasingSchema, StepsEasingSchema,
   SpringEasingSchema]

def StaggerDefinitionSchema : JSchema := zObj
  [⟨"each", zNumber, .required⟩,
   ⟨"from", zUnion [zEnum ["first", "last", "center", "edges"], zNonnegInt],
     .optional⟩,
   ⟨"grid", zTuple [zPosInt, zPosInt], .optional⟩,
   ⟨"axis", zEnum ["x", "y"], .optional⟩,
   ⟨"ease", EasingDefinitionSchema, .optional⟩] false

def RepeatDefinitionSchema : JSchema := zObj
  [⟨"count", zUnion [zPosInt, zLitStr "infinite"], .required⟩,
   ⟨"delay", zNumber, .optional⟩,
   ⟨"behavior", zEnum ["loop", "reverse"], .optional⟩] false

def ShadowDefinitionSchema : JSchema := zObj
  [⟨"x", NumberOrExpressionSchema, .required⟩,
   ⟨"y", NumberOrExpressionSchema, .required⟩,
   ⟨"blur", NumberOrExpressionSchema, .required⟩,
   ⟨"spread", NumberOrExpressionSchema, .optional⟩,
   ⟨"color", ColorValueSchema, .required⟩,
   ⟨"inset", zBoolean, .optional⟩] false

/-- `ElementStateSchema` (every field already `.optional()`, so
`ElementStateSchema.partial()` denotes the same schema; `.passthrough()`
is preserved by `.partial()`). -/
def ElementStateSchema : JSchema := zObj
  [⟨"x", NumberOrExpressionSchema, .optional⟩,
   ⟨"y", NumberOrExpressionSchema, .optional⟩,
   ⟨"z", NumberOrExpressionSchema, .optional⟩,
   ⟨"scaleX", NumberOrExpressionSchema, .optional⟩,
   ⟨"scaleY", NumberOrExpressionSchema, .optional⟩,
   ⟨"scale", NumberOrExpressionSchema, .optional⟩,
   ⟨"rotateX", NumberOrExpressionSchema, .optional⟩,
   ⟨"rotateY", NumberOrExpressionSchema, .optional⟩,
   ⟨"rotateZ", NumberOrExpressionSchema, .optional⟩,
   ⟨"rotate", NumberOrExpressionSchema, .optional⟩,
   ⟨"skewX", NumberOrExpressionSchema, .optional⟩,
   ⟨"skewY", NumberOrExpressionSchema, .optional⟩,
   ⟨"originX", NumberOrExpressionSchema, .optional⟩,
   ⟨"originY", NumberOrExpressionSchema, .optional⟩,
   ⟨"opacity", NumberOrExpressionSchema, .optional⟩,
   ⟨"backgroundColor", ColorValueSchema, .optional⟩,
   ⟨"borderColor", ColorValueSchema, .optional⟩,
   ⟨"color", ColorValueSchema, .optional⟩,
   ⟨"fill", ColorValueSchema, .optional⟩,
   ⟨"stroke", ColorValueSchema, .optional⟩,
   ⟨"width", zUnion [NumberOrExpressionSchema, zLitStr "auto"], .optional⟩,
   ⟨"height", zUnion [NumberOrExpressionSchema, zLitStr "auto"], .optional⟩,
   ⟨"borderRadius", zUnion [NumberOrExpressionSchema, zString], .optional⟩,
   ⟨"borderWidth", NumberOrExpressionSchema, .optional⟩,
   ⟨"strokeWidth", NumberOrExpressionSchema, .optional⟩,
   ⟨"strokeDasharray", zString, .optional⟩,
   ⟨"strokeDashoffset", NumberOrExpressionSchema, .optional⟩,
   ⟨"pathLength", NumberOrExpressionSchema, .optional⟩,
   ⟨"blur", NumberOrExpressionSchema, .optional⟩,
   ⟨"brightness", NumberOrExpressionSchema, .optional⟩,
   ⟨"contrast", NumberOrExpressionSchema, .optional⟩,
   ⟨"saturate", NumberOrExpressionSchema, .optional⟩,
   ⟨"hueRotate", NumberOrExpressionSchema, .optional⟩,
   ⟨"grayscale", NumberOrExpressionSchema, .optional⟩,
   ⟨"sepia", NumberOrExpressionSchema, .optional⟩,
   ⟨"invert", NumberOrExpressionSchema, .optional⟩,
   ⟨"boxShadow", zUnion [ShadowDefinitionSchema, zArray ShadowDefinitionSchema],
     .optional⟩,
   ⟨"pathMotion", zObj
     [⟨"path", zString, .required⟩,
      ⟨"progress", NumberOrExpressionSchema, .required⟩,
      ⟨"autoRotate", zBoolean, .optional⟩,
      ⟨"offset", NumberOrExpressionSchema, .optional⟩] true, .optional⟩,
   ⟨"clipPath", zString, .optional⟩,
   ⟨"perspective", NumberOrExpressionSchema, .optional⟩,
   ⟨"perspectiveOrigin", zString, .optional⟩,
   ⟨"backfaceVisibility", zEnum ["visible", "hidden"], .optional⟩,
   ⟨"transformStyle", zEnum ["flat", "preserve-3d"], .optional⟩] true

def ScrollTriggerConfigSchema : JSchema := zObj
  [⟨"target", zString, .optional⟩,
   ⟨"axis", zEnum ["x", "y"], .optional⟩,
   ⟨"start", zString, .optional⟩,
   ⟨"end", zString, .optional⟩,
   ⟨"scrub", zUnion [zBoolean, zNumber], .optional⟩,
   ⟨"pin", zBoolean, .optional⟩,
   ⟨"markers", zBoolean, .optional⟩,
   ⟨"offset", zTuple [zNumber, zNumber], .optional⟩] false

def InViewConfigSchema : JSchema := zObj
  [⟨"margin", zString, .optional⟩,
   ⟨"amount", zUnion [zEnum ["some", "all"], zNumber], .optional⟩,
   ⟨"once", zBoolean, .optional⟩] false

def AudioTriggerConfigSchema : JSchema := zObj
  [⟨"band", zUnion [zNumber, zEnum ["bass", "mid", "treble", "all"]],
     .optional⟩,
   ⟨"threshold", zUnitNum, .required⟩,
   ⟨"edge", zEnum ["rising", "falling", "both"], .optional⟩] false

def TriggerDefinitionSchema : JSchema := zUnion
  [zObj [⟨"type", zLitStr "mount", .required⟩,
     ⟨"delay", zNumber, .optional⟩] true,
   zObj [⟨"type", zLitStr "unmount", .required⟩] true,
   zObj [⟨"type", zLitStr "hover", .required⟩,
     ⟨"element", zString, .optional⟩] true,
   zObj [⟨"type", zLitStr "hoverEnd", .required⟩,
     ⟨"element", zString, .optional⟩] true,
   zObj [⟨"type", zLitStr "tap", .required⟩,
     ⟨"element", zString, .optional⟩] true,
   zObj [⟨"type", zLitStr "focus", .required⟩,
     ⟨"element", zString, .optional⟩] true,
   zObj [⟨"type", zLitStr "blur", .required⟩,
     ⟨"element", zString, .optional⟩] true,
   zObj [⟨"type", zLitStr "scroll", .required⟩,
     ⟨"config", ScrollTriggerConfigSchema, .required⟩] true,
   zObj [⟨"type", zLitStr "inView", .required⟩,
     ⟨"config", InViewConfigSchema, .optional⟩] true,
   zObj [⟨"type", zLitStr "swipe", .required⟩,
     ⟨"direction", zEnum ["left", "right", "up", "down", "any"], .required⟩,
     ⟨"element", zString, .optional⟩,
     ⟨"threshold", zNumber, .optional⟩,
     ⟨"velocity", zNumber, .optional⟩] true,
   zObj [⟨"type", zLitStr "drag", .required⟩,
     ⟨"element", zString, .optional⟩,
     ⟨"axis", zEnum ["x", "y", "both"], .optional⟩] true,
   zObj [⟨"type", zLitStr "custom", .required⟩,
     ⟨"event", zString, .required⟩] true,
   zObj [⟨"type", zLitStr "state", .required⟩,
     ⟨"condition", zString, .required⟩] true,
   zObj [⟨"type", zLitStr "audio", .required⟩,
     ⟨"config", AudioTriggerConfigSchema, .required⟩] true]

def KeyframeDefinitionSchema : JSchema := zObj
  [⟨"at", zNumberIf (fun q => decide (0 ≤ q) && decide (q ≤ 100)), .required⟩,
   ⟨"state", ElementStateSchema, .required⟩,
   ⟨"easing", EasingDefinitionSchema, .optional⟩] false

def zTargetField : JSchema := zUnion [zString, zArray zString]

/-- The animation-block branch schemas, as they participate in the
`z.lazy` discriminated union (each wrapped there in `.passthrough()`). -/
def KeyframeAnimationSchema : JSchema := zObj
  [⟨"type", zLitStr "keyframes", .required⟩,
   ⟨"target", zTargetField, .required⟩,
   ⟨"keyframes", zArrayMin 1 KeyframeDefinitionSchema, .required⟩,
   ⟨"duration", zNumber, .optional⟩,
   ⟨"easing", EasingDefinitionSchema, .optional⟩,
   ⟨"label", zString, .optional⟩,
   ⟨"delay", zNumber, .optional⟩,
   ⟨"offset", zNumber, .optional⟩,
   ⟨"stagger", StaggerDefinitionSchema, .optional⟩] true

def SpringAnimationSchema : JSchema := zObj
  [⟨"type", zLitStr "spring", .required⟩,
   ⟨"target", zTargetField, .required⟩,
   ⟨"from", ElementStateSchema, .optional⟩,
   ⟨"to", ElementStateSchema, .required⟩,
   ⟨"spring", SpringConfigSchema, .required⟩,
   ⟨"delay", zNumber, .optional⟩,
   ⟨"offset", zNumber, .optional⟩,
   ⟨"stagger", StaggerDefinitionSchema, .optional⟩] true

def TransitionAnimationSchema : JSchema := zObj
  [⟨"type", zLitStr "transition", .required⟩,
   ⟨"target", zTargetField, .required⟩,
   ⟨"from", ElementStateSchema, .optional⟩,
   ⟨"to", ElementStateSchema, .required⟩,
   ⟨"duration", zNumber, .optional⟩,
   ⟨"easing", EasingDefinitionSchema, .optional⟩,
   ⟨"delay", zNumber, .optional⟩,
   ⟨"offset", zNumber, .optional⟩,
   ⟨"stagger", StaggerDefinitionSchema, .optional⟩] true

def MorphAnimationSchema : JSchema := zObj
  [⟨"type", zLitStr "morph", .required⟩,
   ⟨"target", zString, .required⟩,
   ⟨"from", zString, .optional⟩,
   ⟨"to", zString, .required⟩,
   ⟨"duration", zNumber, .optional⟩,
   ⟨"easing", EasingDefinitionSchema, .optional⟩,
   ⟨"delay", zNumber, .optional⟩,
   ⟨"offset", zNumber, .optional⟩] true

def MatchCutAnimationSchema : JSchema := zObj
  [⟨"type", zLitStr "matchCut", .required⟩,
   ⟨"from", zString, .required⟩,
   ⟨"to", zString, .required⟩,
   ⟨"duration", zNumber, .optional⟩,
   ⟨"easing", EasingDefinitionSchema, .optional⟩,
   ⟨"zoomPoint", zObj [⟨"x", zNumber, .required⟩, ⟨"y", zNumber, .required⟩]
     false, .optional⟩,
   ⟨"crossfade", zBoolean, .optional⟩,
   ⟨"offset", zNumber, .optional⟩] true

def ParticleEmitterConfigSchema : JSchema := zObj
  [⟨"position", zObj [⟨"x", zNumber, .required⟩, ⟨"y", zNumber, .required⟩]
     false, .required⟩,
   ⟨"count", zPosInt, .required⟩,
   ⟨"rate", zNumber, .optional⟩,
   ⟨"burst", zBoolean, .optional⟩,
   ⟨"lifetime", zObj [⟨"min", zNumber, .required⟩, ⟨"max", zNumber, .required⟩]
     false, .required⟩,
   ⟨"velocity", zObj
     [⟨"speed", zObj [⟨"min", zNumber, .required⟩, ⟨"max", zNumber, .required⟩]
        false, .required⟩,
      ⟨"direction", zObj [⟨"min", zNumber, .required⟩,
        ⟨"max", zNumber, .required⟩] false, .required⟩] false, .required⟩,
   ⟨"physics", zObj
     [⟨"gravity", zObj [⟨"x", zNumber, .required⟩, ⟨"y", zNumber, .required⟩]
        false, .optional⟩,
      ⟨"friction", zNumber, .optional⟩,
      ⟨"bounce", zNumber, .optional⟩] false, .optional⟩,
   ⟨"appearance", zObj
     [⟨"shape", zEnum ["circle", "square", "star", "confetti", "image"],
        .required⟩,
      ⟨"size", zObj [⟨"start", zNumber, .required⟩,
        ⟨"end", zNumber, .required⟩] false, .required⟩,
      ⟨"colors", zArray ColorValueSchema, .required⟩,
      ⟨"opacity", zObj [⟨"start", zNumber, .required⟩,
        ⟨"end", zNumber, .required⟩] false, .required⟩,
      ⟨"rotation", zObj [⟨"speed", zNumber, .required⟩,
        ⟨"random", zBoolean, .optional⟩] false, .optional⟩] false,
     .required⟩] false

def ParticleAnimationSchema : JSchema := zObj
  [⟨"type", zLitStr "particles", .required⟩,
   ⟨"emitter", ParticleEmitterConfigSchema, .required⟩,
   ⟨"duration", zNumber, .optional⟩,
   ⟨"offset", zNumber, .optional⟩] true

def TextAnimationSchema : JSchema := zObj
  [⟨"type", zLitStr "text", .required⟩,
   ⟨"target", zString, .required⟩,
   ⟨"effect", zEnum ["typewriter", "scramble", "split", "wave", "gradient",
     "reveal"], .required⟩,
   ⟨"duration", zNumber, .optional⟩,
   ⟨"stagger", zNumber, .optional⟩,
   ⟨"splitBy", zEnum ["character", "word", "line"], .optional⟩,
   ⟨"easing", EasingDefinitionSchema, .optional⟩,
   ⟨"delay", zNumber, .optional⟩,
   ⟨"offset", zNumber, .optional⟩] true

/-- The `z.lazy` recursive `AnimationBlockSchema`, with the recursion
unrolled by a fuel parameter: `fuel` bounds the nesting depth of
`group.animations` and `drag.onRelease`, and any fuel at least the
block-nesting depth of the input reproduces the source behavior. -/
def AnimationBlockSchema : ℕ → JSchema
  | 0, _ => none
  | n + 1, j => zUnion
    [KeyframeAnimationSchema,
     SpringAnimationSchema,
     TransitionAnimationSchema,
     zObj [⟨"type", zLitStr "group", .required⟩,
       ⟨"mode", zEnum ["parallel", "sequence"], .required⟩,
       ⟨"animations", zArray (AnimationBlockSchema n), .required⟩,
       ⟨"delay", zNumber, .optional⟩,
       ⟨"stagger", StaggerDefinitionSchema, .optional⟩,
       ⟨"offset", zNumber, .optional⟩] true,
     MorphAnimationSchema,
     MatchCutAnimationSchema,
     zObj [⟨"type", zLitStr "drag", .required⟩,
       ⟨"target", zString, .required⟩,
       ⟨"axis", zEnum ["x", "y", "both"], .optional⟩,
       ⟨"constraints", zObj
         [⟨"left", zNumber, .optional⟩,
          ⟨"right", zNumber, .optional⟩,
          ⟨"top", zNumber, .optional⟩,
          ⟨"bottom", zNumber, .optional⟩] false, .optional⟩,
       ⟨"elastic", zNumber, .optional⟩,
       ⟨"dragElastic", zNumber, .optional⟩,
       ⟨"dragMomentum", zBoolean, .optional⟩,
       ⟨"onRelease", AnimationBlockSchema n, .optional⟩] true,
     ParticleAnimationSchema,
     TextAnimationSchema] j

def BlendModeSchema : JSchema := zEnum
  ["normal", "multiply", "screen", "overlay", "darken", "lighten",
   "colorDodge", "colorBurn", "hardLight", "softLight", "difference",
   "exclusion", "hue", "saturation", "color", "luminosity"]

def MaskDefinitionSchema : JSchema := zObj
  [⟨"path", zString, .optional⟩,
   ⟨"element", zString, .optional⟩,
   ⟨"mode", zEnum ["alpha", "luminance"], .required⟩,
   ⟨"inverted", zBoolean, .optional⟩] false

def EffectDefinitionSchema : JSchema := zUnion
  [zObj [⟨"type", zLitStr "glow", .required⟩,
     ⟨"color", ColorValueSchema, .optional⟩,
     ⟨"radius", NumberOrExpressionSchema, .required⟩,
     ⟨"intensity", NumberOrExpressionSchema, .required⟩,
     ⟨"threshold", NumberOrExpressionSchema, .optional⟩] false,
   zObj [⟨"type", zLitStr "lightRays", .required⟩,
     ⟨"origin", zObj [⟨"x", zNumber, .required⟩, ⟨"y", zNumber, .required⟩]
       false, .required⟩,
     ⟨"length", NumberOrExpressionSchema, .required⟩,
     ⟨"intensity", NumberOrExpressionSchema, .required⟩,
     ⟨"color", ColorValueSchema, .optional⟩,
     ⟨"decay", NumberOrExpressionSchema, .optional⟩] false,
   zObj [⟨"type", zLitStr "dropShadow", .required⟩,
     ⟨"color", ColorValueSchema, .required⟩,
     ⟨"offsetX", NumberOrExpressionSchema, .required⟩,
     ⟨"offsetY", NumberOrExpressionSchema, .required⟩,
     ⟨"blur", NumberOrExpressionSchema, .required⟩,
     ⟨"spread", NumberOrExpressionSchema, .optional⟩] false,
   zObj [⟨"type", zLitStr "motionBlur", .required⟩,
     ⟨"samples", zPosInt, .required⟩,
     ⟨"strength", NumberOrExpressionSchema, .required⟩] false]

/-- The shape of `BaseElementSchema` (extended by every element kind;
`initial: ElementStateSchema.optional().default({})` parses `{}`
through the state schema when the key is absent). -/
def baseElementSpecs : List FieldSpec :=
  [⟨"initial", ElementStateSchema, .defaulted (.obj [])⟩,
   ⟨"blendMode", BlendModeSchema, .optional⟩,
   ⟨"mask", MaskDefinitionSchema, .optional⟩,
   ⟨"effects", zArray EffectDefinitionSchema, .optional⟩]

def LayoutDefinitionSchema : JSchema := zObj
  [⟨"type", zEnum ["row", "column", "stack", "wrap", "grid"], .required⟩,
   ⟨"gap", NumberOrExpressionSchema, .optional⟩,
   ⟨"padding", zUnion [NumberOrExpressionSchema,
     zTuple [NumberOrExpressionSchema, NumberOrExpressionSchema,
       NumberOrExpressionSchema, NumberOrExpressionSchema]], .optional⟩,
   ⟨"align", zEnum ["start", "center", "end", "stretch", "baseline"],
     .optional⟩,
   ⟨"justify", zEnum ["start", "center", "end", "between", "around",
     "evenly"], .optional⟩,
   ⟨"wrap", zBoolean, .optional⟩,
   ⟨"columns", zPosInt, .optional⟩,
   ⟨"rows", zPosInt, .optional⟩] false

def ElementDefinitionSchema : JSchema := zUnion
  [zObj (baseElementSpecs ++ [⟨"type", zLitStr "box", .required⟩]) true,
   zObj (baseElementSpecs ++
     [⟨"type", zLitStr "circle", .required⟩,
      ⟨"radius", NumberOrExpressionSchema, .optional⟩]) true,
   zObj (baseElementSpecs ++
     [⟨"type", zLitStr "text", .required⟩,
      ⟨"content", zString, .required⟩,
      ⟨"font", zString, .optional⟩,
      ⟨"fontSize", NumberOrExpressionSchema, .optional⟩,
      ⟨"fontWeight", zUnion [zNumber, zString], .optional⟩,
      ⟨"lineHeight", NumberOrExpressionSchema, .optional⟩,
      ⟨"letterSpacing", NumberOrExpressionSchema, .optional⟩,
      ⟨"textAlign", zEnum ["left", "center", "right"], .optional⟩]) true,
   zObj (baseElementSpecs ++
     [⟨"type", zLitStr "svg", .required⟩,
      ⟨"viewBox", zString, .optional⟩,
      ⟨"children", zArray zString, .defaulted (.arr [])⟩]) true,
   zObj (baseElementSpecs ++
     [⟨"type", zLitStr "path", .required⟩,
      ⟨"d", zString, .required⟩]) true,
   zObj (baseElementSpecs ++
     [⟨"type", zLitStr "mesh", .required⟩,
      ⟨"image", zString, .required⟩,
      ⟨"vertices", zArray (zObj
        [⟨"x", zNumber, .required⟩,
         ⟨"y", zNumber, .required⟩,
         ⟨"u", zNumber, .optional⟩,
         ⟨"v", zNumber, .optional⟩] false), .required⟩,
      ⟨"triangles", zArray zNonnegInt, .required⟩,
      ⟨"bones", zArray (zObj
        [⟨"bone", zString, .required⟩,
         ⟨"vertices", zArray zNonnegInt, .required⟩,
         ⟨"weights", zArray zUnitNum, .required⟩] false), .optional⟩]) true,
   zObj (baseElementSpecs ++
     [⟨"type", zLitStr "group", .required⟩,
      ⟨"children", zArray zString, .defaulted (.arr [])⟩,
      ⟨"layout", LayoutDefinitionSchema, .optional⟩]) true,
   zObj (baseElementSpecs ++
     [⟨"type", zLitStr "custom", .required⟩,
      ⟨"component", zString, .required⟩,
      ⟨"props", zRecord zUnknown, .optional⟩]) true]

def SequenceDefinitionSchema (fuel : ℕ) : JSchema := zObj
  [⟨"id", zString, .optional⟩,
   ⟨"trigger", TriggerDefinitionSchema, .required⟩,
   ⟨"animations", zArray (AnimationBlockSchema fuel), .required⟩,
   ⟨"repeat", RepeatDefinitionSchema, .optional⟩,
   ⟨"yoyo", zBoolean, .optional⟩] false

def AnimationDefaultsSchema : JSchema := zObj
  [⟨"duration", zNumber, .optional⟩,
   ⟨"easing", EasingDefinitionSchema, .optional⟩,
   ⟨"stagger", StaggerDefinitionSchema, .optional⟩] false

def TimelineDefinitionSchema (fuel : ℕ) : JSchema := zObj
  [⟨"defaults", AnimationDefaultsSchema, .optional⟩,
   ⟨"sequences", zArray (SequenceDefinitionSchema fuel), .required⟩] true

def StateTransitionSchema : JSchema := zObj
  [⟨"target", zString, .required⟩,
   ⟨"condition", zString, .optional⟩,
   ⟨"trigger", zString, .optional⟩,
   ⟨"duration", zNumber, .optional⟩,
   ⟨"easing", EasingDefinitionSchema, .optional⟩] false

def StateDefinitionSchema (fuel : ℕ) : JSchema := zObj
  [⟨"animation", zString, .optional⟩,
   ⟨"onEnter", zArray (AnimationBlockSchema fuel), .optional⟩,
   ⟨"onExit", zArray (AnimationBlockSchema fuel), .optional⟩,
   ⟨"transitions", zArray StateTransitionSchema, .required⟩] false

def InputDefinitionSchema : JSchema := zObj
  [⟨"type", zEnum ["boolean", "number", "trigger"], .required⟩,
   ⟨"default", zUnion [zBoolean, zNumber], .optional⟩,
   ⟨"min", zNumber, .optional⟩,
   ⟨"max", zNumber, .optional⟩] false

def StateMachineSchema (fuel : ℕ) : JSchema := zObj
  [⟨"initial", zString, .required⟩,
   ⟨"states", zRecord (StateDefinitionSchema fuel), .required⟩,
   ⟨"inputs", zRecord InputDefinitionSchema, .optional⟩] false

def ViewModelPropertySchema : JSchema := zObj
  [⟨"type", zEnum ["string", "number", "boolean", "color", "enum"],
     .required⟩,
   ⟨"default", zUnion [zString, zNumber, zBoolean], .required⟩,
   ⟨"options", zArray zString, .optional⟩] false

def PropertyBindingSchema : JSchema := zObj
  [⟨"source", zString, .required⟩,
   ⟨"target", zString, .required⟩,
   ⟨"transform", zString, .optional⟩] false

def DataBindingSchema : JSchema := zObj
  [⟨"viewModel", zRecord ViewModelPropertySchema, .required⟩,
   ⟨"bindings", zArray PropertyBindingSchema, .required⟩] false

def AudioAnalysisConfigSchema : JSchema := zObj
  [⟨"bands", zNumberIf (fun q => q.den == 1 && decide (1 ≤ q)
     && decide (q ≤ 32)), .optional⟩,
   ⟨"smoothing", zUnitNum, .optional⟩,
   ⟨"minDecibels", zNumber, .optional⟩,
   ⟨"maxDecibels", zNumber, .optional⟩,
   ⟨"fftSize", zInt, .optional⟩] false

def AudioBindingSchema : JSchema := zObj
  [⟨"band", zUnion [zNumber, zEnum ["bass", "mid", "treble", "all"]],
     .optional⟩,
   ⟨"property", zString, .required⟩,
   ⟨"range", zTuple [zNumber, zNumber], .required⟩,
   ⟨"output", zTuple [zNumber, zNumber], .required⟩,
   ⟨"easing", EasingDefinitionSchema, .optional⟩] false

def AudioConfigSchema : JSchema := zObj
  [⟨"source", zString, .required⟩,
   ⟨"analysis", AudioAnalysisConfigSchema, .optional⟩,
   ⟨"bindings", zArray AudioBindingSchema, .optional⟩] false

def AnimationMetaSchema : JSchema := zObj
  [⟨"name", zString, .optional⟩,
   ⟨"description", zString, .optional⟩,
   ⟨"duration", zNumber, .optional⟩,
   ⟨"fps", zPosInt, .optional⟩,
   ⟨"viewport", zObj
     [⟨"width", zNumberIf (fun q => decide (0 < q)), .required⟩,
      ⟨"height", zNumberIf (fun q => decide (0 < q)), .required⟩] false,
     .optional⟩] false

def KineticAnimationSchema (fuel : ℕ) : JSchema := zObj
  [⟨"$schema", zString, .optional⟩,
   ⟨"version", zLitStr "1.0", .required⟩,
   ⟨"meta", AnimationMetaSchema, .optional⟩,
   ⟨"variables", zRecord (zUnion [zNumber, zString, zArray zNumber]),
     .optional⟩,
   ⟨"audio", AudioConfigSchema, .optional⟩,
   ⟨"elements", zRecord ElementDefinitionSchema, .required⟩,
   ⟨"timeline", TimelineDefinitionSchema fuel, .required⟩,
   ⟨"stateMachine", StateMachineSchema fuel, .optional⟩,
   ⟨"dataBinding", DataBindingSchema, .optional⟩] true

/-- `validateDSL` on a JSON tree: `some d` models
`{ valid: true, data: d, errors: [] }`, `none` models a failed
validation.  The fuel parameter unrolls the `z.lazy` recursion of
`AnimationBlockSchema` and is otherwise inert. -/
def validateDSL (fuel : ℕ) (j : Json) : Option Json :=
  KineticAnimationSchema fuel j

/-! ## Theorems for claim C4 -/

/-- C4: for a target list of length `n` and index `i`, the stagger delay
is `i*each` for origin `first` (and when the origin is absent),
`(n-1-i)*each` for `last`, `|i-(n-1)/2|*each` for `center`,
`((n-1)/2 - |i-(n-1)/2|)*each` for `edges`, and `|i-k|*each` for an
explicit numeric origin `k`; and for origin `center` over 5 targets with
`each = 100`, indices 0..4 give delays `[200,100,0,100,200]`. -/
theorem stagger_delay_formulas :
    (∀ i n each : ℚ,
      calculateStaggerDelay i n ⟨each, none⟩ = i * each ∧
      calculateStaggerDelay i n ⟨each, some .first⟩ = i * each ∧
      calculateStaggerDelay i n ⟨each, some .last⟩ = (n - 1 - i) * each ∧
      calculateStaggerDelay i n ⟨each, some .center⟩ = |i - (n - 1) / 2| * each ∧
      calculateStaggerDelay i n ⟨each, some .edges⟩ =
        ((n - 1) / 2 - |i - (n - 1) / 2|) * each ∧
      ∀ k : ℚ, calculateStaggerDelay i n ⟨each, some (.idx k)⟩ = |i - k| * each) ∧
    (List.range 5).map
        (fun i => calculateStaggerDelay i 5 ⟨100, some .center⟩) =
      [200, 100, 0, 100, 200] := by
  refine ⟨fun i n each => ⟨rfl, rfl, rfl, rfl, rfl, fun k => rfl⟩, ?_⟩
  norm_num [List.range_succ, calculateStaggerDelay, abs_neg, abs_of_nonneg]

/-! ## Theorems for claim C7 -/

/-- C7: for a spring config with explicit physics parameters (positive
stiffness and mass), the CSS backend selects the strong-overshoot bezier
when `ratio = damping/(2*sqrt(stiffness*mass)) < 0.5`, the mild-overshoot
bezier when `0.5 ≤ ratio < 1`, the standard curve when `ratio ≥ 1`, and
computes `duration = min 2 (max 0.2 (4*π*sqrt(mass/stiffness)))`; in
particular `{stiffness: 400, damping: 10, mass: 1}` (ratio 0.25) selects
the strong-overshoot bezier. -/
theorem spring_css_approximation (s d m : ℝ) (hs : 0 < s) (hm : 0 < m) :
    (let ratio := d / (2 * Real.sqrt (s * m))
     let out := springToCubicBezier (.cfg ⟨some s, some d, some m⟩)
     (ratio < 0.5 → out = "cubic-bezier(0.68, -0.6, 0.32, 1.6)") ∧
     (0.5 ≤ ratio → ratio < 1 → out = "cubic-bezier(0.34, 1.56, 0.64, 1)") ∧
     (1 ≤ ratio → out = "cubic-bezier(0.4, 0, 0.2, 1)")) ∧
    springToDuration (.cfg ⟨some s, some d, some m⟩) =
      min 2 (max 0.2 (4 * Real.pi * Real.sqrt (m / s))) ∧
    springToCubicBezier (.cfg ⟨some 400, some 10, some 1⟩) =
      "cubic-bezier(0.68, -0.6, 0.32, 1.6)" := by
  have hss : Real.sqrt s ≠ 0 := ne_of_gt (Real.sqrt_pos.mpr hs)
  have hsm : Real.sqrt m ≠ 0 := ne_of_gt (Real.sqrt_pos.mpr hm)
  refine ⟨⟨?_, ?_, ?_⟩, ?_, ?_⟩
  · intro h
    simp only [springToCubicBezier, Option.getD_some]
    rw [if_pos h]
  · intro h1 h2
    simp only [springToCubicBezier, Option.getD_some]
    rw [if_neg (not_lt.mpr h1), if_pos h2]
  · intro h
    simp only [springToCubicBezier, Option.getD_some]
    rw [if_neg (not_lt.mpr (le_trans (by norm_num) h)),
      if_neg (not_lt.mpr h)]
  · simp only [springToDuration, Option.getD_some]
    congr 1
    congr 1
    rw [Real.sqrt_div (le_of_lt hs) m, Real.sqrt_div (le_of_lt hm) s,
      div_div_eq_mul_div, mul_comm (4 * Real.pi) (Real.sqrt m)]
    field_simp
    ring
  · have h400 : Real.sqrt ((400 : ℝ) * 1) = 20 := by
      rw [show ((400 : ℝ) * 1) = 20 ^ 2 by norm_num]
      exact Real.sqrt_sq (by norm_num)
    simp only [springToCubicBezier, Option.getD_some]
    rw [if_pos]
    rw [h400]
    norm_num

/-! ## Supporting lemmas: decimal digits -/

theorem natDigits_ne_nil (n : Nat) : natDigits n ≠ [] := by
  unfold natDigits
  split <;> simp

theorem digitChar_isDigit {n : Nat} (h : n < 10) : (Nat.digitChar n).isDigit = true := by
  interval_cases n <;> decide

theorem digitVal_digitChar {n : Nat} (h : n < 10) : digitVal (Nat.digitChar n) = n := by
  interval_cases n <;> decide

theorem natDigits_digits (n : Nat) : ∀ c ∈ natDigits n, c.isDigit = true := by
  induction n using Nat.strong_induction_on with
  | _ n ih =>
    unfold natDigits
    split
    next h =>
      intro c hc
      simp only [List.mem_singleton] at hc
      subst hc
      exact digitChar_isDigit h
    next h =>
      intro c hc
      simp only [List.mem_append, List.mem_singleton] at hc
      rcases hc with hc | hc
      · exact ih (n / 10) (Nat.div_lt_self (by omega) (by omega)) c hc
      · subst hc
        exact digitChar_isDigit (Nat.mod_lt _ (by omega))

theorem natDigits_head_zero {n : Nat} (h : (natDigits n).head? = some '0') : n = 0 := by
  induction n using Nat.strong_induction_on with
  | _ n ih =>
    unfold natDigits at h
    split at h
    next hlt =>
      simp only [List.head?_cons, Option.some.injEq] at h
      revert h
      interval_cases n <;> decide
    next hlt =>
      rw [List.head?_append_of_ne_nil _ (natDigits_ne_nil (n / 10))] at h
      exact absurd (ih (n / 10) (Nat.div_lt_self (by omega) (by omega)) h)
        (by omega)

theorem digitsVal_append_singleton (A : List Char) (c : Char) :
    digitsVal (A ++ [c]) = digitsVal A * 10 + digitVal c := by
  simp [digitsVal, List.foldl_append]

theorem digitsVal_natDigits (n : Nat) : digitsVal (natDigits n) = n := by
  induction n using Nat.strong_induction_on with
  | _ n ih =>
    unfold natDigits
    split
    next h =>
      simp [digitsVal, digitVal_digitChar h]
    next h =>
      rw [digitsVal_append_singleton, ih (n / 10) (Nat.div_lt_self (by omega) (by omega)),
        digitVal_digitChar (Nat.mod_lt _ (by omega))]
      omega

/-! ## Supporting lemmas: takeWhile / dropWhile / filter -/

theorem takeWhile_append_all {α : Type} {p : α → Bool} {A l : List α}
    (h : ∀ a ∈ A, p a = true) :
    (A ++ l).takeWhile p = A ++ l.takeWhile p := by
  induction A with
  | nil => simp
  | cons a A ih =>
    rw [List.cons_append, List.takeWhile_cons, h a (by simp)]
    simp [ih (fun x hx => h x (by simp [hx]))]

theorem dropWhile_append_all {α : Type} {p : α → Bool} {A l : List α}
    (h : ∀ a ∈ A, p a = true) :
    (A ++ l).dropWhile p = l.dropWhile p := by
  induction A with
  | nil => simp
  | cons a A ih =>
    rw [List.cons_append, List.dropWhile_cons]
    simp only [h a (by simp), if_true]
    exact ih (fun x hx => h x (by simp [hx]))

theorem takeWhile_eq_nil_of_head {α : Type} {p : α → Bool} {l : List α}
    (h : ∀ c, l.head? = some c → p c = false) : l.takeWhile p = [] := by
  cases l with
  | nil => rfl
  | cons a l => rw [List.takeWhile_cons, h a rfl]; simp

theorem dropWhile_eq_self_of_head {α : Type} {p : α → Bool} {l : List α}
    (h : ∀ c, l.head? = some c → p c = false) : l.dropWhile p = l := by
  cases l with
  | nil => rfl
  | cons a l => rw [List.dropWhile_cons, h a rfl]; simp

/-! ## Supporting lemmas: the lexer on printed integers -/

theorem lexNumber_natDigits (n : Nat) (rest : List Char)
    (hrest : ∀ c, rest.head? = some c → c.isDigit = false ∧ c ≠ '.') :
    lexNumber (natDigits n ++ rest) = some ((n : ℚ), rest) := by
  have htake : (natDigits n ++ rest).takeWhile Char.isDigit = natDigits n := by
    rw [takeWhile_append_all (natDigits_digits n),
      takeWhile_eq_nil_of_head (fun c hc => (hrest c hc).1), List.append_nil]
  have hdrop : (natDigits n ++ rest).dropWhile Char.isDigit = rest := by
    rw [dropWhile_append_all (natDigits_digits n),
      dropWhile_eq_self_of_head (fun c hc => (hrest c hc).1)]
  have hzero : ¬(2 ≤ ((natDigits n ++ rest).takeWhile Char.isDigit).length ∧
      ((natDigits n ++ rest).takeWhile Char.isDigit).head? = some '0') := by
    rw [htake]
    rintro ⟨h2, hh⟩
    have hn0 : n = 0 := natDigits_head_zero hh
    subst hn0
    have h0 : natDigits 0 = ['0'] := by
      unfold natDigits
      norm_num
      decide
    rw [h0] at h2
    simp at h2
  have hdot : ¬((natDigits n ++ rest).dropWhile Char.isDigit).head? = some '.' := by
    rw [hdrop]
    intro hh
    exact (hrest _ hh).2 rfl
  have hip : ((natDigits n ++ rest).takeWhile Char.isDigit).isEmpty = false := by
    rw [htake]
    cases hw : natDigits n with
    | nil => exact absurd hw (natDigits_ne_nil n)
    | cons a l => simp
  unfold lexNumber
  rw [if_neg hzero, if_neg hdot, if_neg (by simp [hip]), htake, hdrop,
    digitsVal_natDigits]

theorem tokenize_natDigits (n : Nat) (rest : List Char)
    (hrest : ∀ c, rest.head? = some c → c.isDigit = false ∧ c ≠ '.') :
    tokenize (natDigits n ++ rest) =
      (tokenize rest).map (fun ts => Tok.num (n : ℚ) :: ts) := by
  obtain ⟨d, ds, hnd⟩ : ∃ d ds, natDigits n = d :: ds := by
    cases h : natDigits n with
    | nil => exact absurd h (natDigits_ne_nil n)
    | cons d ds => exact ⟨d, ds, rfl⟩
  have hd : d.isDigit = true := natDigits_digits n d (by rw [hnd]; simp)
  have hdws : jsWsChar d = false := by
    simp only [jsWsChar, Bool.or_eq_false_iff, decide_eq_false_iff_not]
    refine ⟨⟨⟨⟨⟨?_, ?_⟩, ?_⟩, ?_⟩, ?_⟩, ?_⟩ <;>
      (rintro rfl; exact absurd hd (by decide))
  have hlex : lexNumber (d :: (ds ++ rest)) = some ((n : ℚ), rest) := by
    have := lexNumber_natDigits n rest hrest
    rwa [hnd, List.cons_append] at this
  rw [hnd, List.cons_append]
  generalize hres : Option.map (fun ts => Tok.num (n : ℚ) :: ts) (tokenize rest) = R
  unfold tokenize
  rw [if_neg (by simp [hdws]), if_pos (by simp [hd]), hlex]
  exact hres

/-! ## Supporting lemmas: character classes -/

theorem ne_of_isDigit {c x : Char} (h : c.isDigit = true) (hx : x.isDigit = false) :
    c ≠ x := by
  rintro rfl
  rw [h] at hx
  exact Bool.noConfusion hx

theorem isDigit_not_ws {c : Char} (h : c.isDigit = true) : jsWsChar c = false := by
  simp only [jsWsChar, Bool.or_eq_false_iff, decide_eq_false_iff_not]
  refine ⟨⟨⟨⟨⟨?_, ?_⟩, ?_⟩, ?_⟩, ?_⟩, ?_⟩ <;>
    (rintro rfl; exact absurd h (by decide))

theorem isDigit_allowed {c : Char} (h : c.isDigit = true) : allowedChar c = true := by
  simp [allowedChar, h]

theorem head_ne_of_digits {l : List Char} (hl : ∀ c ∈ l, c.isDigit = true)
    {x : Char} (hx : x.isDigit = false) : l.head? ≠ some x := by
  cases l with
  | nil => simp
  | cons a l =>
    simp only [List.head?_cons, ne_eq, Option.some.injEq]
    exact ne_of_isDigit (hl a (by simp)) hx

theorem intChars_good (i : ℤ) :
    ∀ c ∈ intChars i, allowedChar c = true ∧ jsWsChar c = false ∧ c ≠ '$' := by
  unfold intChars
  split
  · intro c hc
    simp only [List.mem_cons] at hc
    rcases hc with rfl | hc
    · exact ⟨by decide, by decide, by decide⟩
    · have hd := natDigits_digits _ c hc
      exact ⟨isDigit_allowed hd, isDigit_not_ws hd, ne_of_isDigit hd (by decide)⟩
  · intro c hc
    have hd := natDigits_digits _ c hc
    exact ⟨isDigit_allowed hd, isDigit_not_ws hd, ne_of_isDigit hd (by decide)⟩

theorem allowed_not_space_not_ws {c : Char} (h : allowedChar c = true)
    (hc : c ≠ ' ') : jsWsChar c = false := by
  simp only [allowedChar, Bool.or_eq_true, decide_eq_true_eq] at h
  rcases h with ((((((((hd | rfl) | rfl) | rfl) | rfl) | rfl) | rfl) | rfl) | rfl)
  · exact isDigit_not_ws hd
  all_goals first | decide | exact absurd rfl hc

theorem ws_not_space_not_allowed {c : Char} (h : jsWsChar c = true)
    (hc : c ≠ ' ') : allowedChar c = false := by
  simp only [jsWsChar, Bool.or_eq_true, decide_eq_true_eq] at h
  rcases h with ((((rfl | rfl) | rfl) | rfl) | rfl) | rfl
  all_goals first | decide | exact absurd rfl hc

/-! ## Supporting lemmas: `replaceAll` -/

theorem replaceAll_nil (pat rep : List Char) : replaceAll [] pat rep = [] := by
  unfold replaceAll
  rfl

theorem replaceAll_cons_pos {c : Char} {s pat rep : List Char}
    (h : pat ≠ [] ∧ pat.isPrefixOf (c :: s)) :
    replaceAll (c :: s) pat rep =
      rep ++ replaceAll ((c :: s).drop pat.length) pat rep := by
  generalize hres : rep ++ replaceAll ((c :: s).drop pat.length) pat rep = R
  unfold replaceAll
  rw [dif_pos h]
  exact hres

theorem replaceAll_cons_neg {c : Char} {s pat rep : List Char}
    (h : ¬(pat ≠ [] ∧ pat.isPrefixOf (c :: s))) :
    replaceAll (c :: s) pat rep = c :: replaceAll s pat rep := by
  generalize hres : replaceAll s pat rep = R
  unfold replaceAll
  rw [dif_neg h]
  rw [hres]

theorem replaceAll_append_of_ne {pc : Char} {pr rep : List Char} (A : List Char)
    (s : List Char) (hA : ∀ a ∈ A, a ≠ pc) :
    replaceAll (A ++ s) (pc :: pr) rep = A ++ replaceAll s (pc :: pr) rep := by
  induction A with
  | nil => simp
  | cons a A ih =>
    have hnp : ¬((pc :: pr) ≠ [] ∧ (pc :: pr).isPrefixOf (a :: (A ++ s))) := by
      rintro ⟨-, hpre⟩
      rw [List.isPrefixOf_iff_prefix, List.cons_prefix_cons] at hpre
      exact hA a (by simp) hpre.1.symm
    rw [List.cons_append, replaceAll_cons_neg hnp,
      ih (fun x hx => hA x (by simp [hx]))]
    simp

/-! ## Supporting lemmas: the sanitizer comparison -/

theorem sanitize_fail_foreign {resolved : List Char} {c : Char} (hc : c ∈ resolved)
    (h1 : allowedChar c = false) (h2 : jsWsChar c = false) :
    resolved.filter allowedChar ≠ resolved.filter (fun c => ! jsWsChar c) := by
  intro heq
  have hr : c ∈ resolved.filter (fun c => ! jsWsChar c) :=
    List.mem_filter.mpr ⟨hc, by simp [h2]⟩
  rw [← heq] at hr
  have := (List.mem_filter.mp hr).2
  rw [h1] at this
  exact Bool.noConfusion this

theorem sanitize_fail_space {resolved : List Char} (hc : ' ' ∈ resolved) :
    resolved.filter allowedChar ≠ resolved.filter (fun c => ! jsWsChar c) := by
  intro heq
  have hl : ' ' ∈ resolved.filter allowedChar :=
    List.mem_filter.mpr ⟨hc, by decide⟩
  rw [heq] at hl
  have := (List.mem_filter.mp hl).2
  exact Bool.noConfusion (by simpa using this)

theorem sanitize_pass {resolved : List Char}
    (h : ∀ c ∈ resolved, (allowedChar c = true ∨ jsWsChar c = true) ∧ c ≠ ' ') :
    resolved.filter allowedChar = resolved.filter (fun c => ! jsWsChar c) := by
  apply List.filter_congr
  intro c hc
  rcases h c hc with ⟨hor, hs⟩
  rcases hor with ha | hw
  · rw [ha, allowed_not_space_not_ws ha hs]
    rfl
  · rw [ws_not_space_not_allowed hw hs, hw]
    rfl

/-! ## Supporting lemmas: the lexer on operators, integer printing -/

theorem tokenize_cons_plus (cs : List Char) (h : cs.head? ≠ some '+') :
    tokenize ('+' :: cs) = (tokenize cs).map (fun ts => Tok.plus :: ts) := by
  generalize hres : (tokenize cs).map (fun ts => Tok.plus :: ts) = R
  unfold tokenize
  rw [if_neg (by decide), if_neg (by decide), if_pos rfl, if_neg h]
  exact hres

theorem tokenize_cons_minus (cs : List Char) (h : cs.head? ≠ some '-') :
    tokenize ('-' :: cs) = (tokenize cs).map (fun ts => Tok.minus :: ts) := by
  generalize hres : (tokenize cs).map (fun ts => Tok.minus :: ts) = R
  unfold tokenize
  rw [if_neg (by decide), if_neg (by decide), if_neg (by decide), if_pos rfl,
    if_neg h]
  exact hres

theorem tokenize_cons_lparen (cs : List Char) :
    tokenize ('(' :: cs) = (tokenize cs).map (fun ts => Tok.lparen :: ts) := by
  generalize hres : (tokenize cs).map (fun ts => Tok.lparen :: ts) = R
  unfold tokenize
  rw [if_neg (by decide), if_neg (by decide), if_neg (by decide),
    if_neg (by decide), if_neg (by decide), if_neg (by decide), if_pos rfl]
  exact hres

theorem tokenize_cons_rparen (cs : List Char) :
    tokenize (')' :: cs) = (tokenize cs).map (fun ts => Tok.rparen :: ts) := by
  generalize hres : (tokenize cs).map (fun ts => Tok.rparen :: ts) = R
  unfold tokenize
  rw [if_neg (by decide), if_neg (by decide), if_neg (by decide),
    if_neg (by decide), if_neg (by decide), if_neg (by decide),
    if_neg (by decide), if_pos rfl]
  exact hres

theorem tokenize_nil : tokenize [] = some [] := by
  unfold tokenize
  rfl

theorem ratDecimalChars_intCast (i : ℤ) : ratDecimalChars (i : ℚ) = intChars i := by
  unfold ratDecimalChars intChars
  rw [Rat.den_intCast, Rat.num_intCast]
  rw [if_pos rfl]
  by_cases h : i < 0
  · rw [if_pos h, if_pos (show (i : ℚ) < 0 by exact_mod_cast h)]
    rfl
  · rw [if_neg h, if_neg (show ¬((i : ℚ) < 0) by exact_mod_cast h)]
    rfl

theorem intChars_pos {i : ℤ} (h : 0 ≤ i) : intChars i = natDigits i.natAbs := by
  unfold intChars
  rw [if_neg (by omega)]

theorem intChars_neg {i : ℤ} (h : i < 0) : intChars i = '-' :: natDigits i.natAbs := by
  unfold intChars
  rw [if_pos h]

/-! ## Supporting lemmas: the parser on the token shapes of `A+B` -/

theorem parseAdd_shape_pp (f : Nat) (x y : ℚ) :
    parseAdd (f + 5) [Tok.num x, Tok.plus, Tok.num y] =
      some (.fin (x + y), []) := rfl

theorem parseAdd_shape_pn (f : Nat) (x y : ℚ) :
    parseAdd (f + 7) [Tok.num x, Tok.plus, Tok.minus, Tok.num y] =
      some (.fin (x + -y), []) := rfl

theorem parseAdd_shape_np (f : Nat) (x y : ℚ) :
    parseAdd (f + 7) [Tok.minus, Tok.num x, Tok.plus, Tok.num y] =
      some (.fin (-x + y), []) := rfl

theorem parseAdd_shape_nn (f : Nat) (x y : ℚ) :
    parseAdd (f + 8) [Tok.minus, Tok.num x, Tok.plus, Tok.minus, Tok.num y] =
      some (.fin (-x + -y), []) := rfl

/-- The same shapes inside the `Function` wrapper's parentheses. -/
theorem parseAdd_shape_w_single (f : Nat) (x : ℚ) :
    parseAdd (f + 20) [Tok.lparen, Tok.num x, Tok.rparen] =
      some (.fin x, []) := rfl

theorem parseAdd_shape_w_pp (f : Nat) (x y : ℚ) :
    parseAdd (f + 20) [Tok.lparen, Tok.num x, Tok.plus, Tok.num y, Tok.rparen] =
      some (.fin (x + y), []) := rfl

theorem parseAdd_shape_w_pn (f : Nat) (x y : ℚ) :
    parseAdd (f + 20)
        [Tok.lparen, Tok.num x, Tok.plus, Tok.minus, Tok.num y, Tok.rparen] =
      some (.fin (x + -y), []) := rfl

theorem parseAdd_shape_w_np (f : Nat) (x y : ℚ) :
    parseAdd (f + 20)
        [Tok.lparen, Tok.minus, Tok.num x, Tok.plus, Tok.num y, Tok.rparen] =
      some (.fin (-x + y), []) := rfl

theorem parseAdd_shape_w_nn (f : Nat) (x y : ℚ) :
    parseAdd (f + 20)
        [Tok.lparen, Tok.minus, Tok.num x, Tok.plus, Tok.minus, Tok.num y,
          Tok.rparen] =
      some (.fin (-x + -y), []) := rfl

/-! ## Supporting lemmas: `jsEval` on `A+B` for printed integers -/

theorem head_digits_append (m : Nat) (rest : List Char) :
    ∀ c, (natDigits m ++ rest).head? = some c → c.isDigit = true := by
  intro c hc
  rw [List.head?_append_of_ne_nil _ (natDigits_ne_nil m)] at hc
  cases hnd : natDigits m with
  | nil => exact absurd hnd (natDigits_ne_nil m)
  | cons d ds =>
    rw [hnd] at hc
    simp only [List.head?_cons, Option.some.injEq] at hc
    subst hc
    exact natDigits_digits m d (by rw [hnd]; simp)

theorem tokenize_intChars_rest (i : ℤ) (rest : List Char)
    (hrest : ∀ c, rest.head? = some c → c.isDigit = false ∧ c ≠ '.') :
    tokenize (intChars i ++ rest) =
      (tokenize rest).map (fun ts =>
        (if i < 0 then [Tok.minus, Tok.num (i.natAbs : ℚ)]
         else [Tok.num (i.natAbs : ℚ)]) ++ ts) := by
  by_cases h : i < 0
  · rw [intChars_neg h, if_pos h, List.cons_append,
      tokenize_cons_minus _
        (fun hc => absurd (head_digits_append _ _ '-' hc) (by decide)),
      tokenize_natDigits _ _ hrest]
    cases tokenize rest <;> rfl
  · rw [intChars_pos (by omega), if_neg h, tokenize_natDigits _ _ hrest]
    cases tokenize rest <;> rfl

theorem jsEval_of_tokenize {cs : List Char} {ts : List Tok} {v : JSNum}
    (ht : tokenize ('(' :: (cs ++ [')'])) = some ts)
    (hp : parseAdd (8 * (ts.length + 1)) ts = some (v, [])) :
    jsEval cs = some v := by
  unfold jsEval
  rw [ht]
  simp [hp]

theorem intChars_ne_nil (i : ℤ) : intChars i ≠ [] := by
  unfold intChars
  by_cases h : i < 0
  · rw [if_pos h]
    simp
  · rw [if_neg h]
    exact natDigits_ne_nil _

theorem jsEval_intSum (va vb : ℤ) :
    jsEval (intChars va ++ '+' :: intChars vb) =
      some (.fin ((va : ℚ) + (vb : ℚ))) := by
  have hplus : ∀ c : Char, ('+' :: (intChars vb ++ [')'])).head? = some c →
      c.isDigit = false ∧ c ≠ '.' := by
    intro c hc
    simp only [List.head?_cons, Option.some.injEq] at hc
    subst hc
    exact ⟨by decide, by decide⟩
  have hheadvb0 : (intChars vb).head? ≠ some '+' := by
    by_cases h : vb < 0
    · rw [intChars_neg h]
      simp
    · rw [intChars_pos (by omega)]
      exact head_ne_of_digits (natDigits_digits _) (by decide)
  have hheadvb : (intChars vb ++ [')']).head? ≠ some '+' := by
    rw [List.head?_append_of_ne_nil _ (intChars_ne_nil vb)]
    exact hheadvb0
  have htokrb : tokenize (intChars vb ++ [')']) =
      some ((if vb < 0 then [Tok.minus, Tok.num (vb.natAbs : ℚ)]
             else [Tok.num (vb.natAbs : ℚ)]) ++ [Tok.rparen]) := by
    rw [tokenize_intChars_rest vb [')'] (by
      intro c hc
      simp only [List.head?_cons, Option.some.injEq] at hc
      subst hc
      exact ⟨by decide, by decide⟩)]
    rw [tokenize_cons_rparen, tokenize_nil]
    rfl
  have htok : tokenize ('(' :: ((intChars va ++ '+' :: intChars vb) ++ [')'])) =
      some (Tok.lparen ::
        ((if va < 0 then [Tok.minus, Tok.num (va.natAbs : ℚ)]
          else [Tok.num (va.natAbs : ℚ)]) ++
         Tok.plus ::
           ((if vb < 0 then [Tok.minus, Tok.num (vb.natAbs : ℚ)]
             else [Tok.num (vb.natAbs : ℚ)]) ++ [Tok.rparen]))) := by
    have hassoc : (intChars va ++ '+' :: intChars vb) ++ [')'] =
        intChars va ++ '+' :: (intChars vb ++ [')']) := by simp
    rw [hassoc, tokenize_cons_lparen,
      tokenize_intChars_rest va _ hplus, tokenize_cons_plus _ hheadvb, htokrb]
    rfl
  have hAneg : va < 0 → -(va.natAbs : ℚ) = (va : ℚ) := by
    intro h
    rw [Int.cast_natAbs, abs_of_neg h]
    push_cast
    ring
  have hApos : 0 ≤ va → ((va.natAbs : ℚ)) = (va : ℚ) := by
    intro h
    rw [Int.cast_natAbs, abs_of_nonneg h]
  have hBneg : vb < 0 → -(vb.natAbs : ℚ) = (vb : ℚ) := by
    intro h
    rw [Int.cast_natAbs, abs_of_neg h]
    push_cast
    ring
  have hBpos : 0 ≤ vb → ((vb.natAbs : ℚ)) = (vb : ℚ) := by
    intro h
    rw [Int.cast_natAbs, abs_of_nonneg h]
  by_cases ha : va < 0 <;> by_cases hb : vb < 0
  · rw [if_pos ha, if_pos hb] at htok
    rw [jsEval_of_tokenize htok
      (parseAdd_shape_w_nn 44 (va.natAbs : ℚ) (vb.natAbs : ℚ)),
      hAneg ha, hBneg hb]
  · rw [if_pos ha, if_neg hb] at htok
    rw [jsEval_of_tokenize htok
      (parseAdd_shape_w_np 36 (va.natAbs : ℚ) (vb.natAbs : ℚ)),
      hAneg ha, hBpos (by omega)]
  · rw [if_neg ha, if_pos hb] at htok
    rw [jsEval_of_tokenize htok
      (parseAdd_shape_w_pn 36 (va.natAbs : ℚ) (vb.natAbs : ℚ)),
      hApos (by omega), hBneg hb]
  · rw [if_neg ha, if_neg hb] at htok
    rw [jsEval_of_tokenize htok
      (parseAdd_shape_w_pp 28 (va.natAbs : ℚ) (vb.natAbs : ℚ)),
      hApos (by omega), hBpos (by omega)]

/-! ## Supporting lemmas: `restrictedEval` -/

theorem restrictedEval_fail_foreign {resolved : List Char} (expr : List Char)
    (path : String) {c : Char} (hc : c ∈ resolved)
    (h1 : allowedChar c = false) (h2 : jsWsChar c = false) :
    restrictedEval resolved expr path =
      (.fin 0,
        [⟨"expression",
          "Expression contains invalid characters: " ++ expr.asString ++ " at " ++ path,
          some path⟩]) := by
  unfold restrictedEval
  rw [if_pos (sanitize_fail_foreign hc h1 h2)]

theorem restrictedEval_fail_space {resolved : List Char} (expr : List Char)
    (path : String) (hc : ' ' ∈ resolved) :
    restrictedEval resolved expr path =
      (.fin 0,
        [⟨"expression",
          "Expression contains invalid characters: " ++ expr.asString ++ " at " ++ path,
          some path⟩]) := by
  unfold restrictedEval
  rw [if_pos (sanitize_fail_space hc)]

theorem restrictedEval_pass (resolved expr : List Char) (path : String)
    (h : ∀ c ∈ resolved, (allowedChar c = true ∨ jsWsChar c = true) ∧ c ≠ ' ') :
    restrictedEval resolved expr path =
      match jsEval (resolved.filter allowedChar) with
      | none =>
        (.fin 0,
          [⟨"expression",
            "Expression evaluation failed: " ++ expr.asString ++ " at " ++ path,
            some path⟩])
      | some v =>
        if v = .nan then
          (.fin 0,
            [⟨"expression",
              "Expression did not evaluate to a number: " ++ expr.asString ++ " at " ++ path,
              some path⟩])
        else (v, []) := by
  unfold restrictedEval
  rw [if_neg (not_not_intro (sanitize_pass h))]

theorem restrictedEval_good (resolved expr : List Char) (path : String)
    (h : ∀ c ∈ resolved, allowedChar c = true ∧ jsWsChar c = false) :
    restrictedEval resolved expr path =
      match jsEval resolved with
      | none =>
        (.fin 0,
          [⟨"expression",
            "Expression evaluation failed: " ++ expr.asString ++ " at " ++ path,
            some path⟩])
      | some v =>
        if v = .nan then
          (.fin 0,
            [⟨"expression",
              "Expression did not evaluate to a number: " ++ expr.asString ++ " at " ++ path,
              some path⟩])
        else (v, []) := by
  have hfilter : resolved.filter allowedChar = resolved :=
    List.filter_eq_self.mpr (fun a ha => (h a ha).1)
  rw [restrictedEval_pass resolved expr path
    (fun c hc => ⟨Or.inl (h c hc).1, by
      intro hsp
      subst hsp
      have := (h _ hc).2
      exact Bool.noConfusion this⟩), hfilter]

/-! ## Supporting lemmas: the concrete substitution for `${$a+$b}` -/

unseal extractVariables in
theorem extractVariables_ab :
    extractVariables ['$', 'a', '+', '$', 'b'] = [['a'], ['b']] := rfl

theorem substituteVariables_ab (va vb : ℤ) :
    substituteVariables [(['a'], .num (va : ℚ)), (['b'], .num (vb : ℚ))]
      [['a'], ['b']] ['$', 'a', '+', '$', 'b'] =
      .ok (intChars va ++ '+' :: intChars vb) := by
  have hstep1 : substituteVariables
      [(['a'], .num (va : ℚ)), (['b'], .num (vb : ℚ))]
      [['a'], ['b']] ['$', 'a', '+', '$', 'b'] =
      substituteVariables [(['a'], .num (va : ℚ)), (['b'], .num (vb : ℚ))]
        [['b']]
        (replaceAll ['$', 'a', '+', '$', 'b'] ['$', 'a']
          (ratDecimalChars (va : ℚ))) := rfl
  rw [hstep1, ratDecimalChars_intCast]
  have hrep1 : replaceAll ['$', 'a', '+', '$', 'b'] ['$', 'a'] (intChars va) =
      intChars va ++ ['+', '$', 'b'] := by
    rw [replaceAll_cons_pos ⟨by simp, by decide⟩]
    show intChars va ++ replaceAll ['+', '$', 'b'] ['$', 'a'] (intChars va) = _
    rw [replaceAll_cons_neg (by decide), replaceAll_cons_neg (by decide),
      replaceAll_cons_neg (by decide), replaceAll_nil]
  rw [hrep1]
  have hstep2 : substituteVariables
      [(['a'], .num (va : ℚ)), (['b'], .num (vb : ℚ))]
      [['b']] (intChars va ++ ['+', '$', 'b']) =
      substituteVariables [(['a'], .num (va : ℚ)), (['b'], .num (vb : ℚ))] []
        (replaceAll (intChars va ++ ['+', '$', 'b']) ['$', 'b']
          (ratDecimalChars (vb : ℚ))) := rfl
  rw [hstep2, ratDecimalChars_intCast]
  have hrep2 : replaceAll (intChars va ++ ['+', '$', 'b']) ['$', 'b']
      (intChars vb) = intChars va ++ '+' :: intChars vb := by
    rw [replaceAll_append_of_ne (intChars va) _
      (fun a ha => (intChars_good va a ha).2.2)]
    congr 1
    rw [replaceAll_cons_neg (by decide), replaceAll_cons_pos ⟨by simp, by decide⟩]
    show '+' :: (intChars vb ++ replaceAll [] ['$', 'b'] (intChars vb)) = _
    rw [replaceAll_nil, List.append_nil]
  rw [hrep2]
  rfl

/-! ## Claim C1 -/

unseal extractVariables in
/-- C1 counterexample: with numeric variables `a = 3` and `b = 4`, the
field value `"${a + b}"` (bare names, as the claim writes it) does not
resolve to `7`: the `$(\w+)` extractor finds no variable tokens in
`a + b`, and the sanitizer comparison (which strips whitespace from one
side only) rejects the text, producing one invalid-characters error with
zero substituted. -/
theorem c1_counterexample :
    evaluateExpression ['$', '{', 'a', ' ', '+', ' ', 'b', '}'] "p"
        [(['a'], .num 3), (['b'], .num 4)] =
      (.fin 0,
        [⟨"expression", "Expression contains invalid characters: a + b at p",
          some "p"⟩]) ∧
    evaluateExpression ['$', '{', 'a', ' ', '+', ' ', 'b', '}'] "p"
        [(['a'], .num 3), (['b'], .num 4)] ≠ (.fin 7, []) := by
  have heq : evaluateExpression ['$', '{', 'a', ' ', '+', ' ', 'b', '}'] "p"
      [(['a'], .num 3), (['b'], .num 4)] =
      (.fin 0,
        [⟨"expression", "Expression contains invalid characters: a + b at p",
          some "p"⟩]) := by
    unfold evaluateExpression
    rw [if_neg (by decide), if_pos (by decide)]
    show evaluateComplexExpression ['a', ' ', '+', ' ', 'b'] "p" _ = _
    unfold evaluateComplexExpression
    rw [show extractVariables ['a', ' ', '+', ' ', 'b'] = [] from rfl]
    show restrictedEval ['a', ' ', '+', ' ', 'b'] ['a', ' ', '+', ' ', 'b'] "p" = _
    rw [restrictedEval_fail_space _ _ (by decide)]
    rfl
  refine ⟨heq, ?_⟩
  rw [heq]
  intro h
  simp at h

/-- C1 (amended): for every document whose variable table defines
integer-valued numeric variables `a` and `b`, resolving a field whose
value is the expression string `"${$a+$b}"` (variables written with their
`$` prefix and no spaces, as the resolver's extractor and sanitizer
require) yields the literal number `a + b` with no errors; and for every
braced expression whose extracted variable names contain an undefined
name `u` while every other extracted name is defined, resolution produces
exactly one resolution error, of type `variable`, whose message
references `u`, with zero substituted for the field. -/
theorem c1_braced_sum_resolution :
    (∀ (va vb : ℤ) (path : String),
      evaluateExpression ['$', '{', '$', 'a', '+', '$', 'b', '}'] path
          [(['a'], .num (va : ℚ)), (['b'], .num (vb : ℚ))] =
        (.fin ((va : ℚ) + (vb : ℚ)), [])) ∧
    (∀ (expr : List Char) (path : String) (vars : VarTable) (u : List Char),
      u ∈ extractVariables expr →
      getVariable u vars = none →
      (∀ w ∈ extractVariables expr, w ≠ u → getVariable w vars ≠ none) →
      evaluateComplexExpression expr path vars =
        (.fin 0,
          [⟨"variable", "Unknown variable: " ++ u.asString ++ " at " ++ path,
            some path⟩])) := by
  constructor
  · intro va vb path
    unfold evaluateExpression
    rw [if_neg (by decide), if_pos (by decide)]
    show evaluateComplexExpression ['$', 'a', '+', '$', 'b'] path _ = _
    unfold evaluateComplexExpression
    rw [extractVariables_ab, substituteVariables_ab va vb]
    show restrictedEval (intChars va ++ '+' :: intChars vb)
      ['$', 'a', '+', '$', 'b'] path = _
    have hchars : ∀ c ∈ intChars va ++ '+' :: intChars vb,
        allowedChar c = true ∧ jsWsChar c = false := by
      intro c hc
      rcases List.mem_append.mp hc with h | h
      · exact ⟨(intChars_good va c h).1, (intChars_good va c h).2.1⟩
      · rcases List.mem_cons.mp h with rfl | h
        · exact ⟨by decide, by decide⟩
        · exact ⟨(intChars_good vb c h).1, (intChars_good vb c h).2.1⟩
    rw [restrictedEval_good _ _ _ hchars, jsEval_intSum]
    simp
  · intro expr path vars u hu hundef hdef
    unfold evaluateComplexExpression
    have hsub : ∀ (names : List (List Char)), u ∈ names →
        (∀ w ∈ names, w ≠ u → getVariable w vars ≠ none) →
        ∀ (resolved : List Char),
        substituteVariables vars names resolved = .error u := by
      intro names
      induction names with
      | nil => intro h; simp at h
      | cons v vs ih =>
        intro hmem hdef' resolved
        by_cases hv : v = u
        · subst hv
          unfold substituteVariables
          rw [hundef]
        · have hvdef : getVariable v vars ≠ none := hdef' v (by simp) hv
          unfold substituteVariables
          cases hgv : getVariable v vars with
          | none => exact absurd hgv hvdef
          | some value =>
            exact ih
              (by
                rcases List.mem_cons.mp hmem with h | h
                · exact absurd h.symm hv
                · exact h)
              (fun w hw hwne => hdef' w (by simp [hw]) hwne) _
    rw [hsub (extractVariables expr) hu hdef expr]

unseal extractVariables in
/-- C1 witness: the amended theorem applied at `a = 3`, `b = 4` and, for
the undefined-name half, at the expression `$c+$d` with only `d`
defined. -/
theorem c1_braced_sum_resolution_witness :
    (evaluateExpression ['$', '{', '$', 'a', '+', '$', 'b', '}'] "p"
        [(['a'], .num ((3 : ℤ) : ℚ)), (['b'], .num ((4 : ℤ) : ℚ))] =
      (.fin (((3 : ℤ) : ℚ) + ((4 : ℤ) : ℚ)), [])) ∧
    (['c'] ∈ extractVariables ['$', 'c', '+', '$', 'd'] ∧
      getVariable ['c'] [(['d'], .num 1)] = none ∧
      (∀ w ∈ extractVariables ['$', 'c', '+', '$', 'd'], w ≠ ['c'] →
        getVariable w [(['d'], .num 1)] ≠ none) ∧
      evaluateComplexExpression ['$', 'c', '+', '$', 'd'] "p" [(['d'], .num 1)] =
        (.fin 0,
          [⟨"variable", "Unknown variable: " ++ (['c'] : List Char).asString ++ " at " ++ "p",
            some "p"⟩])) :=
  ⟨c1_braced_sum_resolution.1 3 4 "p",
    by decide, by decide, by decide,
    c1_braced_sum_resolution.2 ['$', 'c', '+', '$', 'd'] "p" [(['d'], .num 1)]
      ['c'] (by decide) (by decide) (by decide)⟩

/-! ## Claim C2 -/

unseal extractVariables tokenize in
/-- C2 counterexample: the text `1 + 2` consists only of digits, an
operator and spaces — characters the claim says the evaluator accepts —
yet the resolver rejects it with an invalid-characters error (the
sanitizer keeps spaces but the comparison string has all whitespace
stripped); and `8/0` evaluates to `Infinity`, a non-finite result the
claim says must be an error, yet it is returned with no error. -/
theorem c2_counterexample :
    evaluateComplexExpression ['1', ' ', '+', ' ', '2'] "p" [] =
      (.fin 0,
        [⟨"expression", "Expression contains invalid characters: 1 + 2 at p",
          some "p"⟩]) ∧
    evaluateComplexExpression ['8', '/', '0'] "p" [] = (.inf, []) := by
  constructor
  · unfold evaluateComplexExpression
    rw [show extractVariables ['1', ' ', '+', ' ', '2'] = [] from rfl]
    show restrictedEval ['1', ' ', '+', ' ', '2'] ['1', ' ', '+', ' ', '2'] "p" = _
    rw [restrictedEval_fail_space _ _ (by decide)]
    rfl
  · unfold evaluateComplexExpression
    rw [show extractVariables ['8', '/', '0'] = [] from rfl]
    show restrictedEval ['8', '/', '0'] ['8', '/', '0'] "p" = _
    rw [restrictedEval_good _ _ _ (by decide)]
    rw [show jsEval ['8', '/', '0'] = some .inf from rfl]
    rfl

theorem parseAdd_shape_w_split (f : Nat) (x y : ℚ) :
    parseAdd (f + 20)
        [Tok.lparen, Tok.num x, Tok.rparen, Tok.plus, Tok.lparen, Tok.num y,
          Tok.rparen] =
      some (.fin (x + y), []) := rfl

unseal tokenize in
theorem tokenize_split12 :
    tokenize ('(' :: (['1', ')', '+', '(', '2'] ++ [')'])) =
      some [Tok.lparen, Tok.num 1, Tok.rparen, Tok.plus, Tok.lparen,
        Tok.num 2, Tok.rparen] := rfl

/-- C2 (amended): for every post-substitution text handed to the
restricted evaluator: a character outside the set digits, `+ - * / ( ) .`
and whitespace always produces the invalid-characters resolution error
with zero substituted; a space character — although inside the allowed
set — also produces that error (non-space whitespace is instead silently
stripped before evaluation); for a text whose characters are all
allowed or whitespace with no space, evaluation proceeds on the
sanitized text inside the `Function` wrapper's parentheses
(`return (<text>)`): a thrown evaluation error or a `NaN` result
produces a resolution error with zero substituted, while any other
number — including the infinities — is returned with no error; and
because of the wrapper, a text such as `1)+(2` — not an expression on
its own — evaluates as `(1)+(2)` to `3` with no error. -/
theorem c2_restricted_evaluator :
    (∀ (resolved expr : List Char) (path : String) (c : Char), c ∈ resolved →
      allowedChar c = false → jsWsChar c = false →
      restrictedEval resolved expr path =
        (.fin 0,
          [⟨"expression",
            "Expression contains invalid characters: " ++ expr.asString ++ " at " ++ path,
            some path⟩])) ∧
    (∀ (resolved expr : List Char) (path : String), ' ' ∈ resolved →
      restrictedEval resolved expr path =
        (.fin 0,
          [⟨"expression",
            "Expression contains invalid characters: " ++ expr.asString ++ " at " ++ path,
            some path⟩])) ∧
    (∀ (resolved expr : List Char) (path : String),
      (∀ c ∈ resolved, (allowedChar c = true ∨ jsWsChar c = true) ∧ c ≠ ' ') →
      restrictedEval resolved expr path =
        match jsEval (resolved.filter allowedChar) with
        | none =>
          (.fin 0,
            [⟨"expression",
              "Expression evaluation failed: " ++ expr.asString ++ " at " ++ path,
              some path⟩])
        | some v =>
          if v = .nan then
            (.fin 0,
              [⟨"expression",
                "Expression did not evaluate to a number: " ++ expr.asString ++ " at " ++ path,
                some path⟩])
          else (v, [])) ∧
    (∀ (expr : List Char) (path : String),
      restrictedEval ['1', ')', '+', '(', '2'] expr path =
        (.fin (1 + 2), [])) :=
  ⟨fun _ expr path _ hc h1 h2 => restrictedEval_fail_foreign expr path hc h1 h2,
   fun _ expr path hc => restrictedEval_fail_space expr path hc,
   fun resolved expr path h => restrictedEval_pass resolved expr path h,
   fun expr path => by
     rw [restrictedEval_good _ _ _ (by decide)]
     rw [jsEval_of_tokenize tokenize_split12 (parseAdd_shape_w_split 44 1 2)]
     rfl⟩

unseal tokenize in
/-- C2 witness: the amended theorem applied at the texts `1+x`
(foreign character), `1 2` (space), `0/0` (whitespace-free allowed
text whose evaluation is `NaN`), and `1)+(2` (evaluates through the
wrapper parentheses with no error). -/
theorem c2_restricted_evaluator_witness :
    ('x' ∈ ['1', '+', 'x'] ∧ allowedChar 'x' = false ∧ jsWsChar 'x' = false ∧
      restrictedEval ['1', '+', 'x'] ['1', '+', 'x'] "p" =
        (.fin 0,
          [⟨"expression",
            "Expression contains invalid characters: " ++
              (['1', '+', 'x'] : List Char).asString ++ " at " ++ "p",
            some "p"⟩])) ∧
    (' ' ∈ ['1', ' ', '2'] ∧
      restrictedEval ['1', ' ', '2'] ['1', ' ', '2'] "p" =
        (.fin 0,
          [⟨"expression",
            "Expression contains invalid characters: " ++
              (['1', ' ', '2'] : List Char).asString ++ " at " ++ "p",
            some "p"⟩])) ∧
    ((∀ c ∈ ['0', '/', '0'], (allowedChar c = true ∨ jsWsChar c = true) ∧ c ≠ ' ') ∧
      restrictedEval ['0', '/', '0'] ['0', '/', '0'] "p" =
        match jsEval ((['0', '/', '0'] : List Char).filter allowedChar) with
        | none =>
          (.fin 0,
            [⟨"expression",
              "Expression evaluation failed: " ++
                (['0', '/', '0'] : List Char).asString ++ " at " ++ "p",
              some "p"⟩])
        | some v =>
          if v = .nan then
            (.fin 0,
              [⟨"expression",
                "Expression did not evaluate to a number: " ++
                  (['0', '/', '0'] : List Char).asString ++ " at " ++ "p",
                some "p"⟩])
          else (v, [])) ∧
    restrictedEval ['1', ')', '+', '(', '2'] ['1', ')', '+', '(', '2'] "p" =
      (.fin (1 + 2), []) :=
  ⟨⟨by decide, by decide, by decide,
    c2_restricted_evaluator.1 ['1', '+', 'x'] ['1', '+', 'x'] "p" 'x'
      (by decide) (by decide) (by decide)⟩,
   ⟨by decide,
    c2_restricted_evaluator.2.1 ['1', ' ', '2'] ['1', ' ', '2'] "p" (by decide)⟩,
   ⟨by decide,
    c2_restricted_evaluator.2.2.1 ['0', '/', '0'] ['0', '/', '0'] "p" (by decide)⟩,
   c2_restricted_evaluator.2.2.2 ['1', ')', '+', '(', '2'] "p"⟩

/-! ## Claim C10 -/

theorem parseAdd_shape_single (f : Nat) (x : ℚ) :
    parseAdd (f + 5) [Tok.num x] = some (.fin x, []) := rfl

unseal tokenize in
theorem tokenize_dot31 : tokenize ('(' :: (['3', '.', '1'] ++ [')'])) =
    some [Tok.lparen, Tok.num ((3 : ℚ) + 1 / 10 ^ 1), Tok.rparen] := rfl

unseal tokenize in
theorem tokenize_dot42 : tokenize ('(' :: (['4', '.', '2'] ++ [')'])) =
    some [Tok.lparen, Tok.num ((4 : ℚ) + 2 / 10 ^ 1), Tok.rparen] := rfl

unseal extractVariables in
theorem extractVariables_a_dot1 :
    extractVariables ['$', 'a', '.', '1'] = [['a']] := rfl

unseal extractVariables in
theorem extractVariables_a_dot2 :
    extractVariables ['$', 'a', '.', '2'] = [['a']] := rfl

unseal replaceAll natDigits in
theorem replaceAll_a_dot1 :
    replaceAll ['$', 'a', '.', '1'] ['$', 'a'] (ratDecimalChars 3) =
      ['3', '.', '1'] := by decide

unseal replaceAll natDigits in
theorem replaceAll_a_dot2 :
    replaceAll ['$', 'a', '.', '2'] ['$', 'a'] (ratDecimalChars 4) =
      ['4', '.', '2'] := by decide

theorem braced_a_dot1 :
    evaluateExpression ['$', '{', '$', 'a', '.', '1', '}'] "p"
        [(['a'], .num 3)] = (.fin ((3 : ℚ) + 1 / 10 ^ 1), []) := by
  unfold evaluateExpression
  rw [if_neg (by decide), if_pos (by decide)]
  show evaluateComplexExpression ['$', 'a', '.', '1'] "p" _ = _
  unfold evaluateComplexExpression
  rw [extractVariables_a_dot1]
  have hsub : substituteVariables [(['a'], .num 3)] [['a']]
      ['$', 'a', '.', '1'] = .ok ['3', '.', '1'] := by
    have hstep : substituteVariables [(['a'], .num 3)] [['a']]
        ['$', 'a', '.', '1'] =
        substituteVariables [(['a'], .num 3)] []
          (replaceAll ['$', 'a', '.', '1'] ['$', 'a'] (ratDecimalChars 3)) := rfl
    rw [hstep, replaceAll_a_dot1]
    rfl
  rw [hsub]
  show restrictedEval ['3', '.', '1'] ['$', 'a', '.', '1'] "p" = _
  rw [restrictedEval_good _ _ _ (by decide),
    jsEval_of_tokenize tokenize_dot31 (parseAdd_shape_w_single 12 _)]
  rfl

theorem braced_a_dot2 :
    evaluateExpression ['$', '{', '$', 'a', '.', '2', '}'] "q"
        [(['a'], .num 4)] = (.fin ((4 : ℚ) + 2 / 10 ^ 1), []) := by
  unfold evaluateExpression
  rw [if_neg (by decide), if_pos (by decide)]
  show evaluateComplexExpression ['$', 'a', '.', '2'] "q" _ = _
  unfold evaluateComplexExpression
  rw [extractVariables_a_dot2]
  have hsub : substituteVariables [(['a'], .num 4)] [['a']]
      ['$', 'a', '.', '2'] = .ok ['4', '.', '2'] := by
    have hstep : substituteVariables [(['a'], .num 4)] [['a']]
        ['$', 'a', '.', '2'] =
        substituteVariables [(['a'], .num 4)] []
          (replaceAll ['$', 'a', '.', '2'] ['$', 'a'] (ratDecimalChars 4)) := rfl
    rw [hstep, replaceAll_a_dot2]
    rfl
  rw [hsub]
  show restrictedEval ['4', '.', '2'] ['$', 'a', '.', '2'] "q" = _
  rw [restrictedEval_good _ _ _ (by decide),
    jsEval_of_tokenize tokenize_dot42 (parseAdd_shape_w_single 12 _)]
  rfl

/-- C10 counterexample: dotted references do not always fail.  A dotted
descent into an array variable succeeds (`$a.1` with `a = [7, 8]`
resolves to `8`, since JS arrays are objects indexable by canonical
numeric strings), and inside a braced expression the extractor truncates
`$a.1` at the dot, so with `a = 3` the substituted text `3.1` evaluates
successfully to `3.1` — in both cases a successful numeric resolution
with no error. -/
theorem c10_counterexample :
    evaluateExpression ['$', 'a', '.', '1'] "p" [(['a'], .arr [7, 8])] =
      (.fin 8, []) ∧
    evaluateExpression ['$', '{', '$', 'a', '.', '1', '}'] "p"
        [(['a'], .num 3)] =
      (.fin (31 / 10 : ℚ), []) := by
  refine ⟨by decide, ?_⟩
  rw [braced_a_dot1]
  norm_num

/-- C10 (amended): a dotted variable reference resolves against the
schema-admitted variable values as follows.  A plain reference `$p.…`
whose first segment names a number- or string-valued variable (or an
undefined name) always produces a resolution error with zero substituted,
since the dotted descent finds no object to enter; the descent can
succeed only through an array value (numeric index or `length`, e.g.
`$a.0`); and inside a braced expression the extractor truncates names at
the first dot, so `${$a.2}` with `a = 4` evaluates to `4.2` rather than
erroring. -/
theorem c10_dotted_reference :
    (∀ (name : List Char) (path : String) (vars : VarTable) (p : List Char)
        (ps : List (List Char)),
      splitOnChar '.' name = p :: ps → ps ≠ [] →
      name.head? ≠ some '{' →
      (lookupVar vars p = none ∨ (∃ q, lookupVar vars p = some (.num q)) ∨
        (∃ s, lookupVar vars p = some (.str s))) →
      evaluateExpression ('$' :: name) path vars =
        (.fin 0,
          [⟨"expression",
            "Variable \"" ++ name.asString ++ "\" is not a number at " ++ path,
            some path⟩])) ∧
    evaluateExpression ['$', 'a', '.', '0'] "q" [(['a'], .arr [5])] =
      (.fin 5, []) ∧
    evaluateExpression ['$', '{', '$', 'a', '.', '2', '}'] "q"
        [(['a'], .num 4)] =
      (.fin (42 / 10 : ℚ), []) := by
  refine ⟨?_, by decide, ?_⟩
  · intro name path vars p ps hsplit hps hbrace hlook
    have hc1 : ('$' :: name).head? = some '$' ∧
        ('$' :: name).take 2 ≠ ['$', '{'] := by
      refine ⟨rfl, ?_⟩
      intro h
      rw [List.take_succ_cons] at h
      have h2 : name.take 1 = ['{'] := by simpa using h
      cases name with
      | nil => simp at h2
      | cons a l =>
        rw [List.take_succ_cons] at h2
        simp only [List.take_zero, List.cons.injEq, and_true] at h2
        exact hbrace (by simp [h2])
    unfold evaluateExpression
    rw [if_pos hc1, show ('$' :: name).drop 1 = name from rfl]
    have hgv : getVariable name vars = none := by
      unfold getVariable
      rw [hsplit]
      cases ps with
      | nil => exact absurd rfl hps
      | cons p2 ps2 =>
        have hcur : isObjectLike (curGet vars .root p) = false := by
          show isObjectLike
            (match lookupVar vars p with
             | some x => Cur.v x
             | none => Cur.undefV) = false
          rcases hlook with h | ⟨q, h⟩ | ⟨s, h⟩ <;> rw [h] <;> rfl
        show getVariableGo vars (p2 :: ps2) (curGet vars .root p) = none
        unfold getVariableGo
        simp [hcur]
    rw [hgv]
  · rw [braced_a_dot2]
    norm_num

/-- C10 witness: the amended theorem applied at the dotted name `b.x`
with `b` a number-valued variable. -/
theorem c10_dotted_reference_witness :
    (splitOnChar '.' ['b', '.', 'x'] = [['b'], ['x']] ∧
      ([['x']] : List (List Char)) ≠ [] ∧
      (['b', '.', 'x'] : List Char).head? ≠ some '{' ∧
      lookupVar [(['b'], .num 9)] ['b'] = some (.num 9)) ∧
    evaluateExpression ('$' :: ['b', '.', 'x']) "p" [(['b'], .num 9)] =
      (.fin 0,
        [⟨"expression",
          "Variable \"" ++ (['b', '.', 'x'] : List Char).asString ++
            "\" is not a number at " ++ "p",
          some "p"⟩]) :=
  ⟨⟨by decide, by decide, by decide, by decide⟩,
    c10_dotted_reference.1 ['b', '.', 'x'] "p" [(['b'], .num 9)] ['b'] [['x']]
      (by decide) (by decide) (by decide)
      (Or.inr (Or.inl ⟨9, by decide⟩))⟩

/-- C7 witness: the spring approximation theorem applied at
`{stiffness: 400, damping: 10, mass: 1}`. -/
theorem spring_css_approximation_witness :
    ((0 : ℝ) < 400 ∧ (0 : ℝ) < 1) ∧
    ((let ratio := (10 : ℝ) / (2 * Real.sqrt ((400 : ℝ) * 1))
      let out := springToCubicBezier (.cfg ⟨some 400, some 10, some 1⟩)
      (ratio < 0.5 → out = "cubic-bezier(0.68, -0.6, 0.32, 1.6)") ∧
      (0.5 ≤ ratio → ratio < 1 → out = "cubic-bezier(0.34, 1.56, 0.64, 1)") ∧
      (1 ≤ ratio → out = "cubic-bezier(0.4, 0, 0.2, 1)")) ∧
     springToDuration (.cfg ⟨some 400, some 10, some 1⟩) =
       min 2 (max 0.2 (4 * Real.pi * Real.sqrt ((1 : ℝ) / 400))) ∧
     springToCubicBezier (.cfg ⟨some 400, some 10, some 1⟩) =
       "cubic-bezier(0.68, -0.6, 0.32, 1.6)") :=
  ⟨⟨by norm_num, by norm_num⟩,
    spring_css_approximation 400 10 1 (by norm_num) (by norm_num)⟩

/-! ## Supporting lemmas: virtual-time arithmetic -/

theorem waitTruthy_shift (t : ℚ) (o : Option ℚ) :
    waitTruthy t o = t + waitTruthy 0 o := by
  unfold waitTruthy
  cases o with
  | none => simp
  | some v =>
    by_cases h : v = 0
    · simp [h]
    · simp [h]

theorem waitTruthy_mono (t : ℚ) (o : Option ℚ) : t ≤ waitTruthy t o := by
  unfold waitTruthy
  cases o with
  | none => simp
  | some v =>
    by_cases h : v = 0
    · simp [h]
    · simp only [h, if_true, ne_eq, not_false_iff, if_pos]
      have : (0 : ℚ) ≤ max 0 v := le_max_left 0 v
      linarith

theorem foldl_max_fst (l : List (ℚ × List TAction)) (t : ℚ) :
    l.foldl (fun acc r => max acc r.1) t = (l.map Prod.fst).foldl max t := by
  induction l generalizing t with
  | nil => rfl
  | cons x xs ih => simp [List.foldl_cons, ih]

theorem foldl_max_le_base (l : List ℚ) (t : ℚ) : t ≤ l.foldl max t := by
  induction l generalizing t with
  | nil => simp
  | cons x xs ih => exact le_trans (le_max_left t x) (ih (max t x))

theorem foldl_max_add (l : List ℚ) (t a : ℚ) :
    (l.map (fun x => t + x)).foldl max (t + a) = t + l.foldl max a := by
  induction l generalizing a with
  | nil => rfl
  | cons x xs ih =>
    simp only [List.map_cons, List.foldl_cons]
    rw [max_add_add_left, ih]

theorem waitTruthy2_shift (t : ℚ) (o d : Option ℚ) :
    waitTruthy (waitTruthy t o) d = t + waitTruthy (waitTruthy 0 o) d := by
  rw [waitTruthy_shift (waitTruthy t o) d, waitTruthy_shift t o,
    waitTruthy_shift (waitTruthy 0 o) d]
  ring

theorem fanOutOne_fst_shift (env : ExecEnv) (t : ℚ)
    (st : Option StaggerDefinition) (p : StartPayload) (n : ℕ)
    (e : ℕ × String) :
    (fanOutOne env t st p n e).1 = t + (fanOutOne env 0 st p n e).1 := by
  unfold fanOutOne
  by_cases h : e.2 ∈ env.controls
  · simp only [h, if_true]
    ring
  · simp [h]

theorem fanOut_mono (env : ExecEnv) (t : ℚ) (targets : List String)
    (st : Option StaggerDefinition) (p : StartPayload) :
    t ≤ (fanOut env t targets st p).1 := by
  simp only [fanOut]
  rw [foldl_max_fst]
  exact foldl_max_le_base _ _

theorem fanOut_shift (env : ExecEnv) (t : ℚ) (targets : List String)
    (st : Option StaggerDefinition) (p : StartPayload) :
    (fanOut env t targets st p).1 = t + (fanOut env 0 targets st p).1 := by
  simp only [fanOut]
  rw [foldl_max_fst, foldl_max_fst, List.map_map, List.map_map]
  have hmap : targets.enum.map (Prod.fst ∘ fanOutOne env t st p targets.length)
      = (targets.enum.map (Prod.fst ∘ fanOutOne env 0 st p targets.length)).map
          (fun d => t + d) := by
    rw [List.map_map]
    refine List.map_congr_left (fun e _ => ?_)
    exact fanOutOne_fst_shift env t st p targets.length e
  rw [hmap]
  have hfa := foldl_max_add
    (targets.enum.map (Prod.fst ∘ fanOutOne env 0 st p targets.length)) t 0
  rw [show t + (0:ℚ) = t from by ring] at hfa
  rw [hfa]

mutual

theorem execBlock_mono (env : ExecEnv) (t : ℚ) (b : AnimationBlockI) :
    t ≤ (execBlock env t b).1 := by
  cases b with
  | spring target src toS spring delay offset stagger =>
    simp only [execBlock]
    exact le_trans (le_trans (waitTruthy_mono t offset)
      (waitTruthy_mono _ delay)) (fanOut_mono env _ _ _ _)
  | transition target src toS duration easing delay offset stagger =>
    simp only [execBlock]
    exact le_trans (le_trans (waitTruthy_mono t offset)
      (waitTruthy_mono _ delay)) (fanOut_mono env _ _ _ _)
  | keyframes target kfs duration easing delay offset stagger =>
    simp only [execBlock]
    exact le_trans (le_trans (waitTruthy_mono t offset)
      (waitTruthy_mono _ delay)) (fanOut_mono env _ _ _ _)
  | group mode animations delay stagger offset =>
    cases mode with
    | parallel =>
      simp only [execBlock]
      rw [foldl_max_fst]
      exact le_trans (le_trans (waitTruthy_mono t offset)
        (waitTruthy_mono _ delay)) (foldl_max_le_base _ _)
    | sequence =>
      simp only [execBlock]
      exact le_trans (le_trans (waitTruthy_mono t offset)
        (waitTruthy_mono _ delay)) (execBlocksSeq_mono env _ stagger animations)
  | morph target src toS duration easing delay offset =>
    simp only [execBlock]
    by_cases h : target ∈ env.controls
    · simp only [h, if_true]
      have h1 : t ≤ waitTruthy (waitTruthy t offset) delay :=
        le_trans (waitTruthy_mono t offset) (waitTruthy_mono _ delay)
      have h2 : (0 : ℚ) ≤ max 0 (env.primDur target
          (StartPayload.morphP toS ((duration.getD 500) / 1000)
            ((convertEasing easing).getD (1/4, 1/10, 1/4, 1)))) :=
        le_max_left _ _
      linarith
    · simp only [h, if_false]
      exact le_trans (waitTruthy_mono t offset) (waitTruthy_mono _ delay)
  | matchCut src toS duration offset =>
    simp only [execBlock]
    exact waitTruthy_mono t offset
  | dragB target => simp [execBlock]
  | particles duration offset =>
    simp only [execBlock]
    exact le_trans (waitTruthy_mono t offset) (waitTruthy_mono _ duration)
  | text target duration delay offset =>
    simp only [execBlock]
    exact le_trans (le_trans (waitTruthy_mono t offset)
      (waitTruthy_mono _ delay)) (waitTruthy_mono _ duration)

theorem execBlocksSeq_mono (env : ExecEnv) (t : ℚ)
    (stagger : Option StaggerDefinition) (bs : List AnimationBlockI) :
    t ≤ (execBlocksSeq env t stagger bs).1 := by
  cases bs with
  | nil => simp [execBlocksSeq]
  | cons b rest =>
    simp only [execBlocksSeq]
    have h1 : t ≤ (execBlock env t b).1 := execBlock_mono env t b
    cases stagger with
    | none =>
      exact le_trans h1 (execBlocksSeq_mono env _ none rest)
    | some st =>
      have h2 : (0 : ℚ) ≤ max 0 st.each := le_max_left _ _
      have h3 := execBlocksSeq_mono env ((execBlock env t b).1 + max 0 st.each)
        (some st) rest
      simp only at h3 ⊢
      linarith

end

mutual

theorem execBlock_shift (env : ExecEnv) (t : ℚ) (b : AnimationBlockI) :
    (execBlock env t b).1 = t + (execBlock env 0 b).1 := by
  cases b with
  | spring target src toS spring delay offset stagger =>
    simp only [execBlock]
    rw [fanOut_shift env (waitTruthy (waitTruthy t offset) delay),
      fanOut_shift env (waitTruthy (waitTruthy 0 offset) delay),
      waitTruthy2_shift]
    ring
  | transition target src toS duration easing delay offset stagger =>
    simp only [execBlock]
    rw [fanOut_shift env (waitTruthy (waitTruthy t offset) delay),
      fanOut_shift env (waitTruthy (waitTruthy 0 offset) delay),
      waitTruthy2_shift]
    ring
  | keyframes target kfs duration easing delay offset stagger =>
    simp only [execBlock]
    rw [fanOut_shift env (waitTruthy (waitTruthy t offset) delay),
      fanOut_shift env (waitTruthy (waitTruthy 0 offset) delay),
      waitTruthy2_shift]
    ring
  | group mode animations delay stagger offset =>
    cases mode with
    | parallel =>
      simp only [execBlock]
      rw [foldl_max_fst, foldl_max_fst,
        execBlocksPar_fst_shift env (waitTruthy (waitTruthy t offset) delay)
          animations,
        execBlocksPar_fst_shift env (waitTruthy (waitTruthy 0 offset) delay)
          animations]
      have hfa1 := foldl_max_add
        ((execBlocksPar env 0 animations).map Prod.fst)
        (waitTruthy (waitTruthy t offset) delay) 0
      have hfa2 := foldl_max_add
        ((execBlocksPar env 0 animations).map Prod.fst)
        (waitTruthy (waitTruthy 0 offset) delay) 0
      rw [show waitTruthy (waitTruthy t offset) delay + (0:ℚ)
          = waitTruthy (waitTruthy t offset) delay from by ring] at hfa1
      rw [show waitTruthy (waitTruthy 0 offset) delay + (0:ℚ)
          = waitTruthy (waitTruthy 0 offset) delay from by ring] at hfa2
      rw [hfa1, hfa2, waitTruthy2_shift]
      ring
    | sequence =>
      simp only [execBlock]
      rw [execBlocksSeq_shift env (waitTruthy (waitTruthy t offset) delay)
          stagger animations,
        execBlocksSeq_shift env (waitTruthy (waitTruthy 0 offset) delay)
          stagger animations,
        waitTruthy2_shift]
      ring
  | morph target src toS duration easing delay offset =>
    simp only [execBlock]
    by_cases h : target ∈ env.controls
    · simp only [h, if_true]
      rw [waitTruthy2_shift]
      ring
    · simp only [h, if_false]
      rw [waitTruthy2_shift]
  | matchCut src toS duration offset =>
    simp only [execBlock]
    rw [waitTruthy_shift]
  | dragB target => simp [execBlock]
  | particles duration offset =>
    simp only [execBlock]
    rw [waitTruthy2_shift]
  | text target duration delay offset =>
    simp only [execBlock]
    rw [waitTruthy_shift (waitTruthy (waitTruthy t offset) delay) duration,
      waitTruthy2_shift,
      waitTruthy_shift (waitTruthy (waitTruthy 0 offset) delay) duration]
    ring

theorem execBlocksPar_fst_shift (env : ExecEnv) (t : ℚ)
    (bs : List AnimationBlockI) :
    (execBlocksPar env t bs).map Prod.fst
      = ((execBlocksPar env 0 bs).map Prod.fst).map (fun d => t + d) := by
  cases bs with
  | nil => simp [execBlocksPar]
  | cons b rest =>
    simp only [execBlocksPar, List.map_cons]
    rw [execBlock_shift env t b, execBlocksPar_fst_shift env t rest]

theorem execBlocksSeq_shift (env : ExecEnv) (t : ℚ)
    (stagger : Option StaggerDefinition) (bs : List AnimationBlockI) :
    (execBlocksSeq env t stagger bs).1
      = t + (execBlocksSeq env 0 stagger bs).1 := by
  cases bs with
  | nil => simp [execBlocksSeq]
  | cons b rest =>
    simp only [execBlocksSeq]
    cases stagger with
    | none =>
      rw [execBlocksSeq_shift env (execBlock env t b).1 none rest,
        execBlocksSeq_shift env (execBlock env 0 b).1 none rest,
        execBlock_shift env t b]
      ring
    | some st =>
      rw [execBlocksSeq_shift env ((execBlock env t b).1 + max 0 st.each)
          (some st) rest,
        execBlocksSeq_shift env ((execBlock env 0 b).1 + max 0 st.each)
          (some st) rest,
        execBlock_shift env t b]
      ring

end

/-! ## Theorems for claim C6 -/

/-- C6: for a group block with three children whose individual execution
waits (virtual-time durations) are `d1`, `d2`, `d3`, a `parallel` group
starts all children together and completes at `max(d1, d2, d3)` past its
start, while a `sequence` group awaits each child to completion before
the next starts and completes exactly at `d1 + d2 + d3` past its start
when no stagger is configured; with a stagger it additionally waits
`max 0 each` after every child (three inter-child waits, the last
included), so it completes no sooner than the sum plus the configured
inter-child stagger delays. -/
theorem c6_group_timing (env : ExecEnv) (t : ℚ) (b1 b2 b3 : AnimationBlockI) :
    (execBlock env t (.group .parallel [b1, b2, b3] none none none)).1
      = t + max (execBlock env 0 b1).1
          (max (execBlock env 0 b2).1 (execBlock env 0 b3).1)
    ∧ (execBlock env t (.group .sequence [b1, b2, b3] none none none)).1
      = t + ((execBlock env 0 b1).1 + (execBlock env 0 b2).1
          + (execBlock env 0 b3).1)
    ∧ ∀ st : StaggerDefinition,
        (execBlock env t (.group .sequence [b1, b2, b3] none (some st) none)).1
          = t + ((execBlock env 0 b1).1 + (execBlock env 0 b2).1
              + (execBlock env 0 b3).1) + 3 * max 0 st.each
        ∧ (execBlock env t (.group .sequence [b1, b2, b3] none (some st) none)).1
          ≥ t + ((execBlock env 0 b1).1 + (execBlock env 0 b2).1
              + (execBlock env 0 b3).1) + 2 * max 0 st.each := by
  have hm1 := execBlock_mono env 0 b1
  have hm2 := execBlock_mono env 0 b2
  have hm3 := execBlock_mono env 0 b3
  refine ⟨?_, ?_, ?_⟩
  · simp only [execBlock, execBlocksPar, waitTruthy]
    rw [foldl_max_fst]
    simp only [List.map_cons, List.map_nil, List.foldl_cons, List.foldl_nil]
    rw [execBlock_shift env t b1, execBlock_shift env t b2,
      execBlock_shift env t b3]
    rw [max_eq_right (by linarith : t ≤ t + (execBlock env 0 b1).1)]
    rw [max_add_add_left, max_add_add_left, max_assoc]
  · simp only [execBlock, execBlocksSeq, waitTruthy]
    conv_lhs => rw [execBlock_shift, execBlock_shift, execBlock_shift]
    ring
  · intro st
    constructor
    · simp only [execBlock, execBlocksSeq, waitTruthy]
      conv_lhs => rw [execBlock_shift, execBlock_shift, execBlock_shift]
      ring
    · simp only [execBlock, execBlocksSeq, waitTruthy, ge_iff_le]
      conv_rhs => rw [execBlock_shift, execBlock_shift, execBlock_shift]
      have he : (0 : ℚ) ≤ max 0 st.each := le_max_left _ _
      linarith

/-! ## Theorems for claim C5 -/

theorem fanOut_missing (env : ExecEnv) (t : ℚ) (targets : List String)
    (st : Option StaggerDefinition) (p : StartPayload) (ghost : String)
    (hg : ghost ∉ env.controls) :
    (∀ t' q, TAction.start t' ghost q ∉ (fanOut env t targets st p).2) ∧
    (∀ id ∈ targets, id ∈ env.controls →
      ∃ t', TAction.start t' id p ∈ (fanOut env t targets st p).2) := by
  constructor
  · intro t' q hmem
    simp only [fanOut, List.map_map] at hmem
    rw [List.mem_flatten] at hmem
    obtain ⟨l, hl, hml⟩ := hmem
    rw [List.mem_map] at hl
    obtain ⟨e, _, rfl⟩ := hl
    by_cases hc : e.2 ∈ env.controls
    · simp only [Function.comp_apply, fanOutOne, hc, if_true,
        List.mem_singleton] at hml
      injection hml with h1 h2 h3
      exact hg (h2 ▸ hc)
    · simp [Function.comp_apply, fanOutOne, hc] at hml
  · intro id hid hc
    obtain ⟨i, hi, rfl⟩ := List.mem_iff_getElem.mp hid
    refine ⟨t + max 0 (match st with
      | some s => calculateStaggerDelay i targets.length s
      | none => 0), ?_⟩
    simp only [fanOut, List.map_map]
    rw [List.mem_flatten]
    refine ⟨(fanOutOne env t st p targets.length (i, targets[i])).2, ?_, ?_⟩
    · rw [List.mem_map]
      refine ⟨(i, targets[i]), ?_, rfl⟩
      have hlen : i < targets.enum.length := by
        rw [List.enum_length]; exact hi
      have := List.getElem_enum targets i hlen
      exact this ▸ List.getElem_mem hlen
    · simp [fanOutOne, hc]

/-- C5: executing a spring, transition or keyframes block whose target
list contains an id with no registered handle is total and recoverable:
no start operation is ever issued for that id (only a missing-handle
warning), every sibling target with a registered handle still has its
transition started with the block's payload, and an enclosing sequence
run (without repeat) still completes. -/
theorem c5_missing_target (env : ExecEnv) (t : ℚ) (targets : List String)
    (ghost : String) (hg : ghost ∈ targets) (hng : ghost ∉ env.controls)
    (hsib : ∀ id ∈ targets, id ≠ ghost → id ∈ env.controls)
    (src : Option ElementStateI) (toS : ElementStateI)
    (spring : SpringConfigI) (duration : Option ℚ)
    (easing : Option EasingDefinitionI) (kfs : List KeyframeDefI)
    (delay offset : Option ℚ) (stagger : Option StaggerDefinition)
    (sid : Option String) (trig : TriggerI)
    (pre post : List AnimationBlockI) :
    (∀ t' q, TAction.start t' ghost q ∉
      (execBlock env t
        (.spring (.many targets) src toS spring delay offset stagger)).2)
    ∧ (∀ id ∈ targets, id ≠ ghost → ∃ t' q, TAction.start t' id q ∈
        (execBlock env t
          (.spring (.many targets) src toS spring delay offset stagger)).2)
    ∧ (∀ t' q, TAction.start t' ghost q ∉
        (execBlock env t (.transition (.many targets) src toS duration
          easing delay offset stagger)).2)
    ∧ (∀ id ∈ targets, id ≠ ghost → ∃ t' q, TAction.start t' id q ∈
        (execBlock env t (.transition (.many targets) src toS duration
          easing delay offset stagger)).2)
    ∧ (∀ t' q, TAction.start t' ghost q ∉
        (execBlock env t (.keyframes (.many targets) kfs duration
          easing delay offset stagger)).2)
    ∧ (∀ id ∈ targets, id ≠ ghost → ∃ t' q, TAction.start t' id q ∈
        (execBlock env t (.keyframes (.many targets) kfs duration
          easing delay offset stagger)).2)
    ∧ (executeSequence env t
        ⟨sid, trig,
          pre ++ .spring (.many targets) src toS spring delay offset stagger
            :: post, none⟩).isSome := by
  refine ⟨?_, ?_, ?_, ?_, ?_, ?_, ?_⟩
  · simp only [execBlock, fanTargets]
    exact (fanOut_missing env _ targets stagger _ ghost hng).1
  · intro id hid hne
    obtain ⟨t', hmem⟩ := (fanOut_missing env
      (waitTruthy (waitTruthy t offset) delay) targets stagger
      (.springP (convertStateToFramerMotion toS) (convertSpringConfig spring))
      ghost hng).2 id hid (hsib id hid hne)
    exact ⟨t', _, by simpa only [execBlock, fanTargets] using hmem⟩
  · simp only [execBlock, fanTargets]
    exact (fanOut_missing env _ targets stagger _ ghost hng).1
  · intro id hid hne
    obtain ⟨t', hmem⟩ := (fanOut_missing env
      (waitTruthy (waitTruthy t offset) delay) targets stagger
      (.tweenP (convertStateToFramerMotion toS) ((duration.getD 300) / 1000)
        ((convertEasing easing).getD (1/4, 1/10, 1/4, 1)))
      ghost hng).2 id hid (hsib id hid hne)
    exact ⟨t', _, by simpa only [execBlock, fanTargets] using hmem⟩
  · simp only [execBlock, fanTargets]
    exact (fanOut_missing env _ targets stagger _ ghost hng).1
  · intro id hid hne
    obtain ⟨t', hmem⟩ := (fanOut_missing env
      (waitTruthy (waitTruthy t offset) delay) targets stagger
      (.keyframesP (buildKeyframeProps kfs) ((duration.getD 1000) / 1000)
        (keyframeTimes kfs) (convertEasing easing))
      ghost hng).2 id hid (hsib id hid hne)
    exact ⟨t', _, by simpa only [execBlock, fanTargets] using hmem⟩
  · simp [executeSequence]

theorem c5_missing_target_witness :
    (∃ t' q, TAction.start t' "a" q ∈
      (execBlock ⟨["a"], fun _ _ => 1⟩ 0
        (.spring (.many ["a", "b"]) none {} {} none none none)).2)
    ∧ (executeSequence ⟨["a"], fun _ _ => 1⟩ 0
        ⟨none, .nonMount,
          [.spring (.many ["a", "b"]) none {} {} none none none],
          none⟩).isSome := by
  have T := c5_missing_target ⟨["a"], fun _ _ => 1⟩ 0 ["a", "b"] "b"
    (by decide) (by decide) (by decide) none {} {} none none [] none none
    none none .nonMount [] []
  exact ⟨T.2.1 "a" (by decide) (by decide), T.2.2.2.2.2.2⟩

/-! ## Theorems for claim C8 -/

/-- C8 counterexample: a `morph` block is not a timed no-op.  With a
registered handle for its target, executing it issues a `start`
operation animating the path (first conjunct); and with no registered
handle it completes immediately, not waiting out its declared 1000 ms
duration (second conjunct). -/
theorem c8_counterexample :
    (execBlock ⟨["path1"], fun _ _ => 2⟩ 0
        (.morph "path1" none "M0,0 L10,10" (some 1000) none none none)).2
      = [TAction.start 0 "path1"
          (.morphP "M0,0 L10,10" (1000 / 1000) (1/4, 1/10, 1/4, 1))]
    ∧ (execBlock ⟨[], fun _ _ => 2⟩ 0
        (.morph "path2" none "M0,0 L10,10" (some 1000) none none none)).1
      = 0 := by
  exact ⟨rfl, rfl⟩

/-- C8 (amended): `particles` and `text` blocks are timed no-ops — they
wait out their declared duration (after any offset/delay waits) and
issue no handle operation at all; `morph` blocks are not no-ops: with a
registered handle for the target, execution issues exactly one `start`
operation animating the path `d` attribute and awaits it, and with no
registered handle it logs a missing-handle warning and completes
immediately without waiting out the declared duration. -/
theorem c8_morph_particles_text (env : ExecEnv) (t : ℚ) :
    (∀ d offset, 0 < d →
      (execBlock env t (.particles (some d) offset)).2 = []
      ∧ (execBlock env t (.particles (some d) offset)).1
          = waitTruthy t offset + d)
    ∧ (∀ tg d delay offset, 0 < d →
      (execBlock env t (.text tg (some d) delay offset)).2 = []
      ∧ (execBlock env t (.text tg (some d) delay offset)).1
          = waitTruthy (waitTruthy t offset) delay + d)
    ∧ (∀ tg src toS dur easing delay offset, tg ∈ env.controls →
      ∃ t1 p, p = StartPayload.morphP toS ((dur.getD 500) / 1000)
          ((convertEasing easing).getD (1/4, 1/10, 1/4, 1))
        ∧ (execBlock env t (.morph tg src toS dur easing delay offset)).2
            = [TAction.start t1 tg p]
        ∧ (execBlock env t (.morph tg src toS dur easing delay offset)).1
            = t1 + max 0 (env.primDur tg p))
    ∧ (∀ tg src toS dur easing delay offset, tg ∉ env.controls →
      ∃ t1, (execBlock env t (.morph tg src toS dur easing delay offset)).2
            = [TAction.warnMissing t1 tg]
        ∧ (execBlock env t (.morph tg src toS dur easing delay offset)).1
            = t1) := by
  refine ⟨?_, ?_, ?_, ?_⟩
  · intro d offset hd
    refine ⟨rfl, ?_⟩
    simp only [execBlock, waitTruthy, hd.ne', ne_eq, not_false_iff, if_pos,
      if_true]
    rw [max_eq_right hd.le]
  · intro tg d delay offset hd
    refine ⟨rfl, ?_⟩
    simp only [execBlock, waitTruthy, hd.ne', ne_eq, not_false_iff, if_pos,
      if_true]
    rw [max_eq_right hd.le]
  · intro tg src toS dur easing delay offset hc
    refine ⟨waitTruthy (waitTruthy t offset) delay, _, rfl, ?_, ?_⟩
    · simp only [execBlock, hc, if_true]
    · simp only [execBlock, hc, if_true]
  · intro tg src toS dur easing delay offset hc
    refine ⟨waitTruthy (waitTruthy t offset) delay, ?_, ?_⟩
    · simp only [execBlock, hc, if_false]
    · simp only [execBlock, hc, if_false]

theorem c8_morph_particles_text_witness :
    (execBlock ⟨["p"], fun _ _ => 1⟩ 0 (.particles (some 5) none)).2 = []
    ∧ (execBlock ⟨["p"], fun _ _ => 1⟩ 0 (.particles (some 5) none)).1
        = waitTruthy 0 none + 5 :=
  (c8_morph_particles_text ⟨["p"], fun _ _ => 1⟩ 0).1 5 none (by norm_num)

/-! ## Theorems for claim C3 -/

/-- C3 counterexample: `resetToInitial` iterates the document's element
map, not the handle registry, so an id registered in the registry but
absent from the element map never receives a `set` call: stopping an
interpreter whose registry holds `"card"` while the document's element
map is empty issues no `set` calls at all. -/
theorem c3_counterexample :
    "card" ∈ (InterpState.mk [] ["card"] .playing ["seq1"] [7]).controls
    ∧ (stopInterp (InterpState.mk [] ["card"] .playing ["seq1"] [7])).2
      = [] := by
  exact ⟨by decide, rfl⟩

/-- C3 (amended): `stop()` is total (nothing in its body can throw) and,
from any interpreter state, leaves the interpreter idle with all pending
timeouts cancelled and the active-sequence set cleared; every element of
the document's element map whose id has a registered handle receives a
`set` call with the Framer-Motion conversion of that element's initial
state, and every issued `set` call targets a registered id — but a
registered id absent from the element map receives no call. -/
theorem c3_stop (s : InterpState) :
    (stopInterp s).1.state = .idle
    ∧ (stopInterp s).1.timeouts = []
    ∧ (stopInterp s).1.activeSequences = []
    ∧ (∀ id init, (id, init) ∈ s.elements → id ∈ s.controls →
        (id, convertStateToFramerMotion init) ∈ (stopInterp s).2)
    ∧ (∀ id payload, (id, payload) ∈ (stopInterp s).2 →
        id ∈ s.controls) := by
  refine ⟨rfl, rfl, rfl, ?_, ?_⟩
  · intro id init hmem hc
    simp only [stopInterp, resetToInitial]
    exact List.mem_filterMap.mpr ⟨(id, init), hmem, by simp [hc]⟩
  · intro id payload hmem
    simp only [stopInterp, resetToInitial, List.mem_filterMap] at hmem
    obtain ⟨e, he, hsome⟩ := hmem
    by_cases hc : e.1 ∈ s.controls
    · simp only [hc, if_true, Option.some.injEq] at hsome
      have : id = e.1 := congrArg Prod.fst hsome.symm
      exact this ▸ hc
    · simp [hc] at hsome

theorem c3_stop_witness :
    (stopInterp (InterpState.mk [("card", {})] ["card"] .playing [] [])).1.state
      = .idle
    ∧ ("card", convertStateToFramerMotion {})
        ∈ (stopInterp (InterpState.mk [("card", {})] ["card"] .playing [] [])).2 :=
  ⟨(c3_stop (InterpState.mk [("card", {})] ["card"] .playing [] [])).1,
    (c3_stop (InterpState.mk [("card", {})] ["card"] .playing [] [])).2.2.2.1
      "card" {} (by decide) (by decide)⟩

/-! ## Theorems for claim C9: combinator stability -/

theorem weakStable_of_retract {p : JSchema}
    (hp : ∀ j d, p j = some d → d = j) : WeakStable p := by
  intro j d h
  have hd := hp j d h
  subst hd
  simp [h]

theorem zNumber_retract : ∀ j d, zNumber j = some d → d = j := by
  intro j d h
  cases j <;> simp_all [zNumber]

theorem zNumber_stable : WeakStable zNumber :=
  weakStable_of_retract zNumber_retract

theorem zNumberIf_retract (c : ℚ → Bool) :
    ∀ j d, zNumberIf c j = some d → d = j := by
  intro j d h
  cases j <;> simp_all [zNumberIf]

theorem zNumberIf_stable (c : ℚ → Bool) : WeakStable (zNumberIf c) :=
  weakStable_of_retract (zNumberIf_retract c)

theorem zString_retract : ∀ j d, zString j = some d → d = j := by
  intro j d h
  cases j <;> simp_all [zString]

theorem zString_stable : WeakStable zString :=
  weakStable_of_retract zString_retract

theorem zStringIf_retract (c : String → Bool) :
    ∀ j d, zStringIf c j = some d → d = j := by
  intro j d h
  cases j <;> simp_all [zStringIf]

theorem zStringIf_stable (c : String → Bool) : WeakStable (zStringIf c) :=
  weakStable_of_retract (zStringIf_retract c)

theorem zBoolean_retract : ∀ j d, zBoolean j = some d → d = j := by
  intro j d h
  cases j <;> simp_all [zBoolean]

theorem zBoolean_stable : WeakStable zBoolean :=
  weakStable_of_retract zBoolean_retract

theorem zLitStr_retract (lit : String) :
    ∀ j d, zLitStr lit j = some d → d = j := by
  intro j d h
  cases j <;> simp_all [zLitStr]

theorem zLitStr_stable (lit : String) : WeakStable (zLitStr lit) :=
  weakStable_of_retract (zLitStr_retract lit)

theorem zEnum_retract (vs : List String) :
    ∀ j d, zEnum vs j = some d → d = j := by
  intro j d h
  cases j <;> simp_all [zEnum]

theorem zEnum_stable (vs : List String) : WeakStable (zEnum vs) :=
  weakStable_of_retract (zEnum_retract vs)

theorem zUnknown_stable : WeakStable zUnknown := by
  intro j d h
  simp [zUnknown]

theorem zUnion_nil_stable : WeakStable (zUnion []) := by
  intro j d h
  simp [zUnion] at h

theorem zUnion_cons_stable {p : JSchema} {ps : List JSchema}
    (hp : WeakStable p) (hps : WeakStable (zUnion ps)) :
    WeakStable (zUnion (p :: ps)) := by
  intro j d h
  simp only [zUnion] at h ⊢
  cases hpj : p j with
  | some e =>
    rw [hpj] at h
    have hde : e = d := by simpa using h
    subst hde
    have := hp j e hpj
    cases hpd : p e with
    | some f => simp
    | none => rw [hpd] at this; simp at this
  | none =>
    rw [hpj] at h
    have := hps j d h
    cases hpd : p d with
    | some f => simp
    | none => simpa using this

theorem mapMJ_stable {p : JSchema} (hp : WeakStable p) :
    ∀ xs rs, mapMJ p xs = some rs → (mapMJ p rs).isSome := by
  intro xs
  induction xs with
  | nil =>
    intro rs h
    simp only [mapMJ] at h
    cases h
    simp [mapMJ]
  | cons x xs ih =>
    intro rs h
    simp only [mapMJ] at h
    cases hx : p x with
    | none => rw [hx] at h; simp at h
    | some r =>
      rw [hx] at h
      cases hxs : mapMJ p xs with
      | none => rw [hxs] at h; simp at h
      | some rs0 =>
        rw [hxs] at h
        have hrs : r :: rs0 = rs := by simpa using h
        subst hrs
        simp only [mapMJ]
        have h1 := hp x r hx
        cases hr : p r with
        | none => rw [hr] at h1; simp at h1
        | some r2 =>
          have h2 := ih rs0 hxs
          cases hr2 : mapMJ p rs0 with
          | none => rw [hr2] at h2; simp at h2
          | some rs2 => simp
  

theorem mapMJ_length {p : JSchema} :
    ∀ xs rs, mapMJ p xs = some rs → rs.length = xs.length := by
  intro xs
  induction xs with
  | nil => intro rs h; simp only [mapMJ] at h; cases h; rfl
  | cons x xs ih =>
    intro rs h
    simp only [mapMJ] at h
    cases hx : p x with
    | none => rw [hx] at h; simp at h
    | some r =>
      rw [hx] at h
      cases hxs : mapMJ p xs with
      | none => rw [hxs] at h; simp at h
      | some rs0 =>
        rw [hxs] at h
        have hrs : r :: rs0 = rs := by simpa using h
        subst hrs
        simp [ih rs0 hxs]

theorem zArray_stable {p : JSchema} (hp : WeakStable p) :
    WeakStable (zArray p) := by
  intro j d h
  cases j <;> simp only [zArray] at h <;> try exact Option.noConfusion h
  case arr xs =>
  cases hm : mapMJ p xs with
  | none => rw [hm] at h; simp at h
  | some rs =>
    rw [hm] at h
    have hd : Json.arr rs = d := by simpa using h
    subst hd
    simp only [zArray]
    have := mapMJ_stable hp xs rs hm
    cases hr : mapMJ p rs with
    | none => rw [hr] at this; simp at this
    | some rs2 => simp

theorem zArrayMin_stable (n : ℕ) {p : JSchema} (hp : WeakStable p) :
    WeakStable (zArrayMin n p) := by
  intro j d h
  cases j <;> simp only [zArrayMin] at h <;> try exact Option.noConfusion h
  case arr xs =>
  by_cases hn : n ≤ xs.length
  · rw [if_pos hn] at h
    cases hm : mapMJ p xs with
    | none => rw [hm] at h; simp at h
    | some rs =>
      rw [hm] at h
      have hd : Json.arr rs = d := by simpa using h
      subst hd
      simp only [zArrayMin]
      rw [if_pos (by rw [mapMJ_length xs rs hm]; exact hn)]
      have := mapMJ_stable hp xs rs hm
      cases hr : mapMJ p rs with
      | none => rw [hr] at this; simp at this
      | some rs2 => simp
  · rw [if_neg hn] at h; simp at h

theorem zipParse_stable {ps : List JSchema} (hp : ∀ p ∈ ps, WeakStable p) :
    ∀ xs rs, zipParse ps xs = some rs → (zipParse ps rs).isSome := by
  induction ps with
  | nil =>
    intro xs rs h
    cases xs with
    | nil => simp only [zipParse] at h; cases h; simp [zipParse]
    | cons x xs => simp [zipParse] at h
  | cons p ps ih =>
    intro xs rs h
    cases xs with
    | nil => simp [zipParse] at h
    | cons x xs =>
      simp only [zipParse] at h
      cases hx : p x with
      | none => rw [hx] at h; simp at h
      | some r =>
        rw [hx] at h
        cases hxs : zipParse ps xs with
        | none => rw [hxs] at h; simp at h
        | some rs0 =>
          rw [hxs] at h
          have hrs : r :: rs0 = rs := by simpa using h
          subst hrs
          simp only [zipParse]
          have h1 := hp p (by simp) x r hx
          cases hr : p r with
          | none => rw [hr] at h1; simp at h1
          | some r2 =>
            have h2 := ih (fun q hq => hp q (by simp [hq])) xs rs0 hxs
            cases hr2 : zipParse ps rs0 with
            | none => rw [hr2] at h2; simp at h2
            | some rs2 => simp

theorem zTuple_stable {ps : List JSchema} (hp : ∀ p ∈ ps, WeakStable p) :
    WeakStable (zTuple ps) := by
  intro j d h
  cases j <;> simp only [zTuple] at h <;> try exact Option.noConfusion h
  case arr xs =>
  cases hm : zipParse ps xs with
  | none => rw [hm] at h; simp at h
  | some rs =>
    rw [hm] at h
    have hd : Json.arr rs = d := by simpa using h
    subst hd
    simp only [zTuple]
    have := zipParse_stable hp xs rs hm
    cases hr : zipParse ps rs with
    | none => rw [hr] at this; simp at this
    | some rs2 => simp

theorem mapValsJ_stable {p : JSchema} (hp : WeakStable p) :
    ∀ fs rs, mapValsJ p fs = some rs → (mapValsJ p rs).isSome := by
  intro fs
  induction fs with
  | nil => intro rs h; simp only [mapValsJ] at h; cases h; simp [mapValsJ]
  | cons f fs ih =>
    intro rs h
    simp only [mapValsJ] at h
    cases hx : p f.2 with
    | none => rw [hx] at h; simp at h
    | some r =>
      rw [hx] at h
      cases hxs : mapValsJ p fs with
      | none => rw [hxs] at h; simp at h
      | some rs0 =>
        rw [hxs] at h
        have hrs : (f.1, r) :: rs0 = rs := by simpa using h
        subst hrs
        simp only [mapValsJ]
        have h1 := hp f.2 r hx
        cases hr : p r with
        | none => rw [hr] at h1; simp at h1
        | some r2 =>
          have h2 := ih rs0 hxs
          cases hr2 : mapValsJ p rs0 with
          | none => rw [hr2] at h2; simp at h2
          | some rs2 => simp

theorem zRecord_stable {p : JSchema} (hp : WeakStable p) :
    WeakStable (zRecord p) := by
  intro j d h
  cases j <;> simp only [zRecord] at h <;> try exact Option.noConfusion h
  case obj fs =>
  cases hm : mapValsJ p fs with
  | none => rw [hm] at h; simp at h
  | some rs =>
    rw [hm] at h
    have hd : Json.obj rs = d := by simpa using h
    subst hd
    simp only [zRecord]
    have := mapValsJ_stable hp fs rs hm
    cases hr : mapValsJ p rs with
    | none => rw [hr] at this; simp at this
    | some rs2 => simp

theorem lookupJ_cons_self (k : String) (r : Json)
    (tail : List (String × Json)) :
    lookupJ ((k, r) :: tail) k = some r := by
  simp [lookupJ, List.find?]

theorem lookupJ_cons_ne {k' k : String} (r : Json)
    (tail : List (String × Json)) (hne : k' ≠ k) :
    lookupJ ((k', r) :: tail) k = lookupJ tail k := by
  simp only [lookupJ, List.find?]
  rw [show (k' == k) = false from by simp [hne]]

theorem lookupJ_mem {fs : List (String × Json)} {k : String} {v : Json}
    (h : lookupJ fs k = some v) : (k, v) ∈ fs := by
  induction fs with
  | nil => simp [lookupJ] at h
  | cons f fs ih =>
    obtain ⟨a, b⟩ := f
    by_cases hk : a = k
    · subst hk
      have hb : (a == a) = true := by simp
      simp only [lookupJ, List.find?, hb] at h
      have hv : b = v := by simpa using h
      subst hv
      simp
    · have hb : (a == k) = false := by simp [hk]
      simp only [lookupJ, List.find?, hb] at h
      exact List.mem_cons_of_mem _ (ih h)

theorem lookupJ_append_left {l1 : List (String × Json)}
    (l2 : List (String × Json)) {k : String} {r : Json}
    (h : lookupJ l1 k = some r) : lookupJ (l1 ++ l2) k = some r := by
  induction l1 with
  | nil => simp [lookupJ] at h
  | cons f fs ih =>
    by_cases hk : f.1 = k
    · have hb : (f.1 == k) = true := by simp [hk]
      simp only [lookupJ, List.find?, List.cons_append, hb] at h ⊢
      exact h
    · have hb : (f.1 == k) = false := by simp [hk]
      simp only [lookupJ, List.find?, List.cons_append, hb] at h ⊢
      exact ih h

theorem lookupJ_append_right {l1 : List (String × Json)}
    (l2 : List (String × Json)) {k : String}
    (h : lookupJ l1 k = none) : lookupJ (l1 ++ l2) k = lookupJ l2 k := by
  induction l1 with
  | nil => simp
  | cons f fs ih =>
    by_cases hk : f.1 = k
    · have hb : (f.1 == k) = true := by simp [hk]
      simp only [lookupJ, List.find?, hb] at h
      simp at h
    · have hb : (f.1 == k) = false := by simp [hk]
      simp only [lookupJ, List.find?, List.cons_append, hb] at h ⊢
      exact ih h

theorem zObjCore_isSome (dfields : List (String × Json)) :
    ∀ specs : List FieldSpec, (∀ s ∈ specs, specOkOn dfields s) →
      (zObjCore dfields specs).isSome := by
  intro specs
  induction specs with
  | nil => intro _; simp [zObjCore]
  | cons s rest ih =>
    intro h
    obtain ⟨hsome, hnone⟩ := h s (by simp)
    have hrest := ih (fun s' hs' => h s' (by simp [hs']))
    obtain ⟨tail, htail⟩ := Option.isSome_iff_exists.mp hrest
    cases hl : lookupJ dfields s.name with
    | some v =>
      obtain ⟨r, hr⟩ := Option.isSome_iff_exists.mp (hsome v hl)
      simp [zObjCore, hl, hr, htail]
    | none =>
      obtain ⟨hreq, hdflt⟩ := hnone hl
      cases hopt : s.opt with
      | required => exact absurd hopt hreq
      | optional => simp [zObjCore, hl, hopt, htail]
      | defaulted dflt =>
        obtain ⟨r, hr⟩ := Option.isSome_iff_exists.mp (hdflt dflt hopt)
        simp [zObjCore, hl, hopt, hr, htail]

theorem zObjCore_names :
    ∀ (specs : List FieldSpec) (fields core : List (String × Json)),
      zObjCore fields specs = some core →
      ∀ e ∈ core, e.1 ∈ specs.map FieldSpec.name := by
  intro specs
  induction specs with
  | nil =>
    intro fields core hc e he
    simp only [zObjCore, Option.some.injEq] at hc
    rw [← hc] at he
    simp at he
  | cons s rest ih =>
    intro fields core hc e he
    cases hl : lookupJ fields s.name with
    | some v =>
      cases hv : s.schema v with
      | none => simp [zObjCore, hl, hv] at hc
      | some r =>
        cases hr : zObjCore fields rest with
        | none => simp [zObjCore, hl, hv, hr] at hc
        | some tail =>
          have hcore : (s.name, r) :: tail = core := by
            simpa [zObjCore, hl, hv, hr] using hc
          rw [← hcore] at he
          rcases List.mem_cons.mp he with he0 | he1
          · rw [he0]; simp
          · exact List.mem_cons_of_mem _ (ih fields tail hr e he1)
    | none =>
      cases hopt : s.opt with
      | required => simp [zObjCore, hl, hopt] at hc
      | optional =>
        have hc' : zObjCore fields rest = some core := by
          simpa [zObjCore, hl, hopt] using hc
        exact List.mem_cons_of_mem _ (ih fields core hc' e he)
      | defaulted dflt =>
        cases hv : s.schema dflt with
        | none => simp [zObjCore, hl, hopt, hv] at hc
        | some r =>
          cases hr : zObjCore fields rest with
          | none => simp [zObjCore, hl, hopt, hv, hr] at hc
          | some tail =>
            have hcore : (s.name, r) :: tail = core := by
              simpa [zObjCore, hl, hopt, hv, hr] using hc
            rw [← hcore] at he
            rcases List.mem_cons.mp he with he0 | he1
            · rw [he0]; simp
            · exact List.mem_cons_of_mem _ (ih fields tail hr e he1)

theorem zObjCore_entries :
    ∀ (specs : List FieldSpec) (fields core : List (String × Json)),
      (specs.map FieldSpec.name).Nodup →
      zObjCore fields specs = some core →
      ∀ s ∈ specs,
        (∃ v r, s.schema v = some r ∧ lookupJ core s.name = some r)
        ∨ (s.opt = .optional ∧ lookupJ core s.name = none) := by
  intro specs
  induction specs with
  | nil => intro fields core _ _ s hs; simp at hs
  | cons s0 rest ih =>
    intro fields core hnd hc s hs
    have hnd0 : s0.name ∉ rest.map FieldSpec.name :=
      (List.nodup_cons.mp (by simpa using hnd)).1
    have hndr : (rest.map FieldSpec.name).Nodup :=
      (List.nodup_cons.mp (by simpa using hnd)).2
    cases hl : lookupJ fields s0.name with
    | some v =>
      cases hv : s0.schema v with
      | none => simp [zObjCore, hl, hv] at hc
      | some r =>
        cases hr : zObjCore fields rest with
        | none => simp [zObjCore, hl, hv, hr] at hc
        | some tail =>
          have hcore : (s0.name, r) :: tail = core := by
            simpa [zObjCore, hl, hv, hr] using hc
          rcases List.mem_cons.mp hs with hs0 | hs1
          · subst hs0
            exact Or.inl ⟨v, r, hv, by rw [← hcore]; exact lookupJ_cons_self _ _ _⟩
          · have hne : s0.name ≠ s.name := by
              intro he
              exact hnd0 (he ▸ List.mem_map_of_mem FieldSpec.name hs1)
            have hlk : lookupJ core s.name = lookupJ tail s.name := by
              rw [← hcore]; exact lookupJ_cons_ne _ _ hne
            rcases ih fields tail hndr hr s hs1 with ⟨v', r', hvr', hlr'⟩ | ⟨ho, hlr'⟩
            · exact Or.inl ⟨v', r', hvr', by rw [hlk]; exact hlr'⟩
            · exact Or.inr ⟨ho, by rw [hlk]; exact hlr'⟩
    | none =>
      cases hopt : s0.opt with
      | required => simp [zObjCore, hl, hopt] at hc
      | optional =>
        have hc' : zObjCore fields rest = some core := by
          simpa [zObjCore, hl, hopt] using hc
        rcases List.mem_cons.mp hs with hs0 | hs1
        · subst hs0
          refine Or.inr ⟨hopt, ?_⟩
          cases hlc : lookupJ core s.name with
          | none => rfl
          | some w =>
            exfalso
            have hmem := lookupJ_mem hlc
            have := zObjCore_names rest fields core hc' _ hmem
            exact hnd0 this
        · rcases ih fields core hndr hc' s hs1 with h1 | h1
          · exact Or.inl h1
          · exact Or.inr h1
      | defaulted dflt =>
        cases hv : s0.schema dflt with
        | none => simp [zObjCore, hl, hopt, hv] at hc
        | some r =>
          cases hr : zObjCore fields rest with
          | none => simp [zObjCore, hl, hopt, hv, hr] at hc
          | some tail =>
            have hcore : (s0.name, r) :: tail = core := by
              simpa [zObjCore, hl, hopt, hv, hr] using hc
            rcases List.mem_cons.mp hs with hs0 | hs1
            · subst hs0
              exact Or.inl ⟨dflt, r, hv,
                by rw [← hcore]; exact lookupJ_cons_self _ _ _⟩
            · have hne : s0.name ≠ s.name := by
                intro he
                exact hnd0 (he ▸ List.mem_map_of_mem FieldSpec.name hs1)
              have hlk : lookupJ core s.name = lookupJ tail s.name := by
                rw [← hcore]; exact lookupJ_cons_ne _ _ hne
              rcases ih fields tail hndr hr s hs1 with ⟨v', r', hvr', hlr'⟩ | ⟨ho, hlr'⟩
              · exact Or.inl ⟨v', r', hvr', by rw [hlk]; exact hlr'⟩
              · exact Or.inr ⟨ho, by rw [hlk]; exact hlr'⟩

theorem lookupJ_passthrough_none (specs : List FieldSpec)
    (fields : List (String × Json)) {s : FieldSpec} (hs : s ∈ specs) :
    lookupJ (fields.filter
      (fun f => ¬ specs.any (fun s' => s'.name == f.1))) s.name = none := by
  cases hl : lookupJ (fields.filter
      (fun f => ¬ specs.any (fun s' => s'.name == f.1))) s.name with
  | none => rfl
  | some w =>
    exfalso
    have hmem := lookupJ_mem hl
    have := (List.mem_filter.mp hmem).2
    simp only [decide_not, Bool.not_eq_true', decide_eq_false_iff_not] at this
    exact this (List.any_eq_true.mpr ⟨s, hs, by simp⟩)

theorem zObj_stable {specs : List FieldSpec} {pt : Bool}
    (hnd : (specs.map FieldSpec.name).Nodup)
    (hs : ∀ s ∈ specs, WeakStable s.schema) : WeakStable (zObj specs pt) := by
  intro j d h
  cases j <;> simp only [zObj] at h <;> try exact Option.noConfusion h
  case obj fields =>
  cases hc : zObjCore fields specs with
  | none => rw [hc] at h; simp at h
  | some core =>
    rw [hc] at h
    have hd : Json.obj (core ++ (if pt then
        fields.filter (fun f => ¬ specs.any (fun s' => s'.name == f.1))
        else [])) = d := by simpa using h
    subst hd
    simp only [zObj]
    have hok : ∀ s ∈ specs, specOkOn (core ++ (if pt then
        fields.filter (fun f => ¬ specs.any (fun s' => s'.name == f.1))
        else [])) s := by
      intro s hsm
      rcases zObjCore_entries specs fields core hnd hc s hsm with
        ⟨v, r, hvr, hlr⟩ | ⟨hopt, hlr⟩
      · constructor
        · intro v' hv'
          rw [lookupJ_append_left _ hlr] at hv'
          have hrv : r = v' := by simpa using hv'
          subst hrv
          exact hs s hsm v r hvr
        · intro hnone
          rw [lookupJ_append_left _ hlr] at hnone
          exact Option.noConfusion hnone
      · have hfull : lookupJ (core ++ (if pt then
            fields.filter (fun f => ¬ specs.any (fun s' => s'.name == f.1))
            else [])) s.name = none := by
          rw [lookupJ_append_right _ hlr]
          cases pt with
          | true =>
            simp only [if_true]
            exact lookupJ_passthrough_none specs fields hsm
          | false => simp [lookupJ]
        constructor
        · intro v' hv'
          rw [hfull] at hv'
          exact Option.noConfusion hv'
        · intro _
          refine ⟨by rw [hopt]; intro hcon; exact FieldOpt.noConfusion hcon, ?_⟩
          intro dflt hdflt
          rw [hopt] at hdflt
          exact FieldOpt.noConfusion hdflt
    have := zObjCore_isSome _ specs hok
    cases hc2 : zObjCore (core ++ (if pt then
        fields.filter (fun f => ¬ specs.any (fun s' => s'.name == f.1))
        else [])) specs with
    | none => rw [hc2] at this; simp at this
    | some core2 => simp

theorem zRefine_stable {p : JSchema} {check : Json → Bool}
    (hp : WeakStable p)
    (hck : ∀ j d e, p j = some d → check d = true → p d = some e →
      check e = true) : WeakStable (zRefine p check) := by
  intro j d h
  simp only [zRefine] at h ⊢
  cases hpj : p j with
  | none => simp only [hpj] at h; exact Option.noConfusion h
  | some d0 =>
    simp only [hpj] at h
    by_cases hc : check d0 = true
    · rw [if_pos hc] at h
      have hd : d0 = d := by simpa using h
      subst hd
      have := hp j d0 hpj
      cases hpd : p d0 with
      | none => rw [hpd] at this; simp at this
      | some e =>
        simp only [hpd, if_pos (hck j d0 e hpj hc hpd)]
        simp
    · rw [if_neg hc] at h; simp at h

theorem zObjCore_hasKey_of_present :
    ∀ (specs : List FieldSpec) (fields core : List (String × Json))
      (s : FieldSpec), s ∈ specs → hasKeyJ fields s.name = true →
      zObjCore fields specs = some core → hasKeyJ core s.name = true := by
  intro specs
  induction specs with
  | nil => intro fields core s hs; simp at hs
  | cons s0 rest ih =>
    intro fields core s hs hk hc
    cases hl : lookupJ fields s0.name with
    | some v =>
      cases hv : s0.schema v with
      | none => simp [zObjCore, hl, hv] at hc
      | some r =>
        cases hr : zObjCore fields rest with
        | none => simp [zObjCore, hl, hv, hr] at hc
        | some tail =>
          have hcore : (s0.name, r) :: tail = core := by
            simpa [zObjCore, hl, hv, hr] using hc
          rcases List.mem_cons.mp hs with hs0 | hs1
          · subst hs0
            rw [← hcore]
            simp [hasKeyJ, lookupJ_cons_self]
          · by_cases hne : s0.name = s.name
            · rw [← hcore, hasKeyJ, ← hne, lookupJ_cons_self]; rfl
            · rw [← hcore, hasKeyJ, lookupJ_cons_ne _ _ hne]
              exact ih fields tail s hs1 hk hr
    | none =>
      cases hopt : s0.opt with
      | required => simp [zObjCore, hl, hopt] at hc
      | optional =>
        have hc' : zObjCore fields rest = some core := by
          simpa [zObjCore, hl, hopt] using hc
        rcases List.mem_cons.mp hs with hs0 | hs1
        · subst hs0
          rw [hasKeyJ, hl] at hk
          simp at hk
        · exact ih fields core s hs1 hk hc'
      | defaulted dflt =>
        cases hv : s0.schema dflt with
        | none => simp [zObjCore, hl, hopt, hv] at hc
        | some r =>
          cases hr : zObjCore fields rest with
          | none => simp [zObjCore, hl, hopt, hv, hr] at hc
          | some tail =>
            have hcore : (s0.name, r) :: tail = core := by
              simpa [zObjCore, hl, hopt, hv, hr] using hc
            rcases List.mem_cons.mp hs with hs0 | hs1
            · subst hs0
              rw [← hcore]
              simp [hasKeyJ, lookupJ_cons_self]
            · by_cases hne : s0.name = s.name
              · rw [← hcore, hasKeyJ, ← hne, lookupJ_cons_self]; rfl
              · rw [← hcore, hasKeyJ, lookupJ_cons_ne _ _ hne]
                exact ih fields tail s hs1 hk hr

theorem forall_specs_nil : ∀ s ∈ ([] : List FieldSpec), WeakStable s.schema := by
  intro s hs
  simp at hs

theorem forall_specs_cons {name : String} {p : JSchema} {o : FieldOpt}
    {rest : List FieldSpec} (hp : WeakStable p)
    (hr : ∀ s ∈ rest, WeakStable s.schema) :
    ∀ s ∈ (FieldSpec.mk name p o :: rest), WeakStable s.schema := by
  intro s hs
  rcases List.mem_cons.mp hs with rfl | h
  · exact hp
  · exact hr s h

theorem forall_specs_append {l1 l2 : List FieldSpec}
    (h1 : ∀ s ∈ l1, WeakStable s.schema)
    (h2 : ∀ s ∈ l2, WeakStable s.schema) :
    ∀ s ∈ l1 ++ l2, WeakStable s.schema := by
  intro s hs
  rcases List.mem_append.mp hs with h | h
  · exact h1 s h
  · exact h2 s h

theorem forall_js_nil : ∀ p ∈ ([] : List JSchema), WeakStable p := by
  intro p hp
  simp at hp

theorem forall_js_cons {p : JSchema} {ps : List JSchema} (hp : WeakStable p)
    (hps : ∀ q ∈ ps, WeakStable q) : ∀ q ∈ p :: ps, WeakStable q := by
  intro q hq
  rcases List.mem_cons.mp hq with rfl | h
  · exact hp
  · exact hps q h

theorem zUnion_stable {ps : List JSchema} (h : ∀ p ∈ ps, WeakStable p) :
    WeakStable (zUnion ps) := by
  induction ps with
  | nil => exact zUnion_nil_stable
  | cons p ps ih =>
    exact zUnion_cons_stable (h p (by simp))
      (ih (fun q hq => h q (by simp [hq])))
theorem zInt_stable : WeakStable zInt := zNumberIf_stable _

theorem zPosInt_stable : WeakStable zPosInt := zNumberIf_stable _

theorem zNonnegInt_stable : WeakStable zNonnegInt := zNumberIf_stable _

theorem zUnitNum_stable : WeakStable zUnitNum := zNumberIf_stable _

theorem NumberOrExpressionSchema_stable : WeakStable (NumberOrExpressionSchema) := by
  unfold NumberOrExpressionSchema
  exact (zUnion_stable (forall_js_cons zNumber_stable (forall_js_cons (zStringIf_stable _) forall_js_nil)))

theorem ColorValueSchema_stable : WeakStable ColorValueSchema := zString_stable

theorem EasingPresetSchema_stable : WeakStable (EasingPresetSchema) := by
  unfold EasingPresetSchema
  exact (zEnum_stable _)

theorem CubicBezierEasingSchema_stable : WeakStable (CubicBezierEasingSchema) := by
  unfold CubicBezierEasingSchema
  exact (zObj_stable (by decide) (forall_specs_cons (zLitStr_stable _) (forall_specs_cons (zTuple_stable (forall_js_cons zNumber_stable (forall_js_cons zNumber_stable (forall_js_cons zNumber_stable (forall_js_cons zNumber_stable forall_js_nil))))) forall_specs_nil)))

theorem StepsEasingSchema_stable : WeakStable (StepsEasingSchema) := by
  unfold StepsEasingSchema
  exact (zObj_stable (by decide) (forall_specs_cons (zLitStr_stable _) (forall_specs_cons zPosInt_stable (forall_specs_cons (zEnum_stable _) forall_specs_nil))))

theorem SpringPresetSchema_stable : WeakStable (SpringPresetSchema) := by
  unfold SpringPresetSchema
  exact (zEnum_stable _)

theorem SpringConfigSchema_stable : WeakStable SpringConfigSchema := by
  unfold SpringConfigSchema
  refine zRefine_stable (zObj_stable (by decide)
    (forall_specs_cons zNumber_stable (forall_specs_cons zNumber_stable (forall_specs_cons zNumber_stable (forall_specs_cons zNumber_stable (forall_specs_cons zNumber_stable (forall_specs_cons zNumber_stable (forall_specs_cons SpringPresetSchema_stable (forall_specs_cons zNumber_stable (forall_specs_cons zUnitNum_stable forall_specs_nil)))))))))) ?_
  intro j d e hpj hcd hpd
  cases d with
  | obj dfs =>
    simp only [zObj] at hpd
    rw [Option.map_eq_some'] at hpd
    obtain ⟨core2, hc2, he⟩ := hpd
    have he' : Json.obj core2 = e := by simpa using he
    subst he'
    simp only [springHasCore] at hcd ⊢
    simp only [Bool.or_eq_true] at hcd
    rcases hcd with (hk | hk) | hk
    · have hck := zObjCore_hasKey_of_present _ dfs core2
        ⟨"preset", SpringPresetSchema, .optional⟩ (by simp) hk hc2
      simp [hck]
    · have hck := zObjCore_hasKey_of_present _ dfs core2
        ⟨"stiffness", zNumber, .optional⟩ (by simp) hk hc2
      simp [hck]
    · have hck := zObjCore_hasKey_of_present _ dfs core2
        ⟨"duration", zNumber, .optional⟩ (by simp) hk hc2
      simp [hck]
  | null => simp [springHasCore] at hcd
  | bool b => simp [springHasCore] at hcd
  | num q => simp [springHasCore] at hcd
  | str s2 => simp [springHasCore] at hcd
  | arr xs => simp [springHasCore] at hcd

theorem SpringEasingSchema_stable : WeakStable (SpringEasingSchema) := by
  unfold SpringEasingSchema
  exact (zObj_stable (by decide) (forall_specs_cons (zLitStr_stable _) (forall_specs_cons SpringConfigSchema_stable forall_specs_nil)))

theorem EasingDefinitionSchema_stable : WeakStable (EasingDefinitionSchema) := by
  unfold EasingDefinitionSchema
  exact (zUnion_stable (forall_js_cons EasingPresetSchema_stable (forall_js_cons CubicBezierEasingSchema_stable (forall_js_cons StepsEasingSchema_stable (forall_js_cons SpringEasingSchema_stable forall_js_nil)))))

theorem StaggerDefinitionSchema_stable : WeakStable (StaggerDefinitionSchema) := by
  unfold StaggerDefinitionSchema
  exact (zObj_stable (by decide) (forall_specs_cons zNumber_stable (forall_specs_cons (zUnion_stable (forall_js_cons (zEnum_stable _) (forall_js_cons zNonnegInt_stable forall_js_nil))) (forall_specs_cons (zTuple_stable (forall_js_cons zPosInt_stable (forall_js_cons zPosInt_stable forall_js_nil))) (forall_specs_cons (zEnum_stable _) (forall_specs_cons EasingDefinitionSchema_stable forall_specs_nil))))))

theorem RepeatDefinitionSchema_stable : WeakStable (RepeatDefinitionSchema) := by
  unfold RepeatDefinitionSchema
  exact (zObj_stable (by decide) (forall_specs_cons (zUnion_stable (forall_js_cons zPosInt_stable (forall_js_cons (zLitStr_stable _) forall_js_nil))) (forall_specs_cons zNumber_stable (forall_specs_cons (zEnum_stable _) forall_specs_nil))))

theorem ShadowDefinitionSchema_stable : WeakStable (ShadowDefinitionSchema) := by
  unfold ShadowDefinitionSchema
  exact (zObj_stable (by decide) (forall_specs_cons NumberOrExpressionSchema_stable (forall_specs_cons NumberOrExpressionSchema_stable (forall_specs_cons NumberOrExpressionSchema_stable (forall_specs_cons NumberOrExpressionSchema_stable (forall_specs_cons ColorValueSchema_stable (forall_specs_cons zBoolean_stable forall_specs_nil)))))))

theorem ElementStateSchema_stable : WeakStable (ElementStateSchema) := by
  unfold ElementStateSchema
  exact (zObj_stable (by decide) (forall_specs_cons NumberOrExpressionSchema_stable (forall_specs_cons NumberOrExpressionSchema_stable (forall_specs_cons NumberOrExpressionSchema_stable (forall_specs_cons NumberOrExpressionSchema_stable (forall_specs_cons NumberOrExpressionSchema_stable (forall_specs_cons NumberOrExpressionSchema_stable (forall_specs_cons NumberOrExpressionSchema_stable (forall_specs_cons NumberOrExpressionSchema_stable (forall_specs_cons NumberOrExpressionSchema_stable (forall_specs_cons NumberOrExpressionSchema_stable (forall_specs_cons NumberOrExpressionSchema_stable (forall_specs_cons NumberOrExpressionSchema_stable (forall_specs_cons NumberOrExpressionSchema_stable (forall_specs_cons NumberOrExpressionSchema_stable (forall_specs_cons NumberOrExpressionSchema_stable (forall_specs_cons ColorValueSchema_stable (forall_specs_cons ColorValueSchema_stable (forall_specs_cons ColorValueSchema_stable (forall_specs_cons ColorValueSchema_stable (forall_specs_cons ColorValueSchema_stable (forall_specs_cons (zUnion_stable (forall_js_cons NumberOrExpressionSchema_stable (forall_js_cons (zLitStr_stable _) forall_js_nil))) (forall_specs_cons (zUnion_stable (forall_js_cons NumberOrExpressionSchema_stable (forall_js_cons (zLitStr_stable _) forall_js_nil))) (forall_specs_cons (zUnion_stable (forall_js_cons NumberOrExpressionSchema_stable (forall_js_cons zString_stable forall_js_nil))) (forall_specs_cons NumberOrExpressionSchema_stable (forall_specs_cons NumberOrExpressionSchema_stable (forall_specs_cons zString_stable (forall_specs_cons NumberOrExpressionSchema_stable (forall_specs_cons NumberOrExpressionSchema_stable (forall_specs_cons NumberOrExpressionSchema_stable (forall_specs_cons NumberOrExpressionSchema_stable (forall_specs_cons NumberOrExpressionSchema_stable (forall_specs_cons NumberOrExpressionSchema_stable (forall_specs_cons NumberOrExpressionSchema_stable (forall_specs_cons NumberOrExpressionSchema_stable (forall_specs_cons NumberOrExpressionSchema_stable (forall_specs_cons NumberOrExpressionSchema_stable (forall_specs_cons (zUnion_stable (forall_js_cons ShadowDefinitionSchema_stable (forall_js_cons (zArray_stable ShadowDefinitionSchema_stable) forall_js_nil))) (forall_specs_cons (zObj_stable (by decide) (forall_specs_cons zString_stable (forall_specs_cons NumberOrExpressionSchema_stable (forall_specs_cons zBoolean_stable (forall_specs_cons NumberOrExpressionSchema_stable forall_specs_nil))))) (forall_specs_cons zString_stable (forall_specs_cons NumberOrExpressionSchema_stable (forall_specs_cons zString_stable (forall_specs_cons (zEnum_stable _) (forall_specs_cons (zEnum_stable _) forall_specs_nil))))))))))))))))))))))))))))))))))))))))))))

theorem ScrollTriggerConfigSchema_stable : WeakStable (ScrollTriggerConfigSchema) := by
  unfold ScrollTriggerConfigSchema
  exact (zObj_stable (by decide) (forall_specs_cons zString_stable (forall_specs_cons (zEnum_stable _) (forall_specs_cons zString_stable (forall_specs_cons zString_stable (forall_specs_cons (zUnion_stable (forall_js_cons zBoolean_stable (forall_js_cons zNumber_stable forall_js_nil))) (forall_specs_cons zBoolean_stable (forall_specs_cons zBoolean_stable (forall_specs_cons (zTuple_stable (forall_js_cons zNumber_stable (forall_js_cons zNumber_stable forall_js_nil))) forall_specs_nil)))))))))

theorem InViewConfigSchema_stable : WeakStable (InViewConfigSchema) := by
  unfold InViewConfigSchema
  exact (zObj_stable (by decide) (forall_specs_cons zString_stable (forall_specs_cons (zUnion_stable (forall_js_cons (zEnum_stable _) (forall_js_cons zNumber_stable forall_js_nil))) (forall_specs_cons zBoolean_stable forall_specs_nil))))

theorem AudioTriggerConfigSchema_stable : WeakStable (AudioTriggerConfigSchema) := by
  unfold AudioTriggerConfigSchema
  exact (zObj_stable (by decide) (forall_specs_cons (zUnion_stable (forall_js_cons zNumber_stable (forall_js_cons (zEnum_stable _) forall_js_nil))) (forall_specs_cons zUnitNum_stable (forall_specs_cons (zEnum_stable _) forall_specs_nil))))

theorem TriggerDefinitionSchema_stable : WeakStable (TriggerDefinitionSchema) := by
  unfold TriggerDefinitionSchema
  exact (zUnion_stable (forall_js_cons (zObj_stable (by decide) (forall_specs_cons (zLitStr_stable _) (forall_specs_cons zNumber_stable forall_specs_nil))) (forall_js_cons (zObj_stable (by decide) (forall_specs_cons (zLitStr_stable _) forall_specs_nil)) (forall_js_cons (zObj_stable (by decide) (forall_specs_cons (zLitStr_stable _) (forall_specs_cons zString_stable forall_specs_nil))) (forall_js_cons (zObj_stable (by decide) (forall_specs_cons (zLitStr_stable _) (forall_specs_cons zString_stable forall_specs_nil))) (forall_js_cons (zObj_stable (by decide) (forall_specs_cons (zLitStr_stable _) (forall_specs_cons zString_stable forall_specs_nil))) (forall_js_cons (zObj_stable (by decide) (forall_specs_cons (zLitStr_stable _) (forall_specs_cons zString_stable forall_specs_nil))) (forall_js_cons (zObj_stable (by decide) (forall_specs_cons (zLitStr_stable _) (forall_specs_cons zString_stable forall_specs_nil))) (forall_js_cons (zObj_stable (by decide) (forall_specs_cons (zLitStr_stable _) (forall_specs_cons ScrollTriggerConfigSchema_stable forall_specs_nil))) (forall_js_cons (zObj_stable (by decide) (forall_specs_cons (zLitStr_stable _) (forall_specs_cons InViewConfigSchema_stable forall_specs_nil))) (forall_js_cons (zObj_stable (by decide) (forall_specs_cons (zLitStr_stable _) (forall_specs_cons (zEnum_stable _) (forall_specs_cons zString_stable (forall_specs_cons zNumber_stable (forall_specs_cons zNumber_stable forall_specs_nil)))))) (forall_js_cons (zObj_stable (by decide) (forall_specs_cons (zLitStr_stable _) (forall_specs_cons zString_stable (forall_specs_cons (zEnum_stable _) forall_specs_nil)))) (forall_js_cons (zObj_stable (by decide) (forall_specs_cons (zLitStr_stable _) (forall_specs_cons zString_stable forall_specs_nil))) (forall_js_cons (zObj_stable (by decide) (forall_specs_cons (zLitStr_stable _) (forall_specs_cons zString_stable forall_specs_nil))) (forall_js_cons (zObj_stable (by decide) (forall_specs_cons (zLitStr_stable _) (forall_specs_cons AudioTriggerConfigSchema_stable forall_specs_nil))) forall_js_nil)))))))))))))))

theorem KeyframeDefinitionSchema_stable : WeakStable (KeyframeDefinitionSchema) := by
  unfold KeyframeDefinitionSchema
  exact (zObj_stable (by decide) (forall_specs_cons (zNumberIf_stable _) (forall_specs_cons ElementStateSchema_stable (forall_specs_cons EasingDefinitionSchema_stable forall_specs_nil))))

theorem zTargetField_stable : WeakStable (zTargetField) := by
  unfold zTargetField
  exact (zUnion_stable (forall_js_cons zString_stable (forall_js_cons (zArray_stable zString_stable) forall_js_nil)))

theorem KeyframeAnimationSchema_stable : WeakStable (KeyframeAnimationSchema) := by
  unfold KeyframeAnimationSchema
  exact (zObj_stable (by decide) (forall_specs_cons (zLitStr_stable _) (forall_specs_cons zTargetField_stable (forall_specs_cons (zArrayMin_stable 1 KeyframeDefinitionSchema_stable) (forall_specs_cons zNumber_stable (forall_specs_cons EasingDefinitionSchema_stable (forall_specs_cons zString_stable (forall_specs_cons zNumber_stable (forall_specs_cons zNumber_stable (forall_specs_cons StaggerDefinitionSchema_stable forall_specs_nil))))))))))

theorem SpringAnimationSchema_stable : WeakStable (SpringAnimationSchema) := by
  unfold SpringAnimationSchema
  exact (zObj_stable (by decide) (forall_specs_cons (zLitStr_stable _) (forall_specs_cons zTargetField_stable (forall_specs_cons ElementStateSchema_stable (forall_specs_cons ElementStateSchema_stable (forall_specs_cons SpringConfigSchema_stable (forall_specs_cons zNumber_stable (forall_specs_cons zNumber_stable (forall_specs_cons StaggerDefinitionSchema_stable forall_specs_nil)))))))))

theorem TransitionAnimationSchema_stable : WeakStable (TransitionAnimationSchema) := by
  unfold TransitionAnimationSchema
  exact (zObj_stable (by decide) (forall_specs_cons (zLitStr_stable _) (forall_specs_cons zTargetField_stable (forall_specs_cons ElementStateSchema_stable (forall_specs_cons ElementStateSchema_stable (forall_specs_cons zNumber_stable (forall_specs_cons EasingDefinitionSchema_stable (forall_specs_cons zNumber_stable (forall_specs_cons zNumber_stable (forall_specs_cons StaggerDefinitionSchema_stable forall_specs_nil))))))))))

theorem MorphAnimationSchema_stable : WeakStable (MorphAnimationSchema) := by
  unfold MorphAnimationSchema
  exact (zObj_stable (by decide) (forall_specs_cons (zLitStr_stable _) (forall_specs_cons zString_stable (forall_specs_cons zString_stable (forall_specs_cons zString_stable (forall_specs_cons zNumber_stable (forall_specs_cons EasingDefinitionSchema_stable (forall_specs_cons zNumber_stable (forall_specs_cons zNumber_stable forall_specs_nil)))))))))

theorem MatchCutAnimationSchema_stable : WeakStable (MatchCutAnimationSchema) := by
  unfold MatchCutAnimationSchema
  exact (zObj_stable (by decide) (forall_specs_cons (zLitStr_stable _) (forall_specs_cons zString_stable (forall_specs_cons zString_stable (forall_specs_cons zNumber_stable (forall_specs_cons EasingDefinitionSchema_stable (forall_specs_cons (zObj_stable (by decide) (forall_specs_cons zNumber_stable (forall_specs_cons zNumber_stable forall_specs_nil))) (forall_specs_cons zBoolean_stable (forall_specs_cons zNumber_stable forall_specs_nil)))))))))

theorem ParticleEmitterConfigSchema_stable : WeakStable (ParticleEmitterConfigSchema) := by
  unfold ParticleEmitterConfigSchema
  exact (zObj_stable (by decide) (forall_specs_cons (zObj_stable (by decide) (forall_specs_cons zNumber_stable (forall_specs_cons zNumber_stable forall_specs_nil))) (forall_specs_cons zPosInt_stable (forall_specs_cons zNumber_stable (forall_specs_cons zBoolean_stable (forall_specs_cons (zObj_stable (by decide) (forall_specs_cons zNumber_stable (forall_specs_cons zNumber_stable forall_specs_nil))) (forall_specs_cons (zObj_stable (by decide) (forall_specs_cons (zObj_stable (by decide) (forall_specs_cons zNumber_stable (forall_specs_cons zNumber_stable forall_specs_nil))) (forall_specs_cons (zObj_stable (by decide) (forall_specs_cons zNumber_stable (forall_specs_cons zNumber_stable forall_specs_nil))) forall_specs_nil))) (forall_specs_cons (zObj_stable (by decide) (forall_specs_cons (zObj_stable (by decide) (forall_specs_cons zNumber_stable (forall_specs_cons zNumber_stable forall_specs_nil))) (forall_specs_cons zNumber_stable (forall_specs_cons zNumber_stable forall_specs_nil)))) (forall_specs_cons (zObj_stable (by decide) (forall_specs_cons (zEnum_stable _) (forall_specs_cons (zObj_stable (by decide) (forall_specs_cons zNumber_stable (forall_specs_cons zNumber_stable forall_specs_nil))) (forall_specs_cons (zArray_stable ColorValueSchema_stable) (forall_specs_cons (zObj_stable (by decide) (forall_specs_cons zNumber_stable (forall_specs_cons zNumber_stable forall_specs_nil))) (forall_specs_cons (zObj_stable (by decide) (forall_specs_cons zNumber_stable (forall_specs_cons zBoolean_stable forall_specs_nil))) forall_specs_nil)))))) forall_specs_nil)))))))))

theorem ParticleAnimationSchema_stable : WeakStable (ParticleAnimationSchema) := by
  unfold ParticleAnimationSchema
  exact (zObj_stable (by decide) (forall_specs_cons (zLitStr_stable _) (forall_specs_cons ParticleEmitterConfigSchema_stable (forall_specs_cons zNumber_stable (forall_specs_cons zNumber_stable forall_specs_nil)))))

theorem TextAnimationSchema_stable : WeakStable (TextAnimationSchema) := by
  unfold TextAnimationSchema
  exact (zObj_stable (by decide) (forall_specs_cons (zLitStr_stable _) (forall_specs_cons zString_stable (forall_specs_cons (zEnum_stable _) (forall_specs_cons zNumber_stable (forall_specs_cons zNumber_stable (forall_specs_cons (zEnum_stable _) (forall_specs_cons EasingDefinitionSchema_stable (forall_specs_cons zNumber_stable (forall_specs_cons zNumber_stable forall_specs_nil))))))))))

theorem AnimationBlockSchema_stable :
    ∀ n, WeakStable (AnimationBlockSchema n) := by
  intro n
  induction n with
  | zero => intro j d h; simp [AnimationBlockSchema] at h
  | succ n ih =>
    intro j d h
    exact zUnion_stable (forall_js_cons KeyframeAnimationSchema_stable (forall_js_cons SpringAnimationSchema_stable (forall_js_cons TransitionAnimationSchema_stable (forall_js_cons (zObj_stable (by simp) (forall_specs_cons (zLitStr_stable _) (forall_specs_cons (zEnum_stable _) (forall_specs_cons (zArray_stable ih) (forall_specs_cons zNumber_stable (forall_specs_cons StaggerDefinitionSchema_stable (forall_specs_cons zNumber_stable forall_specs_nil))))))) (forall_js_cons MorphAnimationSchema_stable (forall_js_cons MatchCutAnimationSchema_stable (forall_js_cons (zObj_stable (by simp) (forall_specs_cons (zLitStr_stable _) (forall_specs_cons zString_stable (forall_specs_cons (zEnum_stable _) (forall_specs_cons (zObj_stable (by simp) (forall_specs_cons zNumber_stable (forall_specs_cons zNumber_stable (forall_specs_cons zNumber_stable (forall_specs_cons zNumber_stable forall_specs_nil))))) (forall_specs_cons zNumber_stable (forall_specs_cons zNumber_stable (forall_specs_cons zBoolean_stable (forall_specs_cons ih forall_specs_nil))))))))) (forall_js_cons ParticleAnimationSchema_stable (forall_js_cons TextAnimationSchema_stable forall_js_nil))))))))) j d h

theorem BlendModeSchema_stable : WeakStable (BlendModeSchema) := by
  unfold BlendModeSchema
  exact (zEnum_stable _)

theorem MaskDefinitionSchema_stable : WeakStable (MaskDefinitionSchema) := by
  unfold MaskDefinitionSchema
  exact (zObj_stable (by decide) (forall_specs_cons zString_stable (forall_specs_cons zString_stable (forall_specs_cons (zEnum_stable _) (forall_specs_cons zBoolean_stable forall_specs_nil)))))

theorem EffectDefinitionSchema_stable : WeakStable (EffectDefinitionSchema) := by
  unfold EffectDefinitionSchema
  exact (zUnion_stable (forall_js_cons (zObj_stable (by decide) (forall_specs_cons (zLitStr_stable _) (forall_specs_cons ColorValueSchema_stable (forall_specs_cons NumberOrExpressionSchema_stable (forall_specs_cons NumberOrExpressionSchema_stable (forall_specs_cons NumberOrExpressionSchema_stable forall_specs_nil)))))) (forall_js_cons (zObj_stable (by decide) (forall_specs_cons (zLitStr_stable _) (forall_specs_cons (zObj_stable (by decide) (forall_specs_cons zNumber_stable (forall_specs_cons zNumber_stable forall_specs_nil))) (forall_specs_cons NumberOrExpressionSchema_stable (forall_specs_cons NumberOrExpressionSchema_stable (forall_specs_cons ColorValueSchema_stable (forall_specs_cons NumberOrExpressionSchema_stable forall_specs_nil))))))) (forall_js_cons (zObj_stable (by decide) (forall_specs_cons (zLitStr_stable _) (forall_specs_cons ColorValueSchema_stable (forall_specs_cons NumberOrExpressionSchema_stable (forall_specs_cons NumberOrExpressionSchema_stable (forall_specs_cons NumberOrExpressionSchema_stable (forall_specs_cons NumberOrExpressionSchema_stable forall_specs_nil))))))) (forall_js_cons (zObj_stable (by decide) (forall_specs_cons (zLitStr_stable _) (forall_specs_cons zPosInt_stable (forall_specs_cons NumberOrExpressionSchema_stable forall_specs_nil)))) forall_js_nil)))))

theorem baseElementSpecs_stable :
    ∀ s ∈ baseElementSpecs, WeakStable s.schema := by
  unfold baseElementSpecs
  exact (forall_specs_cons ElementStateSchema_stable (forall_specs_cons BlendModeSchema_stable (forall_specs_cons MaskDefinitionSchema_stable (forall_specs_cons (zArray_stable EffectDefinitionSchema_stable) forall_specs_nil))))

theorem LayoutDefinitionSchema_stable : WeakStable (LayoutDefinitionSchema) := by
  unfold LayoutDefinitionSchema
  exact (zObj_stable (by decide) (forall_specs_cons (zEnum_stable _) (forall_specs_cons NumberOrExpressionSchema_stable (forall_specs_cons (zUnion_stable (forall_js_cons NumberOrExpressionSchema_stable (forall_js_cons (zTuple_stable (forall_js_cons NumberOrExpressionSchema_stable (forall_js_cons NumberOrExpressionSchema_stable (forall_js_cons NumberOrExpressionSchema_stable (forall_js_cons NumberOrExpressionSchema_stable forall_js_nil))))) forall_js_nil))) (forall_specs_cons (zEnum_stable _) (forall_specs_cons (zEnum_stable _) (forall_specs_cons zBoolean_stable (forall_specs_cons zPosInt_stable (forall_specs_cons zPosInt_stable forall_specs_nil)))))))))

theorem ElementDefinitionSchema_stable : WeakStable (ElementDefinitionSchema) := by
  unfold ElementDefinitionSchema
  exact (zUnion_stable (forall_js_cons (zObj_stable (by decide) (forall_specs_append baseElementSpecs_stable (forall_specs_cons (zLitStr_stable _) forall_specs_nil))) (forall_js_cons (zObj_stable (by decide) (forall_specs_append baseElementSpecs_stable (forall_specs_cons (zLitStr_stable _) (forall_specs_cons NumberOrExpressionSchema_stable forall_specs_nil)))) (forall_js_cons (zObj_stable (by decide) (forall_specs_append baseElementSpecs_stable (forall_specs_cons (zLitStr_stable _) (forall_specs_cons zString_stable (forall_specs_cons zString_stable (forall_specs_cons NumberOrExpressionSchema_stable (forall_specs_cons (zUnion_stable (forall_js_cons zNumber_stable (forall_js_cons zString_stable forall_js_nil))) (forall_specs_cons NumberOrExpressionSchema_stable (forall_specs_cons NumberOrExpressionSchema_stable (forall_specs_cons (zEnum_stable _) forall_specs_nil)))))))))) (forall_js_cons (zObj_stable (by decide) (forall_specs_append baseElementSpecs_stable (forall_specs_cons (zLitStr_stable _) (forall_specs_cons zString_stable (forall_specs_cons (zArray_stable zString_stable) forall_specs_nil))))) (forall_js_cons (zObj_stable (by decide) (forall_specs_append baseElementSpecs_stable (forall_specs_cons (zLitStr_stable _) (forall_specs_cons zString_stable forall_specs_nil)))) (forall_js_cons (zObj_stable (by decide) (forall_specs_append baseElementSpecs_stable (forall_specs_cons (zLitStr_stable _) (forall_specs_cons zString_stable (forall_specs_cons (zArray_stable (zObj_stable (by decide) (forall_specs_cons zNumber_stable (forall_specs_cons zNumber_stable (forall_specs_cons zNumber_stable (forall_specs_cons zNumber_stable forall_specs_nil)))))) (forall_specs_cons (zArray_stable zNonnegInt_stable) (forall_specs_cons (zArray_stable (zObj_stable (by decide) (forall_specs_cons zString_stable (forall_specs_cons (zArray_stable zNonnegInt_stable) (forall_specs_cons (zArray_stable zUnitNum_stable) forall_specs_nil))))) forall_specs_nil))))))) (forall_js_cons (zObj_stable (by decide) (forall_specs_append baseElementSpecs_stable (forall_specs_cons (zLitStr_stable _) (forall_specs_cons (zArray_stable zString_stable) (forall_specs_cons LayoutDefinitionSchema_stable forall_specs_nil))))) (forall_js_cons (zObj_stable (by decide) (forall_specs_append baseElementSpecs_stable (forall_specs_cons (zLitStr_stable _) (forall_specs_cons zString_stable (forall_specs_cons (zRecord_stable zUnknown_stable) forall_specs_nil))))) forall_js_nil)))))))))

theorem SequenceDefinitionSchema_stable (fuel : ℕ) : WeakStable (SequenceDefinitionSchema fuel) := by
  unfold SequenceDefinitionSchema
  exact (zObj_stable (by simp) (forall_specs_cons zString_stable (forall_specs_cons TriggerDefinitionSchema_stable (forall_specs_cons (zArray_stable (AnimationBlockSchema_stable fuel)) (forall_specs_cons RepeatDefinitionSchema_stable (forall_specs_cons zBoolean_stable forall_specs_nil))))))

theorem AnimationDefaultsSchema_stable : WeakStable (AnimationDefaultsSchema) := by
  unfold AnimationDefaultsSchema
  exact (zObj_stable (by decide) (forall_specs_cons zNumber_stable (forall_specs_cons EasingDefinitionSchema_stable (forall_specs_cons StaggerDefinitionSchema_stable forall_specs_nil))))

theorem TimelineDefinitionSchema_stable (fuel : ℕ) : WeakStable (TimelineDefinitionSchema fuel) := by
  unfold TimelineDefinitionSchema
  exact (zObj_stable (by simp) (forall_specs_cons AnimationDefaultsSchema_stable (forall_specs_cons (zArray_stable (SequenceDefinitionSchema_stable fuel)) forall_specs_nil)))

theorem StateTransitionSchema_stable : WeakStable (StateTransitionSchema) := by
  unfold StateTransitionSchema
  exact (zObj_stable (by decide) (forall_specs_cons zString_stable (forall_specs_cons zString_stable (forall_specs_cons zString_stable (forall_specs_cons zNumber_stable (forall_specs_cons EasingDefinitionSchema_stable forall_specs_nil))))))

theorem StateDefinitionSchema_stable (fuel : ℕ) : WeakStable (StateDefinitionSchema fuel) := by
  unfold StateDefinitionSchema
  exact (zObj_stable (by simp) (forall_specs_cons zString_stable (forall_specs_cons (zArray_stable (AnimationBlockSchema_stable fuel)) (forall_specs_cons (zArray_stable (AnimationBlockSchema_stable fuel)) (forall_specs_cons (zArray_stable StateTransitionSchema_stable) forall_specs_nil)))))

theorem InputDefinitionSchema_stable : WeakStable (InputDefinitionSchema) := by
  unfold InputDefinitionSchema
  exact (zObj_stable (by decide) (forall_specs_cons (zEnum_stable _) (forall_specs_cons (zUnion_stable (forall_js_cons zBoolean_stable (forall_js_cons zNumber_stable forall_js_nil))) (forall_specs_cons zNumber_stable (forall_specs_cons zNumber_stable forall_specs_nil)))))

theorem StateMachineSchema_stable (fuel : ℕ) : WeakStable (StateMachineSchema fuel) := by
  unfold StateMachineSchema
  exact (zObj_stable (by simp) (forall_specs_cons zString_stable (forall_specs_cons (zRecord_stable (StateDefinitionSchema_stable fuel)) (forall_specs_cons (zRecord_stable InputDefinitionSchema_stable) forall_specs_nil))))

theorem ViewModelPropertySchema_stable : WeakStable (ViewModelPropertySchema) := by
  unfold ViewModelPropertySchema
  exact (zObj_stable (by decide) (forall_specs_cons (zEnum_stable _) (forall_specs_cons (zUnion_stable (forall_js_cons zString_stable (forall_js_cons zNumber_stable (forall_js_cons zBoolean_stable forall_js_nil)))) (forall_specs_cons (zArray_stable zString_stable) forall_specs_nil))))

theorem PropertyBindingSchema_stable : WeakStable (PropertyBindingSchema) := by
  unfold PropertyBindingSchema
  exact (zObj_stable (by decide) (forall_specs_cons zString_stable (forall_specs_cons zString_stable (forall_specs_cons zString_stable forall_specs_nil))))

theorem DataBindingSchema_stable : WeakStable (DataBindingSchema) := by
  unfold DataBindingSchema
  exact (zObj_stable (by decide) (forall_specs_cons (zRecord_stable ViewModelPropertySchema_stable) (forall_specs_cons (zArray_stable PropertyBindingSchema_stable) forall_specs_nil)))

theorem AudioAnalysisConfigSchema_stable : WeakStable (AudioAnalysisConfigSchema) := by
  unfold AudioAnalysisConfigSchema
  exact (zObj_stable (by decide) (forall_specs_cons (zNumberIf_stable _) (forall_specs_cons zUnitNum_stable (forall_specs_cons zNumber_stable (forall_specs_cons zNumber_stable (forall_specs_cons zInt_stable forall_specs_nil))))))

theorem AudioBindingSchema_stable : WeakStable (AudioBindingSchema) := by
  unfold AudioBindingSchema
  exact (zObj_stable (by decide) (forall_specs_cons (zUnion_stable (forall_js_cons zNumber_stable (forall_js_cons (zEnum_stable _) forall_js_nil))) (forall_specs_cons zString_stable (forall_specs_cons (zTuple_stable (forall_js_cons zNumber_stable (forall_js_cons zNumber_stable forall_js_nil))) (forall_specs_cons (zTuple_stable (forall_js_cons zNumber_stable (forall_js_cons zNumber_stable forall_js_nil))) (forall_specs_cons EasingDefinitionSchema_stable forall_specs_nil))))))

theorem AudioConfigSchema_stable : WeakStable (AudioConfigSchema) := by
  unfold AudioConfigSchema
  exact (zObj_stable (by decide) (forall_specs_cons zString_stable (forall_specs_cons AudioAnalysisConfigSchema_stable (forall_specs_cons (zArray_stable AudioBindingSchema_stable) forall_specs_nil))))

theorem AnimationMetaSchema_stable : WeakStable (AnimationMetaSchema) := by
  unfold AnimationMetaSchema
  exact (zObj_stable (by decide) (forall_specs_cons zString_stable (forall_specs_cons zString_stable (forall_specs_cons zNumber_stable (forall_specs_cons zPosInt_stable (forall_specs_cons (zObj_stable (by decide) (forall_specs_cons (zNumberIf_stable _) (forall_specs_cons (zNumberIf_stable _) forall_specs_nil))) forall_specs_nil))))))

theorem KineticAnimationSchema_stable (fuel : ℕ) : WeakStable (KineticAnimationSchema fuel) := by
  unfold KineticAnimationSchema
  exact (zObj_stable (by simp) (forall_specs_cons zString_stable (forall_specs_cons (zLitStr_stable _) (forall_specs_cons AnimationMetaSchema_stable (forall_specs_cons (zRecord_stable (zUnion_stable (forall_js_cons zNumber_stable (forall_js_cons zString_stable (forall_js_cons (zArray_stable zNumber_stable) forall_js_nil))))) (forall_specs_cons AudioConfigSchema_stable (forall_specs_cons (zRecord_stable ElementDefinitionSchema_stable) (forall_specs_cons (TimelineDefinitionSchema_stable fuel) (forall_specs_cons (StateMachineSchema_stable fuel) (forall_specs_cons DataBindingSchema_stable forall_specs_nil))))))))))


/-- C9: round-trip idempotence of the validator.  If `validateDSL`
accepts an input JSON tree (`valid: true` with data `d` and a literal
empty error array), then serializing `d` and validating the resulting
text again also returns `valid: true` with an empty error list:
`JSON.parse ∘ JSON.stringify` is the identity on JSON trees, so the
round trip is exactly revalidation of `d`, and every schema of the
validator accepts its own outputs.  The statement is uniform in the
fuel unrolling the `z.lazy` recursion of `AnimationBlockSchema`. -/
theorem c9_roundtrip (fuel : ℕ) (j d : Json)
    (h : validateDSL fuel j = some d) : (validateDSL fuel d).isSome := by
  unfold validateDSL at h ⊢
  exact KineticAnimationSchema_stable fuel j d h

theorem c9_roundtrip_witness :
    (validateDSL 1 (.obj [("version", .str "1.0"), ("elements", .obj []),
      ("timeline", .obj [("sequences", .arr [])])])).isSome :=
  c9_roundtrip 1
    (.obj [("version", .str "1.0"), ("elements", .obj []),
      ("timeline", .obj [("sequences", .arr [])])])
    (.obj [("version", .str "1.0"), ("elements", .obj []),
      ("timeline", .obj [("sequences", .arr [])])])
    (by rfl)
